import Mathlib

/-! Record demuxer playback engine

A shallow embedding of `libpdraw/src/pdraw_demuxer_record.cpp` (class
`Pdraw::RecordDemuxer`).  The C++ object becomes a record of its member
variables, each method becomes a function from the record (and the method's
arguments) to the returned code and the updated record.

Conventions:

* `int` return codes are kept as integers: `0` is success and a failure is the
  negated `errno` value, exactly as in the source.  The error kinds of the
  specification are `NotConfigured = -EPROTO`, `InvalidArgument = -EINVAL`,
  `NoVideoTrack = -ENOENT`, `Io = -EIO`, `Unsupported = -ENOSYS`.
* `uint64_t` values are naturals, `int64_t` values are integers; every
  conversion between the two is written out with `toInt64` / `toUInt64`, and
  signed 64-bit addition wraps.
* `float` values are kept as their IEEE-754 binary32 bit pattern (`F32`); the
  only float operation of the public API is the comparison `speed == 0.`.
* The one-shot `pomp_timer` is the delay it is armed with, if any.
* The MP4 container library, the SPS parser and the session-metadata reader are
  not part of the embedded file; they are taken as parameters (`Env`,
  `Mp4Demux`).  The decoder constants of `pdraw_avcdecoder.hpp` are taken as
  parameters as well (`Defs`).
* The timer callback `timerCb` is a function of the demuxer and of the answers
  that its collaborators give during the tick (`TickInputs`: the clock, the
  container, the buffer pool, the H.264 reader, the decoder); it returns the
  demuxer after the tick and the list of the calls it made (`Event`).  The
  library functions it uses are parameters (`Libs`).  A buffer is the list of
  its bytes; `size_t` has 64 bits.
-/

namespace Pdraw

/-! ## Return codes -/

/-- Linux `errno` value of `EPROTO`. -/
def EPROTO : Int := 71

/-- Linux `errno` value of `ENOENT`. -/
def ENOENT : Int := 2

/-- Linux `errno` value of `EIO`. -/
def EIO : Int := 5

/-- Linux `errno` value of `EINVAL`. -/
def EINVAL : Int := 22

/-- Linux `errno` value of `ENOSYS`. -/
def ENOSYS : Int := 38

/-- Linux `errno` value of `ENOBUFS`. -/
def ENOBUFS : Int := 105

/-- Linux `errno` value of `EAGAIN`. -/
def EAGAIN : Int := 11

/-! ## Machine integers -/

/-- Conversion to `int64_t`: the value modulo `2^64` taken in `[-2^63, 2^63)`.
It is also the result of a wrapping signed 64-bit addition. -/
def toInt64 (x : Int) : Int := (x + 2 ^ 63) % 2 ^ 64 - 2 ^ 63

/-- Conversion to `uint64_t`: the value modulo `2^64`. -/
def toUInt64 (x : Int) : Nat := (x % 2 ^ 64).toNat

/-- Conversion of an `unsigned int` (32 bits) to `int`: values from `2^31` on
become negative. -/
def uint32ToInt (n : Nat) : Int := if n < 2 ^ 31 then (n : Int) else (n : Int) - 2 ^ 32

/-- The four bytes that `htonl(x)` leaves in memory: `x`, a 32-bit value, in
big-endian order. -/
def htonlBytes (x : Nat) : List Nat :=
  [x / 2 ^ 24 % 256, x / 2 ^ 16 % 256, x / 2 ^ 8 % 256, x % 256]

/-- The byte of a memory region at an index; a byte outside the region reads
as 0. -/
def readByte (mem : List Nat) (i : Nat) : Nat := mem.getD i 0 % 256

/-- The value `ntohl(*(uint32_t *)(mem + i))`: the four bytes from index `i`
read as a big-endian 32-bit integer. -/
def ntohlAt (mem : List Nat) (i : Nat) : Nat :=
  ((readByte mem i * 256 + readByte mem (i + 1)) * 256 + readByte mem (i + 2)) * 256 +
    readByte mem (i + 3)

/-- The call `memcpy(mem + i, src, src.length)`; bytes that would fall outside
the region are not stored. -/
def memcpyAt (mem : List Nat) (i : Nat) (src : List Nat) : List Nat :=
  mem.take i ++ (src.take (mem.length - i) ++ mem.drop (i + src.length))

/-! ## Floats -/

/-- A C `float`, kept as its IEEE-754 binary32 bit pattern (a value below
`2^32`). -/
structure F32 where
  bits : Nat
  deriving DecidableEq, Repr

/-- The comparison `f == 0.`: true exactly for `+0` and `-0`, that is when
the 31 bits of exponent and mantissa are all clear. -/
def F32.isZero (f : F32) : Bool := f.bits % 2 ^ 31 == 0

/-- The float is a NaN: exponent all ones and a non-zero mantissa. -/
def F32.isNaN (f : F32) : Bool := f.bits % 2 ^ 31 > 0x7F800000

/-- The sign bit of the float is set. -/
def F32.signBit (f : F32) : Bool := f.bits / 2 ^ 31 % 2 == 1

/-- The position of a float that is not a NaN in the order of the floats: its
magnitude bits, negated when the sign bit is set (so `+0` and `-0` are both
at 0). -/
def F32.key (f : F32) : Int :=
  if f.signBit then -((f.bits % 2 ^ 31 : Nat) : Int) else ((f.bits % 2 ^ 31 : Nat) : Int)

/-- The comparison `a >= b` of two floats: false when either is a NaN. -/
def F32.ge (a b : F32) : Bool := !a.isNaN && !b.isNaN && decide (a.key ≥ b.key)

/-- The comparison `f < 0.`: false for a NaN and for `-0`. -/
def F32.isNegative (f : F32) : Bool := !f.isNaN && f.signBit && !f.isZero

/-- The float `0.0`. -/
def F32.zero : F32 := ⟨0⟩

/-- The float `1.0`. -/
def F32.one : F32 := ⟨0x3F800000⟩

/-! ## Collaborators -/

/-- Constants of `pdraw_avcdecoder.hpp` (the bitstream format flags) that the
demuxer uses; the header is not part of the embedded sources, so the values are
parameters. -/
structure Defs where
  AVCDECODER_BITSTREAM_FORMAT_UNKNOWN : Nat
  AVCDECODER_BITSTREAM_FORMAT_BYTE_STREAM : Nat
  AVCDECODER_BITSTREAM_FORMAT_AVCC : Nat
  deriving DecidableEq, Repr

/-- The `pomp_timer` of the demuxer: a one-shot timer, armed with a delay in
milliseconds or disarmed. -/
structure PompTimer where
  armed : Option Nat
  deriving DecidableEq, Repr

/-- The call `pomp_timer_set(timer, delay)`. -/
def pomp_timer_set (_t : PompTimer) (delay : Nat) : PompTimer := ⟨some delay⟩

/-- The call `pomp_timer_clear(timer)`. -/
def pomp_timer_clear (_t : PompTimer) : PompTimer := ⟨none⟩

/-- Values of `enum mp4_track_type`. -/
inductive Mp4TrackType where
  | unknown
  | video
  | audio
  | hint
  | metadata
  | text
  | chapters
  deriving DecidableEq, Repr

/-- The fields of `struct mp4_track_info` read by the demuxer. -/
structure Mp4TrackInfo where
  id : Nat
  type : Mp4TrackType
  has_metadata : Bool
  metadata_mime_format : String
  deriving DecidableEq, Repr

/-- The fields of `struct mp4_media_info` read by the demuxer. -/
structure Mp4MediaInfo where
  duration : Nat
  track_count : Nat
  deriving DecidableEq, Repr

/-- One track of an open container, as the answers the container library
gives about it: the return code and result of `mp4_demux_get_track_info`, and
the return code, SPS and PPS of `mp4_demux_get_track_avc_decoder_config`. -/
structure Mp4Track where
  infoRet : Int
  info : Mp4TrackInfo
  avcConfigRet : Int
  sps : Option (List Nat)
  pps : Option (List Nat)
  deriving DecidableEq, Repr

/-- An open container (`struct mp4_demux *`), as the answers it gives to the
queries made by `open`: the return code and result of
`mp4_demux_get_media_info`, its tracks in container order, and the return code
and result of `mp4_demux_get_metadata_strings` (a null key or value is
`none`). -/
structure Mp4Demux where
  mediaInfoRet : Int
  mediaInfo : Mp4MediaInfo
  tracks : List Mp4Track
  metadataRet : Int
  metadataStrings : List (Option String × Option String)
  deriving DecidableEq, Repr

/-- The call `mp4_demux_get_track_info(demux, i, &tk)`: the answer recorded for
index `i`, a failure for an index the container does not know. -/
def Mp4Demux.getTrackInfo (d : Mp4Demux) (i : Nat) : Int × Mp4TrackInfo :=
  match d.tracks.get? i with
  | some t => (t.infoRet, t.info)
  | none => (-ENOENT, ⟨0, Mp4TrackType.unknown, false, ""⟩)

/-- The call `mp4_demux_get_track_avc_decoder_config(demux, trackId, ...)`:
the return code and the SPS and PPS (a null pointer is `none`) recorded for
the track with that identifier. -/
def Mp4Demux.getTrackAvcDecoderConfig (d : Mp4Demux) (trackId : Nat) :
    Int × Option (List Nat) × Option (List Nat) :=
  match d.tracks.find? (fun t => t.info.id == trackId) with
  | some t => (t.avcConfigRet, t.sps, t.pps)
  | none => (-ENOENT, none, none)

/-- The picture field of view of `struct vmeta_session`, the only part of it
that the demuxer reads back. -/
structure VmetaSession where
  has_horz : Bool
  horz : F32
  has_vert : Bool
  vert : F32
  deriving DecidableEq, Repr

/-- The video dimensions written by `pdraw_videoDimensionsFromH264Sps`. -/
structure VideoDims where
  width : Nat
  height : Nat
  cropLeft : Nat
  cropRight : Nat
  cropTop : Nat
  cropBottom : Nat
  sarWidth : Nat
  sarHeight : Nat
  deriving DecidableEq, Repr

/-- The functions of other modules called by `open`: the container library's
`mp4_demux_open` (a null handle is `none`), the SPS parser (given the SPS and
the current values of the output variables, its return code and the values
left in them) and the session-metadata reader. -/
structure Env where
  mp4_demux_open : String → Option Mp4Demux
  pdraw_videoDimensionsFromH264Sps : Option (List Nat) → VideoDims → Int × VideoDims
  vmeta_session_recording_read : String → String → VmetaSession → Int × VmetaSession

/-- A decoder (`AvcDecoder`), as the value returned by its
`getInputBitstreamFormatCaps()`. -/
structure AvcDecoder where
  formatCaps : Nat
  deriving DecidableEq, Repr

/-- The access-unit descriptor attached to a queued buffer
(`struct avcdecoder_input_buffer`), without the decoded frame metadata. -/
structure AvcDecoderInputBuffer where
  isComplete : Bool
  hasErrors : Bool
  isRef : Bool
  isSilent : Bool
  auNtpTimestamp : Nat
  auNtpTimestampRaw : Nat
  auNtpTimestampLocal : Nat
  hasMetadata : Bool
  demuxOutputTimestamp : Nat
  deriving DecidableEq, Repr

/-- A frame buffer (`struct vbuf_buffer`): its data bytes (the whole
capacity), its size, its user-data region and the descriptor added with
`vbuf_metadata_add`, if any. -/
structure VBuf where
  data : List Nat
  capacity : Nat
  size : Nat
  userdata : List Nat
  userdataCapacity : Nat
  userdataSize : Nat
  inputBuffer : Option AvcDecoderInputBuffer
  deriving DecidableEq, Repr

/-- The fields of `struct mp4_track_sample` read by the demuxer. -/
structure Mp4TrackSample where
  sample_size : Nat
  metadata_size : Nat
  silent : Bool
  sample_dts : Nat
  next_sample_dts : Nat
  prev_sync_sample_dts : Nat
  deriving DecidableEq, Repr

/-- One user-data-unregistered SEI as the H.264 reader delivers it to the
callback: the UUID and the payload (`buf`, a null pointer is `none`; `len` is
the length of the payload). -/
structure SeiUserData where
  uuid : List Nat
  buf : Option (List Nat)
  deriving DecidableEq, Repr

/-- The member `mDecoderSource`: only its `pool` pointer is tested by the
demuxer; a null pool is `none`. -/
structure DecoderSource where
  pool : Option (List VBuf)
  deriving DecidableEq, Repr

/-- Constants and functions of other modules used by the timer callback: the
constant `PDRAW_PLAY_SPEED_MAX`, the float computation
`(int64_t)((float)duration / speed)`, the two "Parrot Streaming" UUID tests of
the streaming library and `vbuf_set_userdata_capacity` (its return code and
the buffer after the call). -/
structure Libs where
  PDRAW_PLAY_SPEED_MAX : F32
  durationBySpeed : Int → F32 → Int
  vstrm_h264_sei_streaming_is_v1 : List Nat → Bool
  vstrm_h264_sei_streaming_is_v2 : List Nat → Bool
  vbuf_set_userdata_capacity : VBuf → Nat → Int × VBuf

/-- What the collaborators answer during one invocation of the timer
callback: the two readings of the monotonic clock (in microseconds), the H.264
reader (return code and the user-data SEI it delivers for a NAL unit), the
decoder's `open` and `getInputSource` (return code and the source left in
`mDecoderSource`), `vbuf_pool_get` (return code and the buffer left in
`mCurrentBuffer`), the container's seeks, the sample read (return code, sample
descriptor and the bytes written at the start of the buffer),
`vbuf_metadata_add` (whether it returns a descriptor), the result of
`VideoFrameMetadata::decodeMetadata`, the decoder's `queue_buffer`, and the
successive answers of the sync-sample time query of the catch-up loops (after
the last one the answer is 0). -/
structure TickInputs where
  clock1 : Nat
  clock2 : Nat
  h264_reader_parse_nalu : List Nat → Int × List SeiUserData
  decoderOpenRet : Int
  inputSourceRet : Int
  inputSource : DecoderSource
  poolGetRet : Int
  poolGetBuffer : Option VBuf
  seekRet : Int
  seekPrevRet : Int
  nextSampleRet : Int
  sample : Mp4TrackSample
  sampleData : List Nat
  metadataAddOk : Bool
  hasMetadata : Bool
  queueRet : Int
  syncSampleTimes : List Nat

/-- The calls the timer callback makes on its collaborators, in order: the
decoder's `open` with the format and the two prefixed parameter sets,
`vbuf_pool_get`, `mp4_demux_seek` to a timestamp, the seek to the previous
sample, the sample read into a buffer, the read that skips a sample, and the
decoder's `queue_buffer` with the buffer and its return code. -/
inductive Event where
  | decoderOpen (format : Nat) (spsBuffer ppsBuffer : List Nat)
  | poolGet
  | seek (ts : Nat)
  | seekToPrevSample
  | nextSample
  | skipSample
  | queueBuffer (buffer : VBuf) (ret : Int)
  deriving DecidableEq, Repr

/-- Values of `enum elementary_stream_type` returned by the demuxer. -/
inductive ElementaryStreamType where
  | ELEMENTARY_STREAM_TYPE_UNKNOWN
  | ELEMENTARY_STREAM_TYPE_VIDEO_AVC
  deriving DecidableEq, Repr

/-! ## The demuxer -/

/-- The member variables of `RecordDemuxer`.  `mPendingSeekTs` keeps the
source's representation: a signed 64-bit integer, `-1` when no seek is
pending.  `mSessionPeerMeta` is the peer metadata of the session the demuxer
belongs to (`mSession->getPeerMetadata()`). -/
structure RecordDemuxer where
  mConfigured : Bool
  mFileName : String
  mDemux : Option Mp4Demux
  mTimer : PompTimer
  mRunning : Bool
  mFrameByFrame : Bool
  mVideoTrackCount : Int
  mVideoTrackId : Nat
  mMetadataMimeType : Option String
  mFirstFrame : Bool
  mDecoder : Option AvcDecoder
  mDecoderSource : DecoderSource
  mDecoderBitstreamFormat : Nat
  mAvgOutputInterval : Int
  mLastFrameOutputTime : Nat
  mLastFrameDuration : Int
  mLastOutputError : Int
  mDuration : Nat
  mCurrentTime : Nat
  mPendingSeekTs : Int
  mPendingSeekExact : Bool
  mPendingSeekToPrevSample : Bool
  mCurrentBuffer : Option VBuf
  mDims : VideoDims
  mHfov : F32
  mVfov : F32
  mSpeed : F32
  mSessionPeerMeta : VmetaSession
  deriving DecidableEq, Repr

namespace RecordDemuxer

/-- The constructor `RecordDemuxer::RecordDemuxer(session)`, when the session
is not null and the allocations succeed. -/
def new (k : Defs) (peerMeta : VmetaSession) : RecordDemuxer :=
  { mConfigured := false
    mFileName := ""
    mDemux := none
    mTimer := ⟨none⟩
    mRunning := false
    mFrameByFrame := false
    mVideoTrackCount := 0
    mVideoTrackId := 0
    mMetadataMimeType := none
    mFirstFrame := true
    mDecoder := none
    mDecoderSource := ⟨none⟩
    mDecoderBitstreamFormat := k.AVCDECODER_BITSTREAM_FORMAT_UNKNOWN
    mAvgOutputInterval := 0
    mLastFrameOutputTime := 0
    mLastFrameDuration := 0
    mLastOutputError := 0
    mDuration := 0
    mCurrentTime := 0
    mPendingSeekTs := -1
    mPendingSeekExact := false
    mPendingSeekToPrevSample := false
    mCurrentBuffer := none
    mDims := ⟨0, 0, 0, 0, 0, 0, 0, 0⟩
    mHfov := F32.zero
    mVfov := F32.zero
    mSpeed := F32.one
    mSessionPeerMeta := peerMeta }

/-- The pending timestamp seek as the timer callback reads it
(`mPendingSeekTs >= 0`): the target when one is pending. -/
def pendingSeekTs (st : RecordDemuxer) : Option Nat :=
  if st.mPendingSeekTs ≥ 0 then some st.mPendingSeekTs.toNat else none

/-- The method `RecordDemuxer::play(speed)`. -/
def play (st : RecordDemuxer) (speed : F32) : Int × RecordDemuxer :=
  if !st.mConfigured then
    (-EPROTO, st)
  else if speed.isZero then
    (0, { st with mRunning := false, mFrameByFrame := true })
  else
    (0, { st with
            mRunning := true
            mFrameByFrame := false
            mPendingSeekToPrevSample := false
            mSpeed := speed
            mTimer := pomp_timer_set st.mTimer 1 })

/-- The method `RecordDemuxer::isPaused()`. -/
def isPaused (st : RecordDemuxer) : Bool :=
  if !st.mConfigured then
    false
  else
    let running := st.mRunning && !st.mFrameByFrame
    !running

/-- The method `RecordDemuxer::previous()`. -/
def previous (st : RecordDemuxer) : Int × RecordDemuxer :=
  if !st.mConfigured then
    (-EPROTO, st)
  else if !st.mPendingSeekExact then
    (0, { st with
            mPendingSeekToPrevSample := true
            mPendingSeekExact := true
            mRunning := true
            mTimer := pomp_timer_set st.mTimer 1 })
  else
    (0, st)

/-- The method `RecordDemuxer::next()`. -/
def next (st : RecordDemuxer) : Int × RecordDemuxer :=
  if !st.mConfigured then
    (-EPROTO, st)
  else
    (0, { st with mRunning := true, mTimer := pomp_timer_set st.mTimer 1 })

/-- The method `RecordDemuxer::seekTo(timestamp, exact)`; `timestamp` is a
`uint64_t`. -/
def seekTo (st : RecordDemuxer) (timestamp : Nat) (exact : Bool) : Int × RecordDemuxer :=
  if !st.mConfigured then
    (-EPROTO, st)
  else
    let timestamp := if timestamp > st.mDuration then st.mDuration else timestamp
    (0, { st with
            mPendingSeekTs := toInt64 timestamp
            mPendingSeekExact := exact
            mPendingSeekToPrevSample := false
            mRunning := true
            mTimer := pomp_timer_set st.mTimer 1 })

/-- The method `RecordDemuxer::seek(delta, exact)`; `delta` is an `int64_t`.
The signed addition wraps modulo `2^64` (two's complement). -/
def seek (st : RecordDemuxer) (delta : Int) (exact : Bool) : Int × RecordDemuxer :=
  if !st.mConfigured then
    (-EPROTO, st)
  else
    let ts : Int := toInt64 (toInt64 st.mCurrentTime + delta)
    let ts : Int := if ts < 0 then 0 else ts
    let ts : Int := if ts > toInt64 st.mDuration then toInt64 st.mDuration else ts
    seekTo st (toUInt64 ts) exact

/-- The method `RecordDemuxer::close()`. -/
def close (st : RecordDemuxer) : Int × RecordDemuxer :=
  if !st.mConfigured then
    (-EPROTO, st)
  else
    (0, { st with mRunning := false, mTimer := pomp_timer_clear st.mTimer })

/-- The track loop of `RecordDemuxer::open`: `for (i = ...; i < tkCount; i++)`
with `n` iterations left, stopping at the first track whose information is
obtained and whose type is video.  Returns `found` and the updated members. -/
def openTrackLoop (d : Mp4Demux) : Nat → Nat → RecordDemuxer → Bool × RecordDemuxer
  | 0, _, st => (false, st)
  | n + 1, i, st =>
    let r := d.getTrackInfo i
    if r.1 == 0 && r.2.type == Mp4TrackType.video then
      (true, { st with
                 mVideoTrackId := r.2.id
                 mVideoTrackCount := st.mVideoTrackCount + 1
                 mMetadataMimeType :=
                   if r.2.has_metadata then some r.2.metadata_mime_format
                   else st.mMetadataMimeType })
    else
      openTrackLoop d n (i + 1) st

/-- The method `RecordDemuxer::fetchVideoDimensions()`, on the open container
`d`. -/
def fetchVideoDimensions (env : Env) (d : Mp4Demux) (st : RecordDemuxer) :
    Int × RecordDemuxer :=
  let cfg := d.getTrackAvcDecoderConfig st.mVideoTrackId
  let ret := cfg.1
  if ret < 0 then
    (ret, st)
  else
    (ret, { st with mDims := (env.pdraw_videoDimensionsFromH264Sps cfg.2.1 st.mDims).2 })

/-- The key/value loop of `RecordDemuxer::fetchSessionMetadata()`: every pair
with a key and a value is passed to the session-metadata reader, whose return
code is only logged. -/
def readSessionMetadata (env : Env) :
    List (Option String × Option String) → VmetaSession → VmetaSession
  | [], m => m
  | (some key, some value) :: rest, m =>
    readSessionMetadata env rest (env.vmeta_session_recording_read key value m).2
  | _ :: rest, m => readSessionMetadata env rest m

/-- The method `RecordDemuxer::fetchSessionMetadata()`, on the open container
`d`. -/
def fetchSessionMetadata (env : Env) (d : Mp4Demux) (st : RecordDemuxer) :
    Int × RecordDemuxer :=
  let ret := d.metadataRet
  if ret < 0 then
    (ret, st)
  else
    let m := readSessionMetadata env d.metadataStrings ⟨false, F32.zero, false, F32.zero⟩
    (0, { st with
            mSessionPeerMeta := m
            mHfov := if m.has_horz then m.horz else st.mHfov
            mVfov := if m.has_vert then m.vert else st.mVfov })

/-- The steps of `RecordDemuxer::open` after `mp4_demux_open` has returned the
handle `d`. -/
def openWithDemux (env : Env) (d : Mp4Demux) (st : RecordDemuxer) : Int × RecordDemuxer :=
  let ret := d.mediaInfoRet
  if ret < 0 then
    (ret, st)
  else
    let st := { st with mDuration := d.mediaInfo.duration }
    let tkCount : Int := uint32ToInt d.mediaInfo.track_count
    let r := openTrackLoop d tkCount.toNat 0 st
    if !r.1 then
      (-ENOENT, r.2)
    else
      let r := fetchVideoDimensions env d r.2
      if r.1 < 0 then
        (r.1, r.2)
      else
        let r := fetchSessionMetadata env d r.2
        if r.1 < 0 then
          (r.1, r.2)
        else
          (0, { r.2 with mConfigured := true })

/-- The method `RecordDemuxer::open(fileName)`. -/
def open_ (env : Env) (st : RecordDemuxer) (fileName : String) : Int × RecordDemuxer :=
  if st.mConfigured then
    (-EPROTO, st)
  else
    let st := { st with mFileName := fileName }
    let st := { st with mDemux := env.mp4_demux_open fileName }
    match st.mDemux with
    | none => (- EIO, st)
    | some d => openWithDemux env d st

/-- The method `RecordDemuxer::getElementaryStreamCount()`. -/
def getElementaryStreamCount (st : RecordDemuxer) : Int :=
  if !st.mConfigured then
    0
  else
    st.mVideoTrackCount

/-- The method `RecordDemuxer::getElementaryStreamType(esIndex)`. -/
def getElementaryStreamType (st : RecordDemuxer) (esIndex : Int) : ElementaryStreamType :=
  if !st.mConfigured then
    ElementaryStreamType.ELEMENTARY_STREAM_TYPE_UNKNOWN
  else if esIndex < 0 || esIndex ≥ st.mVideoTrackCount then
    ElementaryStreamType.ELEMENTARY_STREAM_TYPE_UNKNOWN
  else
    ElementaryStreamType.ELEMENTARY_STREAM_TYPE_VIDEO_AVC

/-- The method `RecordDemuxer::getElementaryStreamVideoDimensions(esIndex,
...)`: the return code and, on success, the values stored through the output
pointers. -/
def getElementaryStreamVideoDimensions (st : RecordDemuxer) (esIndex : Int) :
    Int × Option VideoDims :=
  if !st.mConfigured then
    (-EPROTO, none)
  else if esIndex < 0 || esIndex ≥ st.mVideoTrackCount then
    (-ENOENT, none)
  else
    (0, some st.mDims)

/-- The method `RecordDemuxer::getElementaryStreamVideoFov(esIndex, hfov,
vfov)`: the return code and, on success, the values stored through the output
pointers. -/
def getElementaryStreamVideoFov (st : RecordDemuxer) (esIndex : Int) :
    Int × Option (F32 × F32) :=
  if !st.mConfigured then
    (-EPROTO, none)
  else if esIndex < 0 || esIndex ≥ st.mVideoTrackCount then
    (-ENOENT, none)
  else
    (0, some (st.mHfov, st.mVfov))

/-- The method `RecordDemuxer::setElementaryStreamDecoder(esIndex, decoder)`;
a null `decoder` is `none`.  The bitwise tests are those of the source:
`formatCaps & FLAG` is true when it is not zero. -/
def setElementaryStreamDecoder (k : Defs) (st : RecordDemuxer) (esIndex : Int)
    (decoder : Option AvcDecoder) : Int × RecordDemuxer :=
  match decoder with
  | none => (-EINVAL, st)
  | some dec =>
    if !st.mConfigured then
      (-EPROTO, st)
    else if esIndex < 0 || esIndex ≥ st.mVideoTrackCount then
      (-ENOENT, st)
    else
      let st := { st with mDecoder := some dec }
      let formatCaps := dec.formatCaps
      if (formatCaps &&& k.AVCDECODER_BITSTREAM_FORMAT_BYTE_STREAM) != 0 then
        (0, { st with mDecoderBitstreamFormat := k.AVCDECODER_BITSTREAM_FORMAT_BYTE_STREAM })
      else if (formatCaps &&& k.AVCDECODER_BITSTREAM_FORMAT_AVCC) != 0 then
        (0, { st with mDecoderBitstreamFormat := k.AVCDECODER_BITSTREAM_FORMAT_AVCC })
      else
        (-ENOSYS, st)

/-! ### The timer callback -/

/-- The variables of the NAL unit loop of the timer callback: the memory of
the buffer, the remembered SEI (`sei` points at index `sei` of the buffer, a
null pointer is `none`), `seiSize` and `offset`. -/
structure NalScan where
  mem : List Nat
  sei : Option Nat
  seiSize : Nat
  offset : Nat
  deriving DecidableEq, Repr

/-- The loop `while (offset < sample.sample_size)` of the timer callback, with
at most `fuel` iterations; `size_t` has 64 bits.  `_buf` is the buffer at
index `offset`. -/
def nalLoop (byteStream : Bool) (sampleSize : Nat) : Nat → NalScan → NalScan
  | 0, s => s
  | fuel + 1, s =>
    if s.offset < sampleSize then
      let naluSize := ntohlAt s.mem s.offset
      let mem := if byteStream then memcpyAt s.mem s.offset (htonlBytes 1) else s.mem
      let isSei := readByte mem (s.offset + 4) == 6
      nalLoop byteStream sampleSize fuel
        { mem := mem
          sei := if isSei then some (s.offset + 4) else s.sei
          seiSize := if isSei then naluSize else s.seiSize
          offset := (s.offset + (4 + naluSize)) % 2 ^ 64 }
    else
      s

/-- The body of the loop `while (offset < sample.sample_size)`: one iteration
on the variables of the loop. -/
def nalStep (byteStream : Bool) (s : NalScan) : NalScan :=
  let naluSize := ntohlAt s.mem s.offset
  let mem := if byteStream then memcpyAt s.mem s.offset (htonlBytes 1) else s.mem
  let isSei := readByte mem (s.offset + 4) == 6
  { mem := mem
    sei := if isSei then some (s.offset + 4) else s.sei
    seiSize := if isSei then naluSize else s.seiSize
    offset := (s.offset + (4 + naluSize)) % 2 ^ 64 }

/-- The NAL unit loop on a buffer holding a sample of `sampleSize` bytes.
Every iteration adds at least 4 to `offset`, so `sampleSize / 4 + 1`
iterations are enough. -/
def nalScan (byteStream : Bool) (mem : List Nat) (sampleSize : Nat) : NalScan :=
  nalLoop byteStream sampleSize (sampleSize / 4 + 1) ⟨mem, none, 0, 0⟩

/-- The cast `(signed)len` of a `size_t`. -/
def signedOfSize (len : Nat) : Int := uint32ToInt (len % 2 ^ 32)

/-- The callback `RecordDemuxer::h264UserDataSeiCb`, called by the H.264
reader for a user-data-unregistered SEI. -/
def h264UserDataSeiCb (lib : Libs) (st : RecordDemuxer) (sei : SeiUserData) : RecordDemuxer :=
  match sei.buf with
  | none => st
  | some payload =>
    if payload.length == 0 then
      st
    else
      match st.mCurrentBuffer with
      | none => st
      | some b =>
        if lib.vstrm_h264_sei_streaming_is_v1 sei.uuid ||
            lib.vstrm_h264_sei_streaming_is_v2 sei.uuid then
          st
        else
          let r := lib.vbuf_set_userdata_capacity b payload.length
          if r.1 < signedOfSize payload.length then
            { st with mCurrentBuffer := some r.2 }
          else
            { st with
                mCurrentBuffer := some
                  { r.2 with
                      userdata := memcpyAt r.2.userdata 0 payload
                      userdataSize := payload.length } }

/-- The buffer that `openAvcDecoder` passes to the decoder for a parameter
set of `size` bytes: the 4-byte prefix (the start code for the byte-stream
format, `htonl(size)` otherwise) followed by the parameter set.  The size of
the allocation and the size passed to `open` are `size + 4` computed in
`unsigned int`, so the buffer has `(size + 4) mod 2^32` bytes.  When the sum
wraps (sizes `2^32 - 4` to `2^32 - 1`) the two `memcpy` write past the
allocation; those bytes are not part of the buffer. -/
def prefixedParameterSet (k : Defs) (format : Nat) (ps : List Nat) : List Nat :=
  ((if format == k.AVCDECODER_BITSTREAM_FORMAT_BYTE_STREAM then htonlBytes 1
    else htonlBytes ps.length) ++ ps).take ((ps.length + 4) % 2 ^ 32)

/-- The function `RecordDemuxer::openAvcDecoder`: its return code, the
demuxer after the call and the calls made.  The allocations succeed. -/
def openAvcDecoder (k : Defs) (inp : TickInputs) (st : RecordDemuxer) :
    Int × RecordDemuxer × List Event :=
  match st.mDemux with
  | none => (-EINVAL, st, [])
  | some d =>
    let cfg := d.getTrackAvcDecoderConfig st.mVideoTrackId
    if cfg.1 < 0 then
      (cfg.1, st, [])
    else
      match cfg.2.1 with
      | none => (-EPROTO, st, [])
      | some sps =>
        if sps.length == 0 then
          (-EPROTO, st, [])
        else
          match cfg.2.2 with
          | none => (-EPROTO, st, [])
          | some pps =>
            if pps.length == 0 then
              (-EPROTO, st, [])
            else if (inp.h264_reader_parse_nalu sps).1 < 0 then
              ((inp.h264_reader_parse_nalu sps).1, st, [])
            else if (inp.h264_reader_parse_nalu pps).1 < 0 then
              ((inp.h264_reader_parse_nalu pps).1, st, [])
            else
              let spsBuffer := prefixedParameterSet k st.mDecoderBitstreamFormat sps
              let ppsBuffer := prefixedParameterSet k st.mDecoderBitstreamFormat pps
              let evs := [Event.decoderOpen st.mDecoderBitstreamFormat spsBuffer ppsBuffer]
              if inp.decoderOpenRet < 0 then
                (inp.decoderOpenRet, st, evs)
              else if inp.inputSourceRet < 0 then
                (inp.inputSourceRet, { st with mDecoderSource := inp.inputSource }, evs)
              else
                (0, { st with mDecoderSource := inp.inputSource }, evs)

/-- The local variables of the timer callback at its label `out`, with the
demuxer and the calls made so far. -/
structure TickBody where
  st : RecordDemuxer
  retry : Bool
  silent : Bool
  sample : Mp4TrackSample
  curTime : Nat
  events : List Event

/-- The sample descriptor after `memset(&sample, 0, sizeof(sample))`. -/
def zeroSample : Mp4TrackSample := ⟨0, 0, false, 0, 0, 0⟩

/-- Timer callback, lazy configuration: `if (demuxer->mFirstFrame) ...`. -/
def tickConfigure (k : Defs) (inp : TickInputs) (st : RecordDemuxer) :
    RecordDemuxer × List Event :=
  if st.mFirstFrame then
    let r := openAvcDecoder k inp st
    if r.1 != 0 then
      (r.2.1, r.2.2)
    else
      ({ r.2.1 with mFirstFrame := false }, r.2.2)
  else
    (st, [])

/-- Timer callback, seeking: the pending timestamp seek, else the pending
seek to the previous sample. -/
def tickSeek (inp : TickInputs) (st : RecordDemuxer) : RecordDemuxer × List Event :=
  if st.mPendingSeekTs ≥ 0 then
    if inp.seekRet < 0 then
      (st, [Event.seek (toUInt64 st.mPendingSeekTs)])
    else
      ({ st with mLastFrameDuration := 0, mLastOutputError := 0 },
        [Event.seek (toUInt64 st.mPendingSeekTs)])
  else if st.mPendingSeekToPrevSample then
    if inp.seekPrevRet != 0 then
      (st, [Event.seekToPrevSample])
    else
      ({ st with mLastFrameDuration := 0, mLastOutputError := 0 }, [Event.seekToPrevSample])
  else
    (st, [])

/-- The test under which the seek step of the timer callback clears
`mLastFrameDuration` and `mLastOutputError`: the pending timestamp seek, or
else the pending seek to the previous sample, is carried out with success. -/
def seekCarriedOut (inp : TickInputs) (st : RecordDemuxer) : Bool :=
  if st.mPendingSeekTs ≥ 0 then
    !decide (inp.seekRet < 0)
  else if st.mPendingSeekToPrevSample then
    inp.seekPrevRet == 0
  else
    false

/-- Timer callback, from `vbuf_metadata_add` to the frame-step test: the
descriptor is attached to the buffer `b` held in `mCurrentBuffer`, the buffer
is queued, and frame-by-frame play stops on a sample that is not silent. -/
def tickQueue (inp : TickInputs) (st : RecordDemuxer) (b : VBuf) (silent : Bool)
    (evs : List Event) : TickBody :=
  if !inp.metadataAddOk then
    ⟨st, false, silent, inp.sample, inp.clock1, evs⟩
  else
    let data : AvcDecoderInputBuffer :=
      { isComplete := true
        hasErrors := false
        isRef := true
        isSilent := silent
        auNtpTimestamp := inp.sample.sample_dts
        auNtpTimestampRaw := inp.sample.sample_dts
        auNtpTimestampLocal := inp.clock2
        hasMetadata := inp.hasMetadata
        demuxOutputTimestamp := inp.clock2 }
    let b1 : VBuf := { b with inputBuffer := some data }
    let st1 : RecordDemuxer :=
      { st with
          mCurrentTime := inp.sample.sample_dts
          mCurrentBuffer := if inp.queueRet < 0 then some b1 else none }
    let st2 : RecordDemuxer :=
      if st1.mFrameByFrame && !silent then { st1 with mRunning := false } else st1
    ⟨st2, false, silent, inp.sample, inp.clock2, evs ++ [Event.queueBuffer b1 inp.queueRet]⟩

/-- Timer callback, from `vbuf_set_size` on: a sample of non-zero size has
been read into the buffer `b`. -/
def tickSample (k : Defs) (lib : Libs) (inp : TickInputs) (st : RecordDemuxer) (b : VBuf)
    (evs : List Event) : TickBody :=
  let b1 : VBuf := { b with size := inp.sample.sample_size, userdataSize := 0 }
  let silent : Bool := inp.sample.silent && st.mPendingSeekExact
  let scan := nalScan (st.mDecoderBitstreamFormat == k.AVCDECODER_BITSTREAM_FORMAT_BYTE_STREAM)
    b1.data inp.sample.sample_size
  let b2 : VBuf := { b1 with data := scan.mem }
  let st1 : RecordDemuxer :=
    { st with
        mPendingSeekTs := -1
        mPendingSeekToPrevSample := false
        mPendingSeekExact := if silent then st.mPendingSeekExact else false
        mCurrentBuffer := some b2 }
  let st2 : RecordDemuxer :=
    match scan.sei with
    | none => st1
    | some pos =>
      if scan.seiSize != 0 then
        (inp.h264_reader_parse_nalu ((b2.data.drop pos).take scan.seiSize)).2.foldl
          (h264UserDataSeiCb lib) st1
      else
        st1
  match st2.mCurrentBuffer with
  | none => ⟨st2, false, silent, inp.sample, inp.clock1, evs⟩
  | some b3 => tickQueue inp st2 b3 silent evs

/-- Timer callback, from the seek to the sample read, with the buffer `b`
held in `mCurrentBuffer`. -/
def tickRead (k : Defs) (lib : Libs) (inp : TickInputs) (st : RecordDemuxer) (b : VBuf)
    (evs : List Event) : TickBody :=
  let sk := tickSeek inp st
  let evs1 := evs ++ sk.2 ++ [Event.nextSample]
  if inp.nextSampleRet != 0 then
    ⟨sk.1, true, false, zeroSample, inp.clock1,
      if inp.nextSampleRet == -ENOBUFS then evs1 ++ [Event.skipSample] else evs1⟩
  else
    let b1 : VBuf := { b with data := memcpyAt b.data 0 inp.sampleData }
    let st1 : RecordDemuxer := { sk.1 with mCurrentBuffer := some b1 }
    if inp.sample.sample_size == 0 then
      ⟨st1, false, false, inp.sample, inp.clock1, evs1⟩
    else
      tickSample k lib inp st1 b1 evs1

/-- The timer callback from the clock reading after its guard to its label
`out`. -/
def timerCbBody (k : Defs) (lib : Libs) (inp : TickInputs) (st : RecordDemuxer) : TickBody :=
  let c := tickConfigure k inp st
  if c.1.mDecoderSource.pool.isNone then
    ⟨c.1, true, false, zeroSample, inp.clock1, c.2⟩
  else
    match c.1.mCurrentBuffer with
    | some b => tickRead k lib inp c.1 b c.2
    | none =>
      let st1 : RecordDemuxer := { c.1 with mCurrentBuffer := inp.poolGetBuffer }
      let evs := c.2 ++ [Event.poolGet]
      if inp.poolGetRet < 0 then
        ⟨st1, true, false, zeroSample, inp.clock1, evs⟩
      else
        match inp.poolGetBuffer with
        | none => ⟨st1, true, false, zeroSample, inp.clock1, evs⟩
        | some b => tickRead k lib inp st1 b evs

/-- The value `(int64_t)(to - from)` scaled by the speed: `to - from` is an
unsigned 64-bit difference stored in an `int64_t`, divided by the speed when
`speed != 0.`. -/
def scaledDuration (lib : Libs) (speed : F32) (fromDts toDts : Nat) : Int :=
  let d := toInt64 ((toDts : Int) - (fromDts : Int))
  if !speed.isZero then lib.durationBySpeed d speed else d

/-- The catch-up loop `while (newDuration - error < 0)` of the timer callback,
on the successive answers of the sync-sample time query.  Returns
`nextSyncSampleDts`, `pendingSeekTs` and `newDuration`. -/
def catchUp (lib : Libs) (speed : F32) (sampleDts : Nat) (error : Int) :
    List Nat → Nat → Nat → Int → Nat × Nat × Int
  | [], nextSync, pendingSeekTs, newDuration =>
    if toInt64 (newDuration - error) < 0 then
      (0, pendingSeekTs, newDuration)
    else
      (nextSync, pendingSeekTs, newDuration)
  | r :: rest, nextSync, pendingSeekTs, newDuration =>
    if toInt64 (newDuration - error) < 0 then
      if r > 0 then
        catchUp lib speed sampleDts error rest r r (scaledDuration lib speed sampleDts r)
      else
        (r, pendingSeekTs, newDuration)
    else
      (nextSync, pendingSeekTs, newDuration)

/-- The sample duration computed by the timer callback: `duration`, the final
`nextSampleDts` and the catch-up seek issued, if any. -/
structure SampleDuration where
  duration : Int
  nextSampleDts : Nat
  events : List Event

/-- Timer callback, "Sample duration": the three branches on the speed. -/
def sampleDuration (lib : Libs) (inp : TickInputs) (speed : F32) (sample : Mp4TrackSample)
    (silent : Bool) (error avgOutputInterval : Int) : SampleDuration :=
  if speed.ge lib.PDRAW_PLAY_SPEED_MAX || sample.next_sample_dts == 0 || silent then
    ⟨0, sample.next_sample_dts, []⟩
  else if speed.isNegative then
    let next := sample.prev_sync_sample_dts
    let duration := scaledDuration lib speed sample.sample_dts next
    let c := catchUp lib speed sample.sample_dts error inp.syncSampleTimes next next duration
    if c.2.1 > 0 then
      ⟨c.2.2, c.1, [Event.seek c.2.1]⟩
    else
      ⟨duration, next, []⟩
  else
    let next := sample.next_sample_dts
    let duration := scaledDuration lib speed sample.sample_dts next
    let c := catchUp lib speed sample.sample_dts error inp.syncSampleTimes next 0 duration
    if c.2.1 > 0 && toInt64 (c.2.2 - error) < toInt64 (2 * avgOutputInterval) then
      ⟨c.2.2, c.1, [Event.seek c.2.1]⟩
    else
      ⟨duration, next, []⟩

/-- Timer callback, the error term: `curTime - mLastFrameOutputTime -
mLastFrameDuration + mLastOutputError`, or 0.  `curTime` and
`mLastFrameOutputTime` are `uint64_t`, the two other operands are `int64_t`:
each operation converts its signed operand to `uint64_t` and is done modulo
`2^64`, and the result is stored in the `int64_t` `error`. -/
def outputError (lib : Libs) (speed : F32) (st : RecordDemuxer) (silent : Bool)
    (curTime : Nat) : Int :=
  if st.mLastFrameOutputTime == 0 || st.mLastFrameDuration == 0 || speed.isZero ||
      speed.ge lib.PDRAW_PLAY_SPEED_MAX || silent then
    0
  else
    let a : Nat := toUInt64 ((curTime : Int) - (st.mLastFrameOutputTime : Int))
    let b : Nat := toUInt64 ((a : Int) - (toUInt64 st.mLastFrameDuration : Int))
    let c : Nat := toUInt64 ((b : Int) + (toUInt64 st.mLastOutputError : Int))
    toInt64 c

/-- Timer callback, the sliding average of the output interval. -/
def avgOutputInterval (st : RecordDemuxer) (curTime : Nat) : Int :=
  if st.mLastFrameOutputTime != 0 then
    toInt64 (st.mAvgOutputInterval +
      (toInt64 (toInt64 ((curTime : Int) - (st.mLastFrameOutputTime : Int)) -
        st.mAvgOutputInterval)) >>> 1)
  else
    st.mAvgOutputInterval

/-- Timer callback, the delay `waitMs` (a `uint32_t`) for the next
invocation. -/
def waitMs (d : SampleDuration) (error : Int) : Nat :=
  if d.nextSampleDts != 0 then
    let wait := toInt64 (d.duration - error)
    let wait := if wait < 0 then 0 else wait
    let ms := ((toInt64 (wait + 500)).tdiv 1000 % 2 ^ 32).toNat
    if ms == 0 then 1 else ms
  else
    0

/-- The timer callback from its label `out`: the pacing and the re-arming of
the timer.  `speed` is `mSpeed` at the entry of the callback. -/
def timerCbOut (lib : Libs) (inp : TickInputs) (speed : F32) (body : TickBody) :
    RecordDemuxer × List Event :=
  if body.retry then
    ({ body.st with mTimer := pomp_timer_set body.st.mTimer 5 }, body.events)
  else if body.st.mRunning then
    let error := outputError lib speed body.st body.silent body.curTime
    let avg := avgOutputInterval body.st body.curTime
    let d := sampleDuration lib inp speed body.sample body.silent error avg
    let ms := waitMs d error
    ({ body.st with
         mAvgOutputInterval := avg
         mLastFrameOutputTime := body.curTime
         mLastFrameDuration := d.duration
         mLastOutputError := error
         mTimer := if ms > 0 then pomp_timer_set body.st.mTimer ms else body.st.mTimer },
      body.events ++ d.events)
  else
    ({ body.st with
         mLastFrameOutputTime := body.curTime
         mLastFrameDuration := 0
         mLastOutputError := 0 },
      body.events)

/-- The callback `RecordDemuxer::timerCb`: the demuxer after the call and the
calls made on the collaborators. -/
def timerCb (k : Defs) (lib : Libs) (inp : TickInputs) (st : RecordDemuxer) :
    RecordDemuxer × List Event :=
  if st.mDecoder.isNone || !st.mRunning then
    ({ st with mLastFrameDuration := 0, mLastOutputError := 0 }, [])
  else
    timerCbOut lib inp st.mSpeed (timerCbBody k lib inp st)

/-- One timer tick: the one-shot timer expires, which disarms it, and the
callback runs. -/
def tick (k : Defs) (lib : Libs) (inp : TickInputs) (st : RecordDemuxer) :
    RecordDemuxer × List Event :=
  timerCb k lib inp { st with mTimer := ⟨none⟩ }

/-- The local variables of a timer tick at the label `out` of the callback,
with the demuxer and the calls made so far; meaningful when the tick passes
the guard of the callback. -/
def tickBody (k : Defs) (lib : Libs) (inp : TickInputs) (st : RecordDemuxer) : TickBody :=
  timerCbBody k lib inp { st with mTimer := ⟨none⟩ }

/-- The calls of the public interface and the timer tick. -/
inductive Action where
  | play (speed : F32)
  | previous
  | next
  | seek (delta : Int) (exact : Bool)
  | seekTo (timestamp : Nat) (exact : Bool)
  | close
  | setElementaryStreamDecoder (esIndex : Int) (decoder : Option AvcDecoder)
  | tick (inp : TickInputs)

/-- The action is a call that makes the pending seek exact: `previous()`, or
`seek` or `seekTo` with `exact` set. -/
def Action.setsExact : Action → Bool
  | Action.previous => true
  | Action.seek _ exact => exact
  | Action.seekTo _ exact => exact
  | _ => false

/-- The effect of one action: the demuxer after it and the calls it makes on
the collaborators. -/
def step (k : Defs) (lib : Libs) (st : RecordDemuxer) : Action → RecordDemuxer × List Event
  | Action.play speed => ((play st speed).2, [])
  | Action.previous => ((previous st).2, [])
  | Action.next => ((next st).2, [])
  | Action.seek delta exact => ((seek st delta exact).2, [])
  | Action.seekTo timestamp exact => ((seekTo st timestamp exact).2, [])
  | Action.close => ((close st).2, [])
  | Action.setElementaryStreamDecoder esIndex decoder =>
    ((setElementaryStreamDecoder k st esIndex decoder).2, [])
  | Action.tick inp => tick k lib inp st

/-- A sequence of actions: the demuxer after the last one and all the calls
made, in order. -/
def run (k : Defs) (lib : Libs) : RecordDemuxer → List Action → RecordDemuxer × List Event
  | st, [] => (st, [])
  | st, a :: rest =>
    ((run k lib (step k lib st a).1 rest).1,
      (step k lib st a).2 ++ (run k lib (step k lib st a).1 rest).2)

/-- The buffers that a sequence of calls appended to the decoder's input
queue: those of the `queue_buffer` calls that did not fail. -/
def appended : List Event → List VBuf
  | [] => []
  | Event.queueBuffer b ret :: rest => if ret < 0 then appended rest else b :: appended rest
  | _ :: rest => appended rest

/-- The timestamp of the access unit of the last `queue_buffer` call of a
sequence of calls, whether the call failed or not; `init` when there is
none. -/
def lastQueuedDts (init : Nat) : List Event → Nat
  | [] => init
  | Event.queueBuffer b _ :: rest =>
    lastQueuedDts (match b.inputBuffer with
      | some d => d.auNtpTimestamp
      | none => 0) rest
  | _ :: rest => lastQueuedDts init rest

end RecordDemuxer

/-! ## Access units, as the specification describes them -/

/-- An access unit in AVCC framing: the concatenation of its NAL units
(given by their payloads), each preceded by its length as a 4-byte big-endian
integer. -/
def avccAccessUnit : List (List Nat) → List Nat
  | [] => []
  | p :: rest => htonlBytes p.length ++ (p ++ avccAccessUnit rest)

/-- An access unit in byte-stream framing: the concatenation of its NAL
units, each preceded by the start code `00 00 00 01`. -/
def byteStreamAccessUnit : List (List Nat) → List Nat
  | [] => []
  | p :: rest => [0, 0, 0, 1] ++ (p ++ byteStreamAccessUnit rest)

/-- The payloads of a well-formed access unit: every NAL unit has at least
one byte, fewer than `2^32`, and its bytes are below 256. -/
def WellFormedNals (nals : List (List Nat)) : Prop :=
  ∀ p ∈ nals, p ≠ [] ∧ p.length < 2 ^ 32 ∧ ∀ b ∈ p, b < 256

/-- The last NAL unit, among those of an access unit that starts at index
`pos`, whose first payload byte is `0x06`: the index of its payload and its
length; `acc` when there is none. -/
def lastSei : List (List Nat) → Nat → Option Nat × Nat → Option Nat × Nat
  | [], _, acc => acc
  | p :: rest, pos, acc =>
    lastSei rest (pos + 4 + p.length)
      (if p.headD 0 == 6 then (some (pos + 4), p.length) else acc)

/-! ## Sample containers and states

Concrete inputs on which the statements below are evaluated. -/

/-- Sample values of the bitstream format flags. -/
def sampleDefs : Defs :=
  { AVCDECODER_BITSTREAM_FORMAT_UNKNOWN := 0
    AVCDECODER_BITSTREAM_FORMAT_BYTE_STREAM := 2
    AVCDECODER_BITSTREAM_FORMAT_AVCC := 4 }

/-- A video track with identifier 1 whose decoder configuration is available. -/
def sampleVideoTrack : Mp4Track :=
  { infoRet := 0
    info := ⟨1, Mp4TrackType.video, false, ""⟩
    avcConfigRet := 0
    sps := some [0x67, 0x42]
    pps := some [0x68, 0xCE] }

/-- An audio track with identifier 2. -/
def sampleAudioTrack : Mp4Track :=
  { infoRet := 0
    info := ⟨2, Mp4TrackType.audio, false, ""⟩
    avcConfigRet := -ENOENT
    sps := none
    pps := none }

/-- A container of ten seconds with one video track. -/
def sampleContainer : Mp4Demux :=
  { mediaInfoRet := 0
    mediaInfo := ⟨10000000, 1⟩
    tracks := [sampleVideoTrack]
    metadataRet := 0
    metadataStrings := [] }

/-- A container whose declared duration is the largest 64-bit value. -/
def longContainer : Mp4Demux :=
  { sampleContainer with mediaInfo := ⟨2 ^ 64 - 1, 1⟩ }

/-- A container whose media information cannot be read. -/
def noInfoContainer : Mp4Demux :=
  { sampleContainer with mediaInfoRet := -EINVAL }

/-- A container with a video track whose decoder configuration cannot be
read. -/
def noConfigContainer : Mp4Demux :=
  { sampleContainer with
      tracks := [{ sampleVideoTrack with avcConfigRet := -EINVAL }] }

/-- A container with an audio track only. -/
def audioOnlyContainer : Mp4Demux :=
  { sampleContainer with tracks := [sampleAudioTrack] }

/-- A file system with the containers above; any other name cannot be
opened.  The SPS parser and the metadata reader do nothing and succeed. -/
def sampleEnv : Env :=
  { mp4_demux_open := fun name =>
      if name = "sample.mp4" then some sampleContainer
      else if name = "long.mp4" then some longContainer
      else if name = "noinfo.mp4" then some noInfoContainer
      else if name = "noconfig.mp4" then some noConfigContainer
      else if name = "audio.mp4" then some audioOnlyContainer
      else none
    pdraw_videoDimensionsFromH264Sps := fun _ dims => (0, dims)
    vmeta_session_recording_read := fun _ _ m => (0, m) }

/-- A newly constructed demuxer. -/
def freshDemuxer : RecordDemuxer :=
  RecordDemuxer.new sampleDefs ⟨false, F32.zero, false, F32.zero⟩

/-- The demuxer after `open("sample.mp4")`. -/
def openedDemuxer : RecordDemuxer :=
  (RecordDemuxer.open_ sampleEnv freshDemuxer "sample.mp4").2

/-- The demuxer after `open("long.mp4")`. -/
def longDemuxer : RecordDemuxer :=
  (RecordDemuxer.open_ sampleEnv freshDemuxer "long.mp4").2

/-- An opened demuxer whose last submitted sample had dts 33333. -/
def playingDemuxer : RecordDemuxer :=
  { openedDemuxer with mCurrentTime := 33333 }

/-- The float `-1.0`. -/
def minusOne : F32 := ⟨0xBF800000⟩

/-- Sample libraries: the maximum speed is `1000.0`, the division by the speed
is exact for the speeds `1.0` and `-1.0` (no other speed is used below), the
two filtered UUIDs are 16 bytes `0x11` and 16 bytes `0x22`, and the user-data
region is enlarged with zero bytes whenever it is too small. -/
def sampleLibs : Libs :=
  { PDRAW_PLAY_SPEED_MAX := ⟨0x447A0000⟩
    durationBySpeed := fun d speed => if speed = minusOne then -d else d
    vstrm_h264_sei_streaming_is_v1 := fun uuid => uuid == List.replicate 16 0x11
    vstrm_h264_sei_streaming_is_v2 := fun uuid => uuid == List.replicate 16 0x22
    vbuf_set_userdata_capacity := fun b len =>
      if len ≤ b.userdataCapacity then
        (b.userdataCapacity, b)
      else
        (len, { b with
                  userdata := b.userdata ++ List.replicate (len - b.userdata.length) 0
                  userdataCapacity := len }) }

/-- An empty buffer of 16 bytes with no user-data region. -/
def sampleBuffer : VBuf :=
  { data := List.replicate 16 0xAA
    capacity := 16
    size := 0
    userdata := []
    userdataCapacity := 0
    userdataSize := 0
    inputBuffer := none }

/-- An access unit of two NAL units: an SEI of 3 bytes and a slice of 2
bytes. -/
def sampleAccessUnit : List Nat := [0, 0, 0, 3, 0x06, 0x05, 0x80, 0, 0, 0, 2, 0x65, 0x88]

/-- The answers of the collaborators for a tick at time 1000000 that reads
`sampleAccessUnit` with dts 33333: every call succeeds, the pool gives
`sampleBuffer`, the reader delivers no user data. -/
def sampleInputs : TickInputs :=
  { clock1 := 1000000
    clock2 := 1000010
    h264_reader_parse_nalu := fun _ => (0, [])
    decoderOpenRet := 0
    inputSourceRet := 0
    inputSource := ⟨some []⟩
    poolGetRet := 0
    poolGetBuffer := some sampleBuffer
    seekRet := 0
    seekPrevRet := 0
    nextSampleRet := 0
    sample := ⟨13, 0, false, 33333, 66666, 0⟩
    sampleData := sampleAccessUnit
    metadataAddOk := true
    hasMetadata := false
    queueRet := 0
    syncSampleTimes := [] }

/-- The opened demuxer with a byte-stream decoder attached. -/
def decodingDemuxer : RecordDemuxer :=
  (RecordDemuxer.setElementaryStreamDecoder sampleDefs openedDemuxer 0 (some ⟨2⟩)).2

/-- The buffer that a tick with the answers `sampleInputs` queues for a
byte-stream decoder: `sampleAccessUnit` with start codes, in the 16 bytes of
`sampleBuffer`, with its descriptor. -/
def queuedSampleBuffer : VBuf :=
  { data := [0, 0, 0, 1, 0x06, 0x05, 0x80, 0, 0, 0, 1, 0x65, 0x88, 0xAA, 0xAA, 0xAA]
    capacity := 16
    size := 13
    userdata := []
    userdataCapacity := 0
    userdataSize := 0
    inputBuffer := some ⟨true, false, true, false, 33333, 33333, 1000010, false, 1000010⟩ }

/-- The answers of the collaborators for a tick whose `queue_buffer` call
fails. -/
def failedQueueInputs : TickInputs :=
  { sampleInputs with queueRet := -EAGAIN }

/-- A second access unit: the same SEI and another slice of 2 bytes. -/
def secondAccessUnit : List Nat := [0, 0, 0, 3, 0x06, 0x05, 0x80, 0, 0, 0, 2, 0x41, 0x9A]

/-- The answers of the collaborators for a tick at time 1033343 that reads
`secondAccessUnit` with dts 66666; every call succeeds. -/
def secondInputs : TickInputs :=
  { sampleInputs with
      clock1 := 1033343
      clock2 := 1033353
      sample := ⟨13, 0, false, 66666, 99999, 0⟩
      sampleData := secondAccessUnit }

/-- The buffer that a tick with the answers `secondInputs` queues for a
byte-stream decoder. -/
def secondQueuedBuffer : VBuf :=
  { data := [0, 0, 0, 1, 0x06, 0x05, 0x80, 0, 0, 0, 1, 0x41, 0x9A, 0xAA, 0xAA, 0xAA]
    capacity := 16
    size := 13
    userdata := []
    userdataCapacity := 0
    userdataSize := 0
    inputBuffer := some ⟨true, false, true, false, 66666, 66666, 1033353, false, 1033353⟩ }

/-- The answers of the collaborators for a tick that reads `sampleAccessUnit`
as a sample that the container marks silent. -/
def silentInputs : TickInputs :=
  { sampleInputs with sample := ⟨13, 0, true, 33333, 66666, 0⟩ }

/-- The answers of the collaborators for a tick that reads `sampleAccessUnit`
as a silent sample that is the last of the track (`next_sample_dts` is 0). -/
def lastSilentInputs : TickInputs :=
  { sampleInputs with sample := ⟨13, 0, true, 33333, 0, 0⟩ }

/-- The buffer that a tick with the answers `silentInputs` or
`lastSilentInputs` queues for a byte-stream decoder while an exact seek is
pending: `queuedSampleBuffer` with the silent flag set. -/
def silentQueuedBuffer : VBuf :=
  { queuedSampleBuffer with
      inputBuffer := some ⟨true, false, true, true, 33333, 33333, 1000010, false, 1000010⟩ }

/-- The answers of the collaborators for a tick at the end of the track: the
sample read has size 0. -/
def endOfTrackInputs : TickInputs :=
  { sampleInputs with sample := ⟨0, 0, false, 0, 0, 0⟩, sampleData := [] }

/-- The sample demuxer after `play(1.0)` and one tick with the sample answers:
the first access unit is queued and the pacing members are set. -/
def pacedDemuxer : RecordDemuxer :=
  (RecordDemuxer.run sampleDefs sampleLibs decodingDemuxer
    [RecordDemuxer.Action.play F32.one, RecordDemuxer.Action.tick sampleInputs]).1

/-- The demuxer `pacedDemuxer` after `seekTo(5, false)`: a seek is pending. -/
def seekingDemuxer : RecordDemuxer :=
  (RecordDemuxer.seekTo pacedDemuxer 5 false).2

/-- The answers of the collaborators for a second tick that comes late, 100 ms
after the first one: the second sample is read, and the sync sample after it
is at 200000. -/
def lateInputs : TickInputs :=
  { secondInputs with clock1 := 1100000, clock2 := 1100010, syncSampleTimes := [200000] }

/-- The answers of the collaborators for a tick at time 1033343 in which the
sample read fails with `-ENOBUFS`: the sample does not fit the buffer. -/
def oversizedInputs : TickInputs :=
  { secondInputs with nextSampleRet := -ENOBUFS }

/-! ## Machine integer facts -/

/-- A value below `2^63` is unchanged by the conversion to `int64_t`. -/
theorem toInt64_of_lt (n : Nat) (h : n < 2 ^ 63) : toInt64 n = n := by
  unfold toInt64
  omega

/-- A `uint64_t` value from `2^63` on becomes negative as an `int64_t`. -/
theorem toInt64_of_ge (n : Nat) (h : 2 ^ 63 ≤ n) (h64 : n < 2 ^ 64) :
    toInt64 n = (n : Int) - 2 ^ 64 := by
  unfold toInt64
  omega

/-- A value below `2^64` is unchanged by the conversion to `uint64_t`. -/
theorem toUInt64_natCast (n : Nat) (h : n < 2 ^ 64) : toUInt64 n = n := by
  unfold toUInt64
  omega

/-- The code `-ENOENT` is negative. -/
theorem ENOENT_neg : -ENOENT < 0 := by decide

/-- The code `-ENOENT` is not the success code. -/
theorem ENOENT_ne_zero : -ENOENT ≠ 0 := by decide

/-- The code `-EIO` is not the success code. -/
theorem EIO_ne_zero : - EIO ≠ 0 := by decide

/-! ## Playback control: `play`, `seekTo`, `seek`, `previous` -/

namespace RecordDemuxer

/-- C1: on a configured demuxer `play(speed)` returns success.  When
`speed == 0` it sets `mRunning = false` and `mFrameByFrame = true` and changes
nothing else; otherwise it sets `mRunning = true`, `mFrameByFrame = false`,
`mSpeed = speed`, `mPendingSeekToPrevSample = false` and arms the timer at
1 ms, every other member (among them `mPendingSeekTs`, `mPendingSeekExact`
and `mCurrentTime`) keeping its value. -/
theorem play_spec (st : RecordDemuxer) (speed : F32) (h : st.mConfigured = true) :
    (play st speed).1 = 0 ∧
    (speed.isZero = true →
      (play st speed).2 = { st with mRunning := false, mFrameByFrame := true }) ∧
    (speed.isZero = false →
      (play st speed).2 =
        { st with
            mRunning := true
            mFrameByFrame := false
            mSpeed := speed
            mPendingSeekToPrevSample := false
            mTimer := ⟨some 1⟩ }) := by
  refine ⟨?_, ?_, ?_⟩
  · unfold play
    cases hz : speed.isZero <;> simp [h]
  · intro hz
    simp [play, h, hz]
  · intro hz
    simp [play, h, hz, pomp_timer_set]

/-- C1, instance: `play(1.0)` on the opened sample demuxer. -/
theorem play_spec_witness :
    openedDemuxer.mConfigured = true ∧
    (play openedDemuxer F32.one).1 = 0 ∧
    (F32.one.isZero = true →
      (play openedDemuxer F32.one).2 =
        { openedDemuxer with mRunning := false, mFrameByFrame := true }) ∧
    (F32.one.isZero = false →
      (play openedDemuxer F32.one).2 =
        { openedDemuxer with
            mRunning := true
            mFrameByFrame := false
            mSpeed := F32.one
            mPendingSeekToPrevSample := false
            mTimer := ⟨some 1⟩ }) :=
  ⟨rfl, play_spec openedDemuxer F32.one rfl⟩

/-- When the clamped timestamp fits a signed 64-bit integer, `seekTo` records
it as the pending seek target, with the `exact` flag, clears the
previous-sample request, sets `mRunning` and arms the timer at 1 ms. -/
theorem seekTo_of_lt (st : RecordDemuxer) (ts : Nat) (exact : Bool)
    (h : st.mConfigured = true) (hlt : min ts st.mDuration < 2 ^ 63) :
    seekTo st ts exact =
      (0, { st with
              mPendingSeekTs := (min ts st.mDuration : Nat)
              mPendingSeekExact := exact
              mPendingSeekToPrevSample := false
              mRunning := true
              mTimer := ⟨some 1⟩ }) ∧
    pendingSeekTs (seekTo st ts exact).2 = some (min ts st.mDuration) := by
  have hmin : (if ts > st.mDuration then st.mDuration else ts) = min ts st.mDuration := by
    split <;> omega
  have h64 : toInt64 ((min ts st.mDuration : Nat) : Int) = (min ts st.mDuration : Nat) :=
    toInt64_of_lt _ hlt
  constructor
  · simp only [seekTo, h, hmin, pomp_timer_set, h64]
    simp
  · simp only [seekTo, h, hmin, pendingSeekTs, h64]
    simp
    omega

/-- When the clamped timestamp does not fit a signed 64-bit integer, the
value stored by `seekTo` is negative and the timer callback sees no pending
timestamp seek. -/
theorem seekTo_of_ge (st : RecordDemuxer) (ts : Nat) (exact : Bool)
    (h : st.mConfigured = true) (hge : 2 ^ 63 ≤ min ts st.mDuration)
    (h64 : min ts st.mDuration < 2 ^ 64) :
    (seekTo st ts exact).1 = 0 ∧
    (seekTo st ts exact).2.mPendingSeekTs = (min ts st.mDuration : Nat) - 2 ^ 64 ∧
    pendingSeekTs (seekTo st ts exact).2 = none := by
  have hmin : (if ts > st.mDuration then st.mDuration else ts) = min ts st.mDuration := by
    split <;> omega
  have hval : toInt64 ((min ts st.mDuration : Nat) : Int) =
      ((min ts st.mDuration : Nat) : Int) - 2 ^ 64 := toInt64_of_ge _ hge h64
  have hneg : ¬ (((min ts st.mDuration : Nat) : Int) - 2 ^ 64 ≥ 0) := by omega
  refine ⟨?_, ?_, ?_⟩
  · simp only [seekTo, h, Bool.not_true, Bool.false_eq_true, if_false]
  · simp only [seekTo, h, hmin, hval, Bool.not_true, Bool.false_eq_true, if_false]
  · simp only [seekTo, h, hmin, hval, pendingSeekTs, Bool.not_true, Bool.false_eq_true,
      if_false]
    rw [if_neg hneg]

/-- C2: after `open("long.mp4")`, a container whose duration is `2^64 - 1`,
`seekTo(2^64 - 1, false)` returns success, sets `mRunning` and arms the timer,
but the stored `mPendingSeekTs` is `-1`: for the timer callback no timestamp
seek is pending, although the timestamp clamped to the duration is
`2^64 - 1`. -/
theorem seekTo_large_timestamp_lost :
    (open_ sampleEnv freshDemuxer "long.mp4").1 = 0 ∧
    longDemuxer.mConfigured = true ∧
    min (2 ^ 64 - 1) longDemuxer.mDuration = 2 ^ 64 - 1 ∧
    (seekTo longDemuxer (2 ^ 64 - 1) false).1 = 0 ∧
    (seekTo longDemuxer (2 ^ 64 - 1) false).2.mRunning = true ∧
    (seekTo longDemuxer (2 ^ 64 - 1) false).2.mTimer = ⟨some 1⟩ ∧
    (seekTo longDemuxer (2 ^ 64 - 1) false).2.mPendingSeekTs = -1 ∧
    pendingSeekTs (seekTo longDemuxer (2 ^ 64 - 1) false).2 = none := by
  decide

/-- Without overflow (`mCurrentTime`, `mDuration` and `mCurrentTime + delta`
all in the signed 64-bit range) `seek(delta, exact)` is `seekTo` at
`mCurrentTime + delta` clamped to `[0, mDuration]`. -/
theorem seek_of_no_overflow (st : RecordDemuxer) (delta : Int) (exact : Bool)
    (h : st.mConfigured = true) (hc : st.mCurrentTime < 2 ^ 63)
    (hd : st.mDuration < 2 ^ 63)
    (hlo : -2 ^ 63 ≤ (st.mCurrentTime : Int) + delta)
    (hhi : (st.mCurrentTime : Int) + delta < 2 ^ 63) :
    seek st delta exact =
      seekTo st (min (max ((st.mCurrentTime : Int) + delta) 0) st.mDuration).toNat exact := by
  have h1 : toInt64 (st.mCurrentTime : Int) = st.mCurrentTime := toInt64_of_lt _ hc
  have h2 : toInt64 ((st.mCurrentTime : Int) + delta) = (st.mCurrentTime : Int) + delta := by
    unfold toInt64
    omega
  have h3 : toInt64 (st.mDuration : Int) = st.mDuration := toInt64_of_lt _ hd
  have harg : ∀ x d : Int, 0 ≤ d → d < 2 ^ 63 → x < 2 ^ 63 →
      toUInt64 (if (if x < 0 then 0 else x) > d then d else (if x < 0 then 0 else x)) =
        (min (max x 0) d).toNat := by
    intro x d hd0 hd1 hx
    unfold toUInt64
    split <;> split <;> omega
  simp only [seek, h, h1, h2, h3]
  simp only [Bool.not_true, Bool.false_eq_true, if_false]
  rw [harg _ _ (Int.natCast_nonneg _) (by exact_mod_cast hd) hhi]

/-- C3: on an opened demuxer of duration 10 s whose current time is 33333,
`seek` with the most positive delta `2^63 - 1` overflows the signed addition
and leaves the pending target 0 instead of the duration; and on the demuxer
opened on a container of duration `2^64 - 1`, `seek(5, false)` from time 0
leaves `mPendingSeekTs = -1` (no pending seek) instead of the target 5. -/
theorem seek_target_not_clamped :
    playingDemuxer.mConfigured = true ∧
    playingDemuxer.mCurrentTime = 33333 ∧
    playingDemuxer.mDuration = 10000000 ∧
    (seek playingDemuxer (2 ^ 63 - 1) false).2.mPendingSeekTs = 0 ∧
    pendingSeekTs (seek playingDemuxer (2 ^ 63 - 1) false).2 = some 0 ∧
    longDemuxer.mConfigured = true ∧
    longDemuxer.mCurrentTime = 0 ∧
    longDemuxer.mDuration = 2 ^ 64 - 1 ∧
    (seek longDemuxer 5 false).2.mPendingSeekTs = -1 ∧
    pendingSeekTs (seek longDemuxer 5 false).2 = none := by
  refine ⟨rfl, rfl, rfl, rfl, rfl, rfl, rfl, rfl, rfl, rfl⟩

/-- C4 as stated fails: after `seekTo(5000000, true)` no seek to the previous
sample is pending, yet `previous()` changes nothing. -/
theorem previous_ignored_during_exact_seek :
    (seekTo openedDemuxer 5000000 true).2.mConfigured = true ∧
    (seekTo openedDemuxer 5000000 true).2.mPendingSeekToPrevSample = false ∧
    (previous (seekTo openedDemuxer 5000000 true).2).2.mPendingSeekToPrevSample = false ∧
    previous (seekTo openedDemuxer 5000000 true).2 =
      (0, (seekTo openedDemuxer 5000000 true).2) := by
  decide

/-- C4, amended: on a configured demuxer `previous()` returns success; when
`mPendingSeekExact` is false it sets `mPendingSeekToPrevSample = true`,
`mPendingSeekExact = true`, `mRunning = true` and arms the timer at 1 ms,
changing nothing else; when `mPendingSeekExact` is true it changes nothing. -/
theorem previous_spec (st : RecordDemuxer) (h : st.mConfigured = true) :
    (previous st).1 = 0 ∧
    (st.mPendingSeekExact = false →
      (previous st).2 =
        { st with
            mPendingSeekToPrevSample := true
            mPendingSeekExact := true
            mRunning := true
            mTimer := ⟨some 1⟩ }) ∧
    (st.mPendingSeekExact = true → (previous st).2 = st) := by
  refine ⟨?_, ?_, ?_⟩
  · unfold previous
    cases he : st.mPendingSeekExact <;> simp [h]
  · intro he
    simp [previous, h, he, pomp_timer_set]
  · intro he
    simp [previous, h, he]

/-- C4, instance of the amended statement on the opened sample demuxer. -/
theorem previous_spec_witness :
    openedDemuxer.mConfigured = true ∧
    (previous openedDemuxer).1 = 0 ∧
    (openedDemuxer.mPendingSeekExact = false →
      (previous openedDemuxer).2 =
        { openedDemuxer with
            mPendingSeekToPrevSample := true
            mPendingSeekExact := true
            mRunning := true
            mTimer := ⟨some 1⟩ }) ∧
    (openedDemuxer.mPendingSeekExact = true →
      (previous openedDemuxer).2 = openedDemuxer) :=
  ⟨rfl, previous_spec openedDemuxer rfl⟩

/-- C5: `previous()` is idempotent: a second call right after the first
returns the same code and leaves the same members and the same timer arming
as the first call alone.  This holds in every state, configured or not. -/
theorem previous_idempotent (st : RecordDemuxer) :
    previous (previous st).2 = previous st := by
  unfold previous
  cases hc : st.mConfigured <;> cases he : st.mPendingSeekExact <;>
    simp [hc, he, pomp_timer_set]

/-- C6 as stated fails: `play(0)` right after `play(1.0)` on the opened
sample demuxer leaves the demuxer paused and not running, with the timer
still armed at 1 ms. -/
theorem play_zero_keeps_timer_armed :
    openedDemuxer.mConfigured = true ∧
    isPaused (play (play openedDemuxer F32.one).2 F32.zero).2 = true ∧
    (play (play openedDemuxer F32.one).2 F32.zero).2.mRunning = false ∧
    (play (play openedDemuxer F32.one).2 F32.zero).2.mTimer.armed = some 1 := by
  decide

/-- C6, amended: on a configured demuxer, after `play(speed)` with
`speed == 0` the demuxer is paused (`isPaused()` is true, `mRunning` is
false) and the timer is exactly as it was before the call. -/
theorem play_zero_paused (st : RecordDemuxer) (speed : F32)
    (h : st.mConfigured = true) (hz : speed.isZero = true) :
    isPaused (play st speed).2 = true ∧
    (play st speed).2.mRunning = false ∧
    (play st speed).2.mTimer = st.mTimer := by
  simp [play, isPaused, h, hz]

/-- C6, instance of the amended statement: `play(0)` after `play(1.0)`. -/
theorem play_zero_paused_witness :
    (play openedDemuxer F32.one).2.mConfigured = true ∧
    F32.zero.isZero = true ∧
    isPaused (play (play openedDemuxer F32.one).2 F32.zero).2 = true ∧
    (play (play openedDemuxer F32.one).2 F32.zero).2.mRunning = false ∧
    (play (play openedDemuxer F32.one).2 F32.zero).2.mTimer =
      (play openedDemuxer F32.one).2.mTimer :=
  ⟨rfl, rfl, play_zero_paused (play openedDemuxer F32.one).2 F32.zero rfl rfl⟩

/-! ## Calls on a demuxer that is not configured -/

/-- C7 as stated fails: on the newly constructed (not configured) demuxer,
`setElementaryStreamDecoder` with a null decoder returns `-EINVAL`, not
`-EPROTO`, and `isPaused()` returns the plain value `false`. -/
theorem unconfigured_null_decoder_is_EINVAL :
    freshDemuxer.mConfigured = false ∧
    (setElementaryStreamDecoder sampleDefs freshDemuxer 0 none).1 = -EINVAL ∧
    (setElementaryStreamDecoder sampleDefs freshDemuxer 0 none).1 ≠ -EPROTO ∧
    isPaused freshDemuxer = false := by
  decide

/-- C7, amended: on a demuxer that is not configured, `close`, `play`,
`previous`, `next`, `seek`, `seekTo`, `setElementaryStreamDecoder` with a
non-null decoder and the video dimension and field-of-view getters return
`-EPROTO` for all arguments; `setElementaryStreamDecoder` with a null decoder
returns `-EINVAL`; `isPaused` returns `false`, `getElementaryStreamCount`
returns 0 and `getElementaryStreamType` returns the unknown type.  None of
them changes a member of the demuxer. -/
theorem unconfigured_calls (k : Defs) (st : RecordDemuxer) (h : st.mConfigured = false) :
    close st = (-EPROTO, st) ∧
    (∀ speed, play st speed = (-EPROTO, st)) ∧
    previous st = (-EPROTO, st) ∧
    next st = (-EPROTO, st) ∧
    (∀ delta exact, seek st delta exact = (-EPROTO, st)) ∧
    (∀ ts exact, seekTo st ts exact = (-EPROTO, st)) ∧
    (∀ esIndex dec, setElementaryStreamDecoder k st esIndex (some dec) = (-EPROTO, st)) ∧
    (∀ esIndex, setElementaryStreamDecoder k st esIndex none = (-EINVAL, st)) ∧
    isPaused st = false ∧
    getElementaryStreamCount st = 0 ∧
    (∀ esIndex, getElementaryStreamType st esIndex =
      ElementaryStreamType.ELEMENTARY_STREAM_TYPE_UNKNOWN) ∧
    (∀ esIndex, getElementaryStreamVideoDimensions st esIndex = (-EPROTO, none)) ∧
    (∀ esIndex, getElementaryStreamVideoFov st esIndex = (-EPROTO, none)) := by
  simp [close, play, previous, next, seek, seekTo, setElementaryStreamDecoder, isPaused,
    getElementaryStreamCount, getElementaryStreamType, getElementaryStreamVideoDimensions,
    getElementaryStreamVideoFov, h]

/-- C7, instance of the amended statement on the newly constructed demuxer. -/
theorem unconfigured_calls_witness :
    freshDemuxer.mConfigured = false ∧
    close freshDemuxer = (-EPROTO, freshDemuxer) ∧
    (∀ speed, play freshDemuxer speed = (-EPROTO, freshDemuxer)) ∧
    previous freshDemuxer = (-EPROTO, freshDemuxer) ∧
    next freshDemuxer = (-EPROTO, freshDemuxer) ∧
    (∀ delta exact, seek freshDemuxer delta exact = (-EPROTO, freshDemuxer)) ∧
    (∀ ts exact, seekTo freshDemuxer ts exact = (-EPROTO, freshDemuxer)) ∧
    (∀ esIndex dec, setElementaryStreamDecoder sampleDefs freshDemuxer esIndex (some dec) =
      (-EPROTO, freshDemuxer)) ∧
    (∀ esIndex, setElementaryStreamDecoder sampleDefs freshDemuxer esIndex none =
      (-EINVAL, freshDemuxer)) ∧
    isPaused freshDemuxer = false ∧
    getElementaryStreamCount freshDemuxer = 0 ∧
    (∀ esIndex, getElementaryStreamType freshDemuxer esIndex =
      ElementaryStreamType.ELEMENTARY_STREAM_TYPE_UNKNOWN) ∧
    (∀ esIndex, getElementaryStreamVideoDimensions freshDemuxer esIndex = (-EPROTO, none)) ∧
    (∀ esIndex, getElementaryStreamVideoFov freshDemuxer esIndex = (-EPROTO, none)) :=
  ⟨rfl, unconfigured_calls sampleDefs freshDemuxer rfl⟩

/-! ## `open` -/

/-- The track loop of `open` does not write `mConfigured`, `mDemux` or
`mDuration`. -/
theorem openTrackLoop_keeps (d : Mp4Demux) (n i : Nat) (st : RecordDemuxer) :
    (openTrackLoop d n i st).2.mConfigured = st.mConfigured ∧
    (openTrackLoop d n i st).2.mDemux = st.mDemux ∧
    (openTrackLoop d n i st).2.mDuration = st.mDuration := by
  induction n generalizing i with
  | zero => simp [openTrackLoop]
  | succ n ih =>
    unfold openTrackLoop
    simp only
    split
    · simp
    · exact ih (i + 1)

/-- `fetchVideoDimensions` does not write `mConfigured`, `mDemux`,
`mVideoTrackCount` or `mVideoTrackId`. -/
theorem fetchVideoDimensions_keeps (env : Env) (d : Mp4Demux) (st : RecordDemuxer) :
    (fetchVideoDimensions env d st).2.mConfigured = st.mConfigured ∧
    (fetchVideoDimensions env d st).2.mDemux = st.mDemux ∧
    (fetchVideoDimensions env d st).2.mVideoTrackCount = st.mVideoTrackCount ∧
    (fetchVideoDimensions env d st).2.mVideoTrackId = st.mVideoTrackId := by
  unfold fetchVideoDimensions
  simp only
  split <;> simp

/-- `fetchSessionMetadata` does not write `mConfigured`, `mDemux`,
`mVideoTrackCount` or `mVideoTrackId`. -/
theorem fetchSessionMetadata_keeps (env : Env) (d : Mp4Demux) (st : RecordDemuxer) :
    (fetchSessionMetadata env d st).2.mConfigured = st.mConfigured ∧
    (fetchSessionMetadata env d st).2.mDemux = st.mDemux ∧
    (fetchSessionMetadata env d st).2.mVideoTrackCount = st.mVideoTrackCount ∧
    (fetchSessionMetadata env d st).2.mVideoTrackId = st.mVideoTrackId := by
  unfold fetchSessionMetadata
  simp only
  split <;> simp

/-- After `mp4_demux_open` has succeeded, a failure of a later step of `open`
returns a negative code and leaves `mConfigured` and `mDemux` as they are. -/
theorem openWithDemux_failure (env : Env) (d : Mp4Demux) (st : RecordDemuxer)
    (hr : (openWithDemux env d st).1 ≠ 0) :
    (openWithDemux env d st).1 < 0 ∧
    (openWithDemux env d st).2.mConfigured = st.mConfigured ∧
    (openWithDemux env d st).2.mDemux = st.mDemux := by
  unfold openWithDemux at hr ⊢
  by_cases h1 : d.mediaInfoRet < 0
  · rw [if_pos h1] at hr ⊢
    exact ⟨h1, rfl, rfl⟩
  · simp only [h1, if_false] at hr ⊢
    have k1 := openTrackLoop_keeps d (uint32ToInt d.mediaInfo.track_count).toNat 0
      { st with mDuration := d.mediaInfo.duration }
    generalize openTrackLoop d (uint32ToInt d.mediaInfo.track_count).toNat 0
      { st with mDuration := d.mediaInfo.duration } = r1 at hr k1 ⊢
    have k2 := fetchVideoDimensions_keeps env d r1.2
    generalize fetchVideoDimensions env d r1.2 = r2 at hr k2 ⊢
    have k3 := fetchSessionMetadata_keeps env d r2.2
    generalize fetchSessionMetadata env d r2.2 = r3 at hr k3 ⊢
    by_cases h2 : (!r1.1) = true
    · rw [if_pos h2] at hr ⊢
      exact ⟨ENOENT_neg, k1.1, k1.2.1⟩
    · rw [if_neg h2] at hr ⊢
      by_cases h3 : r2.1 < 0
      · rw [if_pos h3] at hr ⊢
        exact ⟨h3, k2.1.trans k1.1, k2.2.1.trans k1.2.1⟩
      · rw [if_neg h3] at hr ⊢
        by_cases h4 : r3.1 < 0
        · rw [if_pos h4] at hr ⊢
          exact ⟨h4, k3.1.trans (k2.1.trans k1.1), k3.2.1.trans (k2.2.1.trans k1.2.1)⟩
        · rw [if_neg h4] at hr ⊢
          exact absurd rfl hr

/-- C8 as stated fails: `open("noinfo.mp4")`, on which the media information
cannot be read, returns the error and leaves the demuxer not configured, but
the container handle obtained from `mp4_demux_open` is still held. -/
theorem open_failure_keeps_handle :
    freshDemuxer.mConfigured = false ∧
    (open_ sampleEnv freshDemuxer "noinfo.mp4").1 = -EINVAL ∧
    (open_ sampleEnv freshDemuxer "noinfo.mp4").2.mConfigured = false ∧
    (open_ sampleEnv freshDemuxer "noinfo.mp4").2.mDemux = some noInfoContainer ∧
    (open_ sampleEnv freshDemuxer "noinfo.mp4").2.mDemux ≠ none :=
  ⟨rfl, rfl, rfl, rfl, fun h => Option.noConfusion h⟩

/-- C8, amended: whenever `open`, called on a demuxer that is not configured,
does not return 0, the returned code is negative (`-EIO` when the container
cannot be opened), the demuxer stays not configured, and `mDemux` is whatever
`mp4_demux_open` returned for the file: a handle that was obtained is still
held after the call. -/
theorem open_failure (env : Env) (st : RecordDemuxer) (fileName : String)
    (h : st.mConfigured = false) (hr : (open_ env st fileName).1 ≠ 0) :
    (open_ env st fileName).1 < 0 ∧
    (env.mp4_demux_open fileName = none → (open_ env st fileName).1 = - EIO) ∧
    (open_ env st fileName).2.mConfigured = false ∧
    (open_ env st fileName).2.mDemux = env.mp4_demux_open fileName := by
  unfold open_ at hr ⊢
  simp only [h, Bool.false_eq_true, if_false] at hr ⊢
  cases hd : env.mp4_demux_open fileName with
  | none =>
    simp only [hd] at hr ⊢
    exact ⟨by decide, fun _ => trivial, trivial, trivial⟩
  | some d =>
    simp only [hd] at hr ⊢
    have hf := openWithDemux_failure env d _ hr
    exact ⟨hf.1, fun h0 => Option.noConfusion h0, hf.2.1, hf.2.2⟩

/-- C8, instance of the amended statement: `open("noinfo.mp4")` on the newly
constructed demuxer. -/
theorem open_failure_witness :
    freshDemuxer.mConfigured = false ∧
    (open_ sampleEnv freshDemuxer "noinfo.mp4").1 ≠ 0 ∧
    (open_ sampleEnv freshDemuxer "noinfo.mp4").1 < 0 ∧
    (sampleEnv.mp4_demux_open "noinfo.mp4" = none →
      (open_ sampleEnv freshDemuxer "noinfo.mp4").1 = - EIO) ∧
    (open_ sampleEnv freshDemuxer "noinfo.mp4").2.mConfigured = false ∧
    (open_ sampleEnv freshDemuxer "noinfo.mp4").2.mDemux =
      sampleEnv.mp4_demux_open "noinfo.mp4" :=
  ⟨rfl, by decide, open_failure sampleEnv freshDemuxer "noinfo.mp4" rfl (by decide)⟩

/-- The track loop of `open` finds a track exactly at the first index, from
`i` on and among the next `n`, whose information is obtained and whose type
is video; it then records that track's identifier and adds one to
`mVideoTrackCount`. -/
theorem openTrackLoop_found (d : Mp4Demux) (n i : Nat) (st : RecordDemuxer)
    (h : (openTrackLoop d n i st).1 = true) :
    ∃ k, i ≤ k ∧ k < i + n ∧
      (d.getTrackInfo k).1 = 0 ∧ (d.getTrackInfo k).2.type = Mp4TrackType.video ∧
      (∀ j, i ≤ j → j < k →
        ¬((d.getTrackInfo j).1 = 0 ∧ (d.getTrackInfo j).2.type = Mp4TrackType.video)) ∧
      (openTrackLoop d n i st).2.mVideoTrackId = (d.getTrackInfo k).2.id ∧
      (openTrackLoop d n i st).2.mVideoTrackCount = st.mVideoTrackCount + 1 := by
  induction n generalizing i with
  | zero => simp [openTrackLoop] at h
  | succ n ih =>
    unfold openTrackLoop at h ⊢
    simp only at h ⊢
    by_cases c : ((d.getTrackInfo i).1 == 0 && (d.getTrackInfo i).2.type == Mp4TrackType.video) = true
    · rw [if_pos c]
      have c' := c
      simp only [Bool.and_eq_true, beq_iff_eq] at c'
      exact ⟨i, le_refl i, by omega, c'.1, c'.2, fun j h1 h2 => absurd h2 (by omega), rfl, rfl⟩
    · rw [if_neg c] at h ⊢
      obtain ⟨k, hk1, hk2, hk3, hk4, hk5, hk6, hk7⟩ := ih (i + 1) h
      refine ⟨k, by omega, by omega, hk3, hk4, ?_, hk6, hk7⟩
      intro j hj1 hj2
      by_cases hji : j = i
      · subst hji
        simpa only [Bool.and_eq_true, beq_iff_eq] using c
      · exact hk5 j (by omega) hj2

/-- When the track loop of `open` finds nothing, none of the `n` tracks from
index `i` on is a video track whose information is obtained, and no member
has changed. -/
theorem openTrackLoop_not_found (d : Mp4Demux) (n i : Nat) (st : RecordDemuxer)
    (h : (openTrackLoop d n i st).1 = false) :
    (∀ j, i ≤ j → j < i + n →
      ¬((d.getTrackInfo j).1 = 0 ∧ (d.getTrackInfo j).2.type = Mp4TrackType.video)) ∧
    (openTrackLoop d n i st).2 = st := by
  induction n generalizing i with
  | zero =>
    refine ⟨fun j h1 h2 => absurd h2 (by omega), rfl⟩
  | succ n ih =>
    unfold openTrackLoop at h ⊢
    simp only at h ⊢
    by_cases c : ((d.getTrackInfo i).1 == 0 && (d.getTrackInfo i).2.type == Mp4TrackType.video) = true
    · rw [if_pos c] at h
      exact absurd h (by simp)
    · rw [if_neg c] at h ⊢
      obtain ⟨h1, h2⟩ := ih (i + 1) h
      refine ⟨?_, h2⟩
      intro j hj1 hj2
      by_cases hji : j = i
      · subst hji
        simpa only [Bool.and_eq_true, beq_iff_eq] using c
      · exact h1 j (by omega) (by omega)

/-- A successful `open` after `mp4_demux_open` returned `d`: the demuxer is
configured on the first track, in container order and below the track count,
whose information is obtained and whose type is video, and
`mVideoTrackCount` has been incremented once. -/
theorem openWithDemux_success (env : Env) (d : Mp4Demux) (st : RecordDemuxer)
    (hr : (openWithDemux env d st).1 = 0) :
    ∃ k : Nat, (k : Int) < uint32ToInt d.mediaInfo.track_count ∧
      (d.getTrackInfo k).1 = 0 ∧ (d.getTrackInfo k).2.type = Mp4TrackType.video ∧
      (∀ j, j < k →
        ¬((d.getTrackInfo j).1 = 0 ∧ (d.getTrackInfo j).2.type = Mp4TrackType.video)) ∧
      (openWithDemux env d st).2.mConfigured = true ∧
      (openWithDemux env d st).2.mVideoTrackId = (d.getTrackInfo k).2.id ∧
      (openWithDemux env d st).2.mVideoTrackCount = st.mVideoTrackCount + 1 := by
  unfold openWithDemux at hr ⊢
  by_cases h1 : d.mediaInfoRet < 0
  · rw [if_pos h1] at hr
    exact absurd hr (by simp only; omega)
  · simp only [h1, if_false] at hr ⊢
    have f1 := openTrackLoop_found d (uint32ToInt d.mediaInfo.track_count).toNat 0
      { st with mDuration := d.mediaInfo.duration }
    generalize openTrackLoop d (uint32ToInt d.mediaInfo.track_count).toNat 0
      { st with mDuration := d.mediaInfo.duration } = r1 at hr f1 ⊢
    have k2 := fetchVideoDimensions_keeps env d r1.2
    generalize fetchVideoDimensions env d r1.2 = r2 at hr k2 ⊢
    have k3 := fetchSessionMetadata_keeps env d r2.2
    generalize fetchSessionMetadata env d r2.2 = r3 at hr k3 ⊢
    by_cases h2 : (!r1.1) = true
    · rw [if_pos h2] at hr
      exact absurd hr ENOENT_ne_zero
    · rw [if_neg h2] at hr ⊢
      by_cases h3 : r2.1 < 0
      · rw [if_pos h3] at hr
        exact absurd hr (by simp only; omega)
      · rw [if_neg h3] at hr ⊢
        by_cases h4 : r3.1 < 0
        · rw [if_pos h4] at hr
          exact absurd hr (by simp only; omega)
        · rw [if_neg h4]
          have hfound : r1.1 = true := by
            cases hb : r1.1
            · rw [hb] at h2
              exact absurd rfl h2
            · rfl
          obtain ⟨k, _, hk2, hk3, hk4, hk5, hk6, hk7⟩ := f1 hfound
          refine ⟨k, ?_, hk3, hk4, fun j hj => hk5 j (Nat.zero_le j) hj, rfl, ?_, ?_⟩
          · omega
          · exact (k3.2.2.2.trans k2.2.2.2).trans hk6
          · exact (k3.2.2.1.trans k2.2.2.1).trans hk7

/-- On a demuxer that is not configured, `open` of a file that
`mp4_demux_open` opens continues with the steps of `openWithDemux`. -/
theorem open_eq_some (env : Env) (st : RecordDemuxer) (fileName : String) (d : Mp4Demux)
    (h : st.mConfigured = false) (hd : env.mp4_demux_open fileName = some d) :
    open_ env st fileName =
      openWithDemux env d { st with mFileName := fileName, mDemux := some d } := by
  unfold open_
  rw [if_neg (by simp [h])]
  simp only [hd]

/-- On a demuxer that is not configured, `open` of a file that
`mp4_demux_open` cannot open returns `-EIO`. -/
theorem open_eq_none (env : Env) (st : RecordDemuxer) (fileName : String)
    (h : st.mConfigured = false) (hd : env.mp4_demux_open fileName = none) :
    open_ env st fileName = (- EIO, { st with mFileName := fileName, mDemux := none }) := by
  unfold open_
  rw [if_neg (by simp [h])]
  simp only [hd]

/-- A successful `open` on a demuxer that is not configured: the container
was opened, the demuxer is configured on the first track, in container order
and below the track count, whose information is obtained and whose type is
video, and `mVideoTrackCount` is one more than before the call. -/
theorem open_success (env : Env) (st : RecordDemuxer) (fileName : String)
    (h : st.mConfigured = false) (hr : (open_ env st fileName).1 = 0) :
    ∃ (d : Mp4Demux) (k : Nat), env.mp4_demux_open fileName = some d ∧
      (k : Int) < uint32ToInt d.mediaInfo.track_count ∧
      (d.getTrackInfo k).1 = 0 ∧ (d.getTrackInfo k).2.type = Mp4TrackType.video ∧
      (∀ j, j < k →
        ¬((d.getTrackInfo j).1 = 0 ∧ (d.getTrackInfo j).2.type = Mp4TrackType.video)) ∧
      (open_ env st fileName).2.mConfigured = true ∧
      (open_ env st fileName).2.mVideoTrackId = (d.getTrackInfo k).2.id ∧
      (open_ env st fileName).2.mVideoTrackCount = st.mVideoTrackCount + 1 := by
  cases hd : env.mp4_demux_open fileName with
  | none =>
    rw [open_eq_none env st fileName h hd] at hr
    exact absurd hr EIO_ne_zero
  | some d =>
    rw [open_eq_some env st fileName d h hd] at hr ⊢
    obtain ⟨k, hk⟩ := openWithDemux_success env d _ hr
    exact ⟨d, k, rfl, hk⟩

/-- After a successful `open` on a demuxer that is not configured and whose
`mVideoTrackCount` is still 0 (no earlier `open` found a video track),
exactly one elementary stream is exposed: the count is 1, the type of stream
0 is AVC video and the type of any other index is unknown. -/
theorem open_success_streams (env : Env) (st : RecordDemuxer) (fileName : String)
    (h : st.mConfigured = false) (h0 : st.mVideoTrackCount = 0)
    (hr : (open_ env st fileName).1 = 0) :
    getElementaryStreamCount (open_ env st fileName).2 = 1 ∧
    getElementaryStreamType (open_ env st fileName).2 0 =
      ElementaryStreamType.ELEMENTARY_STREAM_TYPE_VIDEO_AVC ∧
    (∀ i : Int, i ≠ 0 →
      getElementaryStreamType (open_ env st fileName).2 i =
        ElementaryStreamType.ELEMENTARY_STREAM_TYPE_UNKNOWN) := by
  obtain ⟨d, k, _, _, _, _, _, hc, _, hn⟩ := open_success env st fileName h hr
  generalize (open_ env st fileName).2 = st' at hc hn ⊢
  rw [h0] at hn
  refine ⟨?_, ?_, ?_⟩
  · simp [getElementaryStreamCount, hc, hn]
  · simp [getElementaryStreamType, hc, hn]
  · intro i hi
    unfold getElementaryStreamType
    simp only [hc, hn, Bool.not_true, Bool.false_eq_true, if_false]
    rw [if_pos]
    simp only [Bool.or_eq_true, decide_eq_true_eq]
    omega

/-- When the media information of the opened container is read but no track
below the track count is a video track whose information is obtained, the
steps after `mp4_demux_open` fail with `-ENOENT`. -/
theorem openWithDemux_no_video_track (env : Env) (d : Mp4Demux) (st : RecordDemuxer)
    (hi : ¬ d.mediaInfoRet < 0)
    (hnone : ∀ j : Nat, (j : Int) < uint32ToInt d.mediaInfo.track_count →
      ¬((d.getTrackInfo j).1 = 0 ∧ (d.getTrackInfo j).2.type = Mp4TrackType.video)) :
    (openWithDemux env d st).1 = -ENOENT := by
  unfold openWithDemux
  simp only [hi, if_false]
  have f1 := openTrackLoop_found d (uint32ToInt d.mediaInfo.track_count).toNat 0
    { st with mDuration := d.mediaInfo.duration }
  generalize openTrackLoop d (uint32ToInt d.mediaInfo.track_count).toNat 0
    { st with mDuration := d.mediaInfo.duration } = r1 at f1 ⊢
  cases hb : r1.1 with
  | false => simp
  | true =>
    obtain ⟨k, _, hk2, hk3, hk4, _⟩ := f1 hb
    exact absurd ⟨hk3, hk4⟩ (hnone k (by omega))

/-- When the container opens and its media information is read, but no
track below the track count is a video track whose information is obtained,
`open` fails with `-ENOENT`. -/
theorem open_no_video_track (env : Env) (st : RecordDemuxer) (fileName : String)
    (d : Mp4Demux) (h : st.mConfigured = false)
    (hd : env.mp4_demux_open fileName = some d) (hi : ¬ d.mediaInfoRet < 0)
    (hnone : ∀ j : Nat, (j : Int) < uint32ToInt d.mediaInfo.track_count →
      ¬((d.getTrackInfo j).1 = 0 ∧ (d.getTrackInfo j).2.type = Mp4TrackType.video)) :
    (open_ env st fileName).1 = -ENOENT := by
  rw [open_eq_some env st fileName d h hd]
  exact openWithDemux_no_video_track env d _ hi hnone

/-- Instance of `open_success_streams`: `open("sample.mp4")` on the newly
constructed demuxer exposes one AVC video stream. -/
theorem open_success_streams_sample :
    getElementaryStreamCount openedDemuxer = 1 ∧
    getElementaryStreamType openedDemuxer 0 =
      ElementaryStreamType.ELEMENTARY_STREAM_TYPE_VIDEO_AVC ∧
    (∀ i : Int, i ≠ 0 →
      getElementaryStreamType openedDemuxer i =
        ElementaryStreamType.ELEMENTARY_STREAM_TYPE_UNKNOWN) :=
  open_success_streams sampleEnv freshDemuxer "sample.mp4" rfl rfl rfl

/-- Instance of `open_no_video_track`: `open("audio.mp4")`, a container with
an audio track only, fails with `-ENOENT`. -/
theorem open_no_video_track_sample :
    (open_ sampleEnv freshDemuxer "audio.mp4").1 = -ENOENT :=
  open_no_video_track sampleEnv freshDemuxer "audio.mp4" audioOnlyContainer rfl rfl
    (by decide)
    (by
      intro j hj
      have hj0 : j = 0 := by
        have h1 : uint32ToInt audioOnlyContainer.mediaInfo.track_count = 1 := by decide
        rw [h1] at hj
        omega
      subst hj0
      decide)

/-- C9: a first `open("noconfig.mp4")` finds the video track but fails on the
decoder configuration; the following `open("sample.mp4")` succeeds, and then
`getElementaryStreamCount()` is 2 and `getElementaryStreamType(1)` is AVC
video, although the container has a single track. -/
theorem open_after_failed_open_two_streams :
    freshDemuxer.mVideoTrackCount = 0 ∧
    (open_ sampleEnv freshDemuxer "noconfig.mp4").1 = -EINVAL ∧
    (open_ sampleEnv freshDemuxer "noconfig.mp4").2.mConfigured = false ∧
    (open_ sampleEnv (open_ sampleEnv freshDemuxer "noconfig.mp4").2 "sample.mp4").1 = 0 ∧
    getElementaryStreamCount
      (open_ sampleEnv (open_ sampleEnv freshDemuxer "noconfig.mp4").2 "sample.mp4").2 = 2 ∧
    getElementaryStreamType
      (open_ sampleEnv (open_ sampleEnv freshDemuxer "noconfig.mp4").2 "sample.mp4").2 1 =
        ElementaryStreamType.ELEMENTARY_STREAM_TYPE_VIDEO_AVC ∧
    sampleContainer.tracks.length = 1 :=
  ⟨rfl, rfl, rfl, rfl, rfl, rfl, rfl⟩
/-! ## `setElementaryStreamDecoder` -/

/-- C10: on a configured demuxer, for a valid stream index and a non-null
decoder, `setElementaryStreamDecoder` returns `-ENOSYS` exactly when the
decoder's format capabilities contain neither the byte-stream flag nor the
AVCC flag (`caps & FLAG` is zero for both); when the byte-stream flag is
present it returns 0 and selects the byte-stream format, whether or not the
AVCC flag is present too; when only the AVCC flag is present it returns 0 and
selects the AVCC format. -/
theorem setElementaryStreamDecoder_format (k : Defs) (st : RecordDemuxer) (esIndex : Int)
    (dec : AvcDecoder) (h : st.mConfigured = true) (h0 : 0 ≤ esIndex)
    (h1 : esIndex < st.mVideoTrackCount) :
    ((setElementaryStreamDecoder k st esIndex (some dec)).1 = -ENOSYS ↔
      (dec.formatCaps &&& k.AVCDECODER_BITSTREAM_FORMAT_BYTE_STREAM = 0 ∧
        dec.formatCaps &&& k.AVCDECODER_BITSTREAM_FORMAT_AVCC = 0)) ∧
    (dec.formatCaps &&& k.AVCDECODER_BITSTREAM_FORMAT_BYTE_STREAM ≠ 0 →
      (setElementaryStreamDecoder k st esIndex (some dec)).1 = 0 ∧
      (setElementaryStreamDecoder k st esIndex (some dec)).2.mDecoderBitstreamFormat =
        k.AVCDECODER_BITSTREAM_FORMAT_BYTE_STREAM) ∧
    (dec.formatCaps &&& k.AVCDECODER_BITSTREAM_FORMAT_BYTE_STREAM = 0 →
      dec.formatCaps &&& k.AVCDECODER_BITSTREAM_FORMAT_AVCC ≠ 0 →
      (setElementaryStreamDecoder k st esIndex (some dec)).1 = 0 ∧
      (setElementaryStreamDecoder k st esIndex (some dec)).2.mDecoderBitstreamFormat =
        k.AVCDECODER_BITSTREAM_FORMAT_AVCC) := by
  have hidx : (decide (esIndex < 0) || decide (esIndex ≥ st.mVideoTrackCount)) = false := by
    simp only [Bool.or_eq_false_iff, decide_eq_false_iff_not]
    omega
  unfold setElementaryStreamDecoder
  simp only [h, hidx, Bool.not_true, Bool.false_eq_true, if_false]
  by_cases hb : dec.formatCaps &&& k.AVCDECODER_BITSTREAM_FORMAT_BYTE_STREAM = 0
  · by_cases ha : dec.formatCaps &&& k.AVCDECODER_BITSTREAM_FORMAT_AVCC = 0
    · simp [hb, ha]
    · simp [hb, ha, ENOSYS]
  · simp [hb, ENOSYS]

/-- C10, instance: a decoder that accepts AVCC only, attached to stream 0 of
the opened sample demuxer. -/
theorem setElementaryStreamDecoder_format_witness :
    openedDemuxer.mConfigured = true ∧ (0 : Int) ≤ 0 ∧
    (0 : Int) < openedDemuxer.mVideoTrackCount ∧
    ((setElementaryStreamDecoder sampleDefs openedDemuxer 0 (some ⟨4⟩)).1 = -ENOSYS ↔
      ((⟨4⟩ : AvcDecoder).formatCaps &&& sampleDefs.AVCDECODER_BITSTREAM_FORMAT_BYTE_STREAM = 0 ∧
        (⟨4⟩ : AvcDecoder).formatCaps &&& sampleDefs.AVCDECODER_BITSTREAM_FORMAT_AVCC = 0)) ∧
    ((⟨4⟩ : AvcDecoder).formatCaps &&& sampleDefs.AVCDECODER_BITSTREAM_FORMAT_BYTE_STREAM ≠ 0 →
      (setElementaryStreamDecoder sampleDefs openedDemuxer 0 (some ⟨4⟩)).1 = 0 ∧
      (setElementaryStreamDecoder sampleDefs openedDemuxer 0 (some ⟨4⟩)).2.mDecoderBitstreamFormat =
        sampleDefs.AVCDECODER_BITSTREAM_FORMAT_BYTE_STREAM) ∧
    ((⟨4⟩ : AvcDecoder).formatCaps &&& sampleDefs.AVCDECODER_BITSTREAM_FORMAT_BYTE_STREAM = 0 →
      (⟨4⟩ : AvcDecoder).formatCaps &&& sampleDefs.AVCDECODER_BITSTREAM_FORMAT_AVCC ≠ 0 →
      (setElementaryStreamDecoder sampleDefs openedDemuxer 0 (some ⟨4⟩)).1 = 0 ∧
      (setElementaryStreamDecoder sampleDefs openedDemuxer 0 (some ⟨4⟩)).2.mDecoderBitstreamFormat =
        sampleDefs.AVCDECODER_BITSTREAM_FORMAT_AVCC) :=
  ⟨rfl, by decide, by decide,
    setElementaryStreamDecoder_format sampleDefs openedDemuxer 0 ⟨4⟩ rfl (by decide) (by decide)⟩


/-! ## Attaching a decoder again -/

/-- A successful or failed `setElementaryStreamDecoder` changes at most the
attached decoder and the chosen format. -/
theorem setElementaryStreamDecoder_keeps (k : Defs) (st : RecordDemuxer) (esIndex : Int)
    (decoder : Option AvcDecoder) :
    (setElementaryStreamDecoder k st esIndex decoder).2.mConfigured = st.mConfigured ∧
    (setElementaryStreamDecoder k st esIndex decoder).2.mVideoTrackCount =
      st.mVideoTrackCount := by
  unfold setElementaryStreamDecoder
  cases decoder with
  | none => exact ⟨rfl, rfl⟩
  | some dec =>
    simp only
    split
    · exact ⟨rfl, rfl⟩
    · split
      · exact ⟨rfl, rfl⟩
      · split
        · exact ⟨rfl, rfl⟩
        · split <;> exact ⟨rfl, rfl⟩

/-- On a configured demuxer, a valid stream index and a decoder with a
recognised format flag: the call returns 0, attaches the decoder and chooses
the format from its capabilities, whatever was attached before. -/
theorem setElementaryStreamDecoder_attaches (k : Defs) (st : RecordDemuxer) (esIndex : Int)
    (dec : AvcDecoder) (h : st.mConfigured = true) (h0 : 0 ≤ esIndex)
    (h1 : esIndex < st.mVideoTrackCount)
    (hcaps : dec.formatCaps &&& k.AVCDECODER_BITSTREAM_FORMAT_BYTE_STREAM ≠ 0 ∨
      dec.formatCaps &&& k.AVCDECODER_BITSTREAM_FORMAT_AVCC ≠ 0) :
    (setElementaryStreamDecoder k st esIndex (some dec)).1 = 0 ∧
    (setElementaryStreamDecoder k st esIndex (some dec)).2.mDecoder = some dec ∧
    (setElementaryStreamDecoder k st esIndex (some dec)).2.mDecoderBitstreamFormat =
      (if dec.formatCaps &&& k.AVCDECODER_BITSTREAM_FORMAT_BYTE_STREAM ≠ 0 then
        k.AVCDECODER_BITSTREAM_FORMAT_BYTE_STREAM
      else k.AVCDECODER_BITSTREAM_FORMAT_AVCC) := by
  have hidx : (decide (esIndex < 0) || decide (esIndex ≥ st.mVideoTrackCount)) = false := by
    simp only [Bool.or_eq_false_iff, decide_eq_false_iff_not]
    omega
  unfold setElementaryStreamDecoder
  simp only [h, hidx, Bool.not_true, Bool.false_eq_true, if_false]
  by_cases hb : dec.formatCaps &&& k.AVCDECODER_BITSTREAM_FORMAT_BYTE_STREAM = 0
  · have ha : dec.formatCaps &&& k.AVCDECODER_BITSTREAM_FORMAT_AVCC ≠ 0 := by
      rcases hcaps with hc | hc
      · exact absurd hb hc
      · exact hc
    simp [hb, ha]
  · simp [hb]

/-- C11 as stated fails: on the opened sample demuxer a byte-stream decoder
is attached with success, and a second call with an AVCC decoder succeeds too,
replacing the attached decoder and the chosen format; a third call with a
decoder that supports neither format fails with `-ENOSYS` and still replaces
the attached decoder. -/
theorem setElementaryStreamDecoder_not_once :
    (setElementaryStreamDecoder sampleDefs openedDemuxer 0 (some ⟨2⟩)).1 = 0 ∧
    decodingDemuxer.mDecoder = some ⟨2⟩ ∧
    decodingDemuxer.mDecoderBitstreamFormat =
      sampleDefs.AVCDECODER_BITSTREAM_FORMAT_BYTE_STREAM ∧
    (setElementaryStreamDecoder sampleDefs decodingDemuxer 0 (some ⟨4⟩)).1 = 0 ∧
    (setElementaryStreamDecoder sampleDefs decodingDemuxer 0 (some ⟨4⟩)).2.mDecoder =
      some ⟨4⟩ ∧
    (setElementaryStreamDecoder sampleDefs decodingDemuxer 0
        (some ⟨4⟩)).2.mDecoderBitstreamFormat =
      sampleDefs.AVCDECODER_BITSTREAM_FORMAT_AVCC ∧
    sampleDefs.AVCDECODER_BITSTREAM_FORMAT_AVCC ≠
      sampleDefs.AVCDECODER_BITSTREAM_FORMAT_BYTE_STREAM ∧
    (setElementaryStreamDecoder sampleDefs decodingDemuxer 0 (some ⟨1⟩)).1 = -ENOSYS ∧
    (setElementaryStreamDecoder sampleDefs decodingDemuxer 0 (some ⟨1⟩)).2.mDecoder =
      some ⟨1⟩ :=
  ⟨rfl, rfl, rfl, rfl, rfl, rfl, by decide, rfl, rfl⟩

/-- C11, amended: the attached decoder can be set any number of times.  On a
configured demuxer and for a valid stream index, after a call that attached a
decoder with a recognised format flag, a later call with another such decoder
returns 0 as well, attaches the new decoder in place of the first and chooses
the format again from the capabilities of the new decoder. -/
theorem setElementaryStreamDecoder_replaces (k : Defs) (st : RecordDemuxer) (esIndex : Int)
    (dec1 dec2 : AvcDecoder) (h : st.mConfigured = true) (h0 : 0 ≤ esIndex)
    (h1 : esIndex < st.mVideoTrackCount)
    (hcaps1 : dec1.formatCaps &&& k.AVCDECODER_BITSTREAM_FORMAT_BYTE_STREAM ≠ 0 ∨
      dec1.formatCaps &&& k.AVCDECODER_BITSTREAM_FORMAT_AVCC ≠ 0)
    (hcaps2 : dec2.formatCaps &&& k.AVCDECODER_BITSTREAM_FORMAT_BYTE_STREAM ≠ 0 ∨
      dec2.formatCaps &&& k.AVCDECODER_BITSTREAM_FORMAT_AVCC ≠ 0) :
    (setElementaryStreamDecoder k st esIndex (some dec1)).1 = 0 ∧
    (setElementaryStreamDecoder k st esIndex (some dec1)).2.mDecoder = some dec1 ∧
    (setElementaryStreamDecoder k (setElementaryStreamDecoder k st esIndex (some dec1)).2
      esIndex (some dec2)).1 = 0 ∧
    (setElementaryStreamDecoder k (setElementaryStreamDecoder k st esIndex (some dec1)).2
      esIndex (some dec2)).2.mDecoder = some dec2 ∧
    (setElementaryStreamDecoder k (setElementaryStreamDecoder k st esIndex (some dec1)).2
      esIndex (some dec2)).2.mDecoderBitstreamFormat =
      (if dec2.formatCaps &&& k.AVCDECODER_BITSTREAM_FORMAT_BYTE_STREAM ≠ 0 then
        k.AVCDECODER_BITSTREAM_FORMAT_BYTE_STREAM
      else k.AVCDECODER_BITSTREAM_FORMAT_AVCC) := by
  have a1 := setElementaryStreamDecoder_attaches k st esIndex dec1 h h0 h1 hcaps1
  have kp := setElementaryStreamDecoder_keeps k st esIndex (some dec1)
  have a2 := setElementaryStreamDecoder_attaches k
    (setElementaryStreamDecoder k st esIndex (some dec1)).2 esIndex dec2
    (by rw [kp.1]; exact h) h0 (by rw [kp.2]; exact h1) hcaps2
  exact ⟨a1.1, a1.2.1, a2.1, a2.2.1, a2.2.2⟩

/-- C11, instance of the amended statement: a byte-stream decoder, then an
AVCC decoder, attached to stream 0 of the opened sample demuxer. -/
theorem setElementaryStreamDecoder_replaces_witness :
    openedDemuxer.mConfigured = true ∧ (0 : Int) ≤ 0 ∧
    (0 : Int) < openedDemuxer.mVideoTrackCount ∧
    ((⟨2⟩ : AvcDecoder).formatCaps &&& sampleDefs.AVCDECODER_BITSTREAM_FORMAT_BYTE_STREAM ≠ 0 ∨
      (⟨2⟩ : AvcDecoder).formatCaps &&& sampleDefs.AVCDECODER_BITSTREAM_FORMAT_AVCC ≠ 0) ∧
    ((⟨4⟩ : AvcDecoder).formatCaps &&& sampleDefs.AVCDECODER_BITSTREAM_FORMAT_BYTE_STREAM ≠ 0 ∨
      (⟨4⟩ : AvcDecoder).formatCaps &&& sampleDefs.AVCDECODER_BITSTREAM_FORMAT_AVCC ≠ 0) ∧
    (setElementaryStreamDecoder sampleDefs openedDemuxer 0 (some ⟨2⟩)).1 = 0 ∧
    (setElementaryStreamDecoder sampleDefs openedDemuxer 0 (some ⟨2⟩)).2.mDecoder =
      some ⟨2⟩ ∧
    (setElementaryStreamDecoder sampleDefs
      (setElementaryStreamDecoder sampleDefs openedDemuxer 0 (some ⟨2⟩)).2 0 (some ⟨4⟩)).1 = 0 ∧
    (setElementaryStreamDecoder sampleDefs
      (setElementaryStreamDecoder sampleDefs openedDemuxer 0 (some ⟨2⟩)).2 0
        (some ⟨4⟩)).2.mDecoder = some ⟨4⟩ ∧
    (setElementaryStreamDecoder sampleDefs
      (setElementaryStreamDecoder sampleDefs openedDemuxer 0 (some ⟨2⟩)).2 0
        (some ⟨4⟩)).2.mDecoderBitstreamFormat =
      (if (⟨4⟩ : AvcDecoder).formatCaps &&&
          sampleDefs.AVCDECODER_BITSTREAM_FORMAT_BYTE_STREAM ≠ 0 then
        sampleDefs.AVCDECODER_BITSTREAM_FORMAT_BYTE_STREAM
      else sampleDefs.AVCDECODER_BITSTREAM_FORMAT_AVCC) :=
  ⟨rfl, by decide, by decide, by decide, by decide,
    setElementaryStreamDecoder_replaces sampleDefs openedDemuxer 0 ⟨2⟩ ⟨4⟩ rfl (by decide)
      (by decide) (by decide) (by decide)⟩

end RecordDemuxer

/-! ## Bytes in memory -/

/-- A byte read from memory is below 256. -/
theorem readByte_lt (mem : List Nat) (i : Nat) : readByte mem i < 256 := by
  unfold readByte
  omega

/-- A 32-bit big-endian word read from memory is below `2^32`. -/
theorem ntohlAt_lt (mem : List Nat) (i : Nat) : ntohlAt mem i < 2 ^ 32 := by
  unfold ntohlAt
  have h0 := readByte_lt mem i
  have h1 := readByte_lt mem (i + 1)
  have h2 := readByte_lt mem (i + 2)
  have h3 := readByte_lt mem (i + 3)
  omega

/-- Reading behind a prefix of the memory reads the rest. -/
theorem readByte_append (pre rest : List Nat) (j : Nat) :
    readByte (pre ++ rest) (pre.length + j) = readByte rest j := by
  unfold readByte
  simp [List.getD_eq_getElem?_getD, List.getElem?_append_right]

/-- Reading just behind a prefix of the memory reads the first byte of the rest. -/
theorem readByte_append_zero (pre rest : List Nat) :
    readByte (pre ++ rest) pre.length = readByte rest 0 := by
  have h := readByte_append pre rest 0
  rwa [Nat.add_zero] at h

/-- The big-endian representation of a 32-bit word has 4 bytes. -/
theorem htonlBytes_length (n : Nat) : (htonlBytes n).length = 4 := rfl

/-- The big-endian word read at the start of the memory, in terms of its 4 bytes. -/
theorem ntohlAt_four (a b c d : Nat) (rest : List Nat) :
    ntohlAt (a :: b :: c :: d :: rest) 0 =
      ((a % 256 * 256 + b % 256) * 256 + c % 256) * 256 + d % 256 := rfl

/-- Reading a word behind a prefix of the memory reads it from the rest. -/
theorem ntohlAt_append (pre rest : List Nat) :
    ntohlAt (pre ++ rest) pre.length = ntohlAt rest 0 := by
  unfold ntohlAt
  rw [readByte_append_zero, readByte_append, readByte_append, readByte_append]

/-- `ntohl` undoes `htonl` on a 32-bit word stored in memory. -/
theorem ntohlAt_htonlBytes (pre rest : List Nat) (n : Nat) (h : n < 2 ^ 32) :
    ntohlAt (pre ++ (htonlBytes n ++ rest)) pre.length = n := by
  rw [ntohlAt_append]
  show ntohlAt (n / 2 ^ 24 % 256 :: n / 2 ^ 16 % 256 :: n / 2 ^ 8 % 256 :: n % 256 :: rest) 0 = n
  rw [ntohlAt_four]
  omega

/-- Copying over a block of the same length replaces that block and nothing else. -/
theorem memcpyAt_append (pre old new rest : List Nat) (h : old.length = new.length) :
    memcpyAt (pre ++ (old ++ rest)) pre.length new = pre ++ (new ++ rest) := by
  unfold memcpyAt
  have h1 : (pre ++ (old ++ rest)).take pre.length = pre := List.take_left' rfl
  have h2 : new.take ((pre ++ (old ++ rest)).length - pre.length) = new := by
    apply List.take_of_length_le
    simp only [List.length_append]
    omega
  have h3 : (pre ++ (old ++ rest)).drop (pre.length + new.length) = rest := by
    rw [List.drop_append, ← h]
    exact List.drop_left' rfl
  rw [h1, h2, h3]

/-! ## The NAL unit loop -/

/-- An access unit has at least 4 bytes per NAL unit. -/
theorem avccAccessUnit_length_ge (nals : List (List Nat)) :
    4 * nals.length ≤ (avccAccessUnit nals).length := by
  induction nals with
  | nil => simp [avccAccessUnit]
  | cons p rest ih =>
    simp only [avccAccessUnit, List.length_append, List.length_cons, htonlBytes_length]
    omega

namespace RecordDemuxer

/-- The NAL unit loop started at the first byte of a well-formed access unit
that lies behind `pre` in the buffer: the result after enough iterations. -/
theorem nalLoop_wellFormed (byteStream : Bool) (nals : List (List Nat)) :
    ∀ (pre tail : List Nat) (fuel : Nat) (sei : Option Nat) (seiSize : Nat),
      WellFormedNals nals → nals.length ≤ fuel →
      pre.length + (avccAccessUnit nals).length < 2 ^ 64 →
      nalLoop byteStream (pre.length + (avccAccessUnit nals).length) fuel
          ⟨pre ++ (avccAccessUnit nals ++ tail), sei, seiSize, pre.length⟩ =
        ⟨pre ++ ((if byteStream then byteStreamAccessUnit nals else avccAccessUnit nals) ++ tail),
          (lastSei nals pre.length (sei, seiSize)).1,
          (lastSei nals pre.length (sei, seiSize)).2,
          pre.length + (avccAccessUnit nals).length⟩ := by
  induction nals with
  | nil =>
    intro pre tail fuel sei seiSize _ _ _
    cases fuel with
    | zero => cases byteStream <;> simp [nalLoop, avccAccessUnit, byteStreamAccessUnit, lastSei]
    | succ f => cases byteStream <;> simp [nalLoop, avccAccessUnit, byteStreamAccessUnit, lastSei]
  | cons p rest ih =>
    intro pre tail fuel sei seiSize hwf hfuel hlen
    obtain ⟨hp1, hp2, hp3⟩ := hwf p (List.mem_cons_self p rest)
    have hwf' : WellFormedNals rest := fun q hq => hwf q (List.mem_cons_of_mem p hq)
    cases fuel with
    | zero => simp at hfuel
    | succ f =>
      obtain ⟨x, xs, hpx⟩ := List.exists_cons_of_ne_nil hp1
      have hx : x < 256 := hp3 x (by rw [hpx]; exact List.mem_cons_self x xs)
      have hsz : (avccAccessUnit (p :: rest)).length =
          4 + (p.length + (avccAccessUnit rest).length) := by
        simp only [avccAccessUnit, List.length_append, htonlBytes_length]
      have hmem : pre ++ (avccAccessUnit (p :: rest) ++ tail) =
          pre ++ (htonlBytes p.length ++ (p ++ (avccAccessUnit rest ++ tail))) := by
        simp only [avccAccessUnit, List.append_assoc]
      rw [hsz] at hlen
      rw [hmem, hsz]
      unfold nalLoop
      have hcond : pre.length < pre.length + (4 + (p.length + (avccAccessUnit rest).length)) := by
        omega
      simp only [hcond, if_true]
      have hnalu : ntohlAt (pre ++ (htonlBytes p.length ++ (p ++ (avccAccessUnit rest ++ tail))))
          pre.length = p.length := ntohlAt_htonlBytes pre _ p.length hp2
      rw [hnalu]
      -- the header left in front of the payload
      generalize hhdr : (if byteStream then htonlBytes 1 else htonlBytes p.length) = hdr
      have hhdrlen : hdr.length = 4 := by
        rw [← hhdr]
        cases byteStream <;> rfl
      have hmem' : (if byteStream = true then
            memcpyAt (pre ++ (htonlBytes p.length ++ (p ++ (avccAccessUnit rest ++ tail))))
              pre.length (htonlBytes 1)
          else pre ++ (htonlBytes p.length ++ (p ++ (avccAccessUnit rest ++ tail)))) =
          (pre ++ (hdr ++ p)) ++ (avccAccessUnit rest ++ tail) := by
        rw [← hhdr]
        cases byteStream
        · simp only [Bool.false_eq_true, if_false, List.append_assoc]
        · simp only [if_true, List.append_assoc]
          exact memcpyAt_append pre (htonlBytes p.length) (htonlBytes 1) _ rfl
      rw [hmem']
      have hbyte : readByte ((pre ++ (hdr ++ p)) ++ (avccAccessUnit rest ++ tail))
          (pre.length + 4) = x := by
        rw [List.append_assoc, readByte_append, List.append_assoc, ← hhdrlen]
        rw [readByte_append_zero, hpx]
        show x % 256 = x
        omega
      rw [hbyte]
      have hoff : (pre.length + (4 + p.length)) % 2 ^ 64 = (pre ++ (hdr ++ p)).length := by
        rw [Nat.mod_eq_of_lt (by omega)]
        simp only [List.length_append, hhdrlen]
      rw [hoff]
      have hS : pre.length + (4 + (p.length + (avccAccessUnit rest).length)) =
          (pre ++ (hdr ++ p)).length + (avccAccessUnit rest).length := by
        simp only [List.length_append, hhdrlen]
        omega
      rw [hS]
      have hlen' : (pre ++ (hdr ++ p)).length + (avccAccessUnit rest).length < 2 ^ 64 := by
        rw [← hS]
        exact hlen
      rw [ih (pre ++ (hdr ++ p)) tail f _ _ hwf' (by simpa using hfuel) hlen']
      have hhead : p.headD 0 = x := by rw [hpx]; rfl
      have hpos : (pre ++ (hdr ++ p)).length = pre.length + 4 + p.length := by
        simp only [List.length_append, hhdrlen]
        omega
      have hconv : (pre ++ (hdr ++ p)) ++
            ((if byteStream = true then byteStreamAccessUnit rest else avccAccessUnit rest) ++
              tail) =
          pre ++ ((if byteStream = true then byteStreamAccessUnit (p :: rest)
            else avccAccessUnit (p :: rest)) ++ tail) := by
        rw [← hhdr]
        cases byteStream
        · simp only [Bool.false_eq_true, if_false, avccAccessUnit, List.append_assoc]
        · simp only [if_true, byteStreamAccessUnit, List.append_assoc]
          rfl
      rw [hconv]
      simp only [lastSei, hhead, hpos]
      cases hx6 : (x == 6) <;> simp


/-- The NAL unit loop on a well-formed access unit at the start of the
buffer: the memory after it, the remembered SEI and the final offset. -/
theorem nalScan_wellFormed_eq (byteStream : Bool) (nals : List (List Nat)) (tail : List Nat)
    (hwf : WellFormedNals nals) (hsize : (avccAccessUnit nals).length < 2 ^ 32) :
    nalScan byteStream (avccAccessUnit nals ++ tail) (avccAccessUnit nals).length =
      ⟨(if byteStream then byteStreamAccessUnit nals else avccAccessUnit nals) ++ tail,
        (lastSei nals 0 (none, 0)).1, (lastSei nals 0 (none, 0)).2,
        (avccAccessUnit nals).length⟩ := by
  have h := nalLoop_wellFormed byteStream nals [] tail ((avccAccessUnit nals).length / 4 + 1)
    none 0 hwf (by have := avccAccessUnit_length_ge nals; omega)
    (by simp only [List.length_nil]; omega)
  simp only [List.length_nil, Nat.zero_add, List.nil_append] at h
  unfold nalScan
  exact h

end RecordDemuxer

/-- The byte-stream form of an access unit has the length of its AVCC form. -/
theorem byteStreamAccessUnit_length (nals : List (List Nat)) :
    (byteStreamAccessUnit nals).length = (avccAccessUnit nals).length := by
  induction nals with
  | nil => rfl
  | cons p rest ih =>
    simp only [byteStreamAccessUnit, avccAccessUnit, List.length_append, htonlBytes_length, ih]
    rfl

/-- Without a NAL unit starting with `0x06`, the remembered SEI is unchanged. -/
theorem lastSei_of_none (nals : List (List Nat)) :
    ∀ (pos : Nat) (acc : Option Nat × Nat), (∀ p ∈ nals, p.headD 0 ≠ 6) →
      lastSei nals pos acc = acc := by
  induction nals with
  | nil => intro pos acc _; rfl
  | cons p rest ih =>
    intro pos acc h
    have hp : (p.headD 0 == 6) = false := by
      simpa using h p (List.mem_cons_self p rest)
    simp only [lastSei, hp, Bool.false_eq_true, if_false]
    exact ih _ _ (fun q hq => h q (List.mem_cons_of_mem p hq))

/-- The remembered SEI of a concatenation of NAL unit lists. -/
theorem lastSei_append (front back : List (List Nat)) :
    ∀ (pos : Nat) (acc : Option Nat × Nat),
      lastSei (front ++ back) pos acc =
        lastSei back (pos + (avccAccessUnit front).length) (lastSei front pos acc) := by
  induction front with
  | nil => intro pos acc; rfl
  | cons p rest ih =>
    intro pos acc
    simp only [List.cons_append, lastSei, avccAccessUnit, List.length_append,
      htonlBytes_length, List.append_eq]
    rw [ih]
    have e : pos + 4 + p.length + (avccAccessUnit rest).length =
        pos + (4 + (p.length + (avccAccessUnit rest).length)) := by omega
    rw [e]

/-- The remembered SEI is the last NAL unit starting with `0x06`. -/
theorem lastSei_of_last (front back : List (List Nat)) (p : List Nat) (pos : Nat)
    (acc : Option Nat × Nat) (hp : p.headD 0 = 6) (hback : ∀ q ∈ back, q.headD 0 ≠ 6) :
    lastSei (front ++ p :: back) pos acc =
      (some (pos + (avccAccessUnit front).length + 4), p.length) := by
  rw [lastSei_append]
  simp only [lastSei, hp, beq_self_eq_true, if_true]
  exact lastSei_of_none back _ _ hback

/-- An SEI that is remembered stays remembered. -/
theorem lastSei_isSome (nals : List (List Nat)) :
    ∀ (pos : Nat) (acc : Option Nat × Nat), acc.1 ≠ none → (lastSei nals pos acc).1 ≠ none := by
  induction nals with
  | nil => intro pos acc h; exact h
  | cons p rest ih =>
    intro pos acc h
    simp only [lastSei]
    apply ih
    split
    · simp
    · exact h

/-- No SEI is remembered only if no NAL unit starts with `0x06`. -/
theorem lastSei_eq_none (nals : List (List Nat)) :
    ∀ (pos : Nat), (lastSei nals pos (none, 0)).1 = none → ∀ p ∈ nals, p.headD 0 ≠ 6 := by
  induction nals with
  | nil => intro pos _ p hp; simp at hp
  | cons q rest ih =>
    intro pos h p hp
    simp only [lastSei] at h
    by_cases hq : (q.headD 0 == 6) = true
    · rw [if_pos hq] at h
      exact absurd h (lastSei_isSome rest _ _ (by simp))
    · rw [if_neg hq] at h
      rcases List.mem_cons.mp hp with rfl | hmem
      · simpa using hq
      · exact ih _ h p hmem

namespace RecordDemuxer

/-- C12: for every well-formed access unit at the start of the buffer (NAL
units of at least one byte, each behind its 4-byte big-endian length, the
sample size being the total length), the NAL unit loop run for the
byte-stream format leaves the same buffer with every length prefix replaced
by `00 00 00 01`, the payloads, the total length and the bytes behind the
sample unchanged; run for the AVCC format it leaves the buffer unchanged. -/
theorem nalScan_converts (nals : List (List Nat)) (tail : List Nat)
    (hwf : WellFormedNals nals) (hsize : (avccAccessUnit nals).length < 2 ^ 32) :
    (nalScan true (avccAccessUnit nals ++ tail) (avccAccessUnit nals).length).mem =
      byteStreamAccessUnit nals ++ tail ∧
    (byteStreamAccessUnit nals).length = (avccAccessUnit nals).length ∧
    (nalScan false (avccAccessUnit nals ++ tail) (avccAccessUnit nals).length).mem =
      avccAccessUnit nals ++ tail := by
  refine ⟨?_, byteStreamAccessUnit_length nals, ?_⟩
  · rw [nalScan_wellFormed_eq true nals tail hwf hsize]
    rfl
  · rw [nalScan_wellFormed_eq false nals tail hwf hsize]
    rfl

/-- The two NAL units of the sample access unit are well formed. -/
theorem sampleNals_wellFormed : WellFormedNals [[0x06, 0x05, 0x80], [0x65, 0x88]] := by
  intro p hp
  simp only [List.mem_cons, List.mem_singleton, List.not_mem_nil, or_false] at hp
  rcases hp with rfl | rfl <;> decide

/-- C12, instance: the sample access unit (an SEI of 3 bytes and a slice of 2
bytes) followed by three stale bytes of the buffer. -/
theorem nalScan_converts_witness :
    WellFormedNals [[0x06, 0x05, 0x80], [0x65, 0x88]] ∧
    (avccAccessUnit [[0x06, 0x05, 0x80], [0x65, 0x88]]).length < 2 ^ 32 ∧
    (nalScan true (avccAccessUnit [[0x06, 0x05, 0x80], [0x65, 0x88]] ++ [0xAA, 0xAA, 0xAA])
        (avccAccessUnit [[0x06, 0x05, 0x80], [0x65, 0x88]]).length).mem =
      byteStreamAccessUnit [[0x06, 0x05, 0x80], [0x65, 0x88]] ++ [0xAA, 0xAA, 0xAA] ∧
    (byteStreamAccessUnit [[0x06, 0x05, 0x80], [0x65, 0x88]]).length =
      (avccAccessUnit [[0x06, 0x05, 0x80], [0x65, 0x88]]).length ∧
    (nalScan false (avccAccessUnit [[0x06, 0x05, 0x80], [0x65, 0x88]] ++ [0xAA, 0xAA, 0xAA])
        (avccAccessUnit [[0x06, 0x05, 0x80], [0x65, 0x88]]).length).mem =
      avccAccessUnit [[0x06, 0x05, 0x80], [0x65, 0x88]] ++ [0xAA, 0xAA, 0xAA] :=
  ⟨sampleNals_wellFormed, by decide,
    nalScan_converts [[0x06, 0x05, 0x80], [0x65, 0x88]] [0xAA, 0xAA, 0xAA]
      sampleNals_wellFormed (by decide)⟩

/-- Every iteration of the NAL unit loop on a sample of fewer than `2^32`
bytes adds at least 4 to the offset, so with enough iterations left the loop
ends by its test, with the offset at or past the sample size. -/
theorem nalLoop_completes (byteStream : Bool) (sampleSize : Nat) (hsize : sampleSize < 2 ^ 32) :
    ∀ (fuel : Nat) (s : NalScan), sampleSize ≤ s.offset + 4 * fuel →
      sampleSize ≤ (nalLoop byteStream sampleSize fuel s).offset := by
  intro fuel
  induction fuel with
  | zero =>
    intro s h
    simpa [nalLoop] using h
  | succ f ih =>
    intro s h
    unfold nalLoop
    by_cases hc : s.offset < sampleSize
    · simp only [hc, if_true]
      apply ih
      have hn := ntohlAt_lt s.mem s.offset
      have hmod : (s.offset + (4 + ntohlAt s.mem s.offset)) % 2 ^ 64 =
          s.offset + (4 + ntohlAt s.mem s.offset) := Nat.mod_eq_of_lt (by omega)
      simp only [hmod]
      omega
    · simp only [hc, if_false]
      omega

set_option maxRecDepth 20000 in
/-- C13: a sample of 7 bytes, a NAL unit of one byte followed by only two
bytes, in a buffer of 16 bytes, for a byte-stream decoder.  The loop has no
bounds test: its second iteration, at offset 5, reads a length from the bytes
5 to 8 and writes a start code over them, two of them behind the 7 bytes of
the sample, and the tick goes on to queue the buffer with return code 0: no
error is raised.  Every access of this run lies inside the buffer. -/
theorem nalScan_malformed_not_rejected :
    (nalScan true ([0, 0, 0, 1, 0x65, 0, 0] ++ List.replicate 9 0xAA) 7).mem =
      [0, 0, 0, 1, 0x65, 0, 0] ++ ([0, 1] ++ List.replicate 7 0xAA) ∧
    (tick sampleDefs sampleLibs
        { sampleInputs with
            sample := ⟨7, 0, false, 33333, 66666, 0⟩
            sampleData := [0, 0, 0, 1, 0x65, 0, 0] }
        (play decodingDemuxer F32.one).2).2 =
      [Event.decoderOpen 2 [0, 0, 0, 1, 0x67, 0x42] [0, 0, 0, 1, 0x68, 0xCE], Event.poolGet,
        Event.nextSample,
        Event.queueBuffer
          { data := [0, 0, 0, 1, 0x65, 0, 0] ++ ([0, 1] ++ List.replicate 7 0xAA)
            capacity := 16
            size := 7
            userdata := []
            userdataCapacity := 0
            userdataSize := 0
            inputBuffer := some ⟨true, false, true, false, 33333, 33333, 1000010, false, 1000010⟩ }
          0] := by
  constructor <;> rfl

/-- C14 as stated fails: a NAL unit whose first byte is `0x26` has
`nal_unit_type` 6 (low 5 bits), yet the loop does not remember it. -/
theorem nalScan_sei_needs_whole_byte :
    WellFormedNals [[0x26, 0x05]] ∧ 0x26 % 32 = 6 ∧
    (nalScan true (avccAccessUnit [[0x26, 0x05]])
      (avccAccessUnit [[0x26, 0x05]]).length).sei = none ∧
    (nalScan false (avccAccessUnit [[0x26, 0x05]])
      (avccAccessUnit [[0x26, 0x05]]).length).sei = none := by
  refine ⟨?_, rfl, rfl, rfl⟩
  intro p hp
  simp only [List.mem_singleton] at hp
  subst hp
  decide

/-- C14, amended: for every well-formed access unit, after the loop the
remembered SEI is the last NAL unit whose first payload byte is `0x06`
(`nal_unit_type` 6 with the three upper bits clear): `sei` is the index of
its payload in the buffer and `seiSize` its declared length; and no SEI is
remembered exactly when no NAL unit has `0x06` as its first payload byte. -/
theorem nalScan_sei (byteStream : Bool) (nals : List (List Nat)) (tail : List Nat)
    (hwf : WellFormedNals nals) (hsize : (avccAccessUnit nals).length < 2 ^ 32) :
    ((nalScan byteStream (avccAccessUnit nals ++ tail) (avccAccessUnit nals).length).sei = none ↔
      ∀ p ∈ nals, p.headD 0 ≠ 6) ∧
    (∀ (front back : List (List Nat)) (p : List Nat), nals = front ++ p :: back →
      p.headD 0 = 6 → (∀ q ∈ back, q.headD 0 ≠ 6) →
      (nalScan byteStream (avccAccessUnit nals ++ tail) (avccAccessUnit nals).length).sei =
        some ((avccAccessUnit front).length + 4) ∧
      (nalScan byteStream (avccAccessUnit nals ++ tail) (avccAccessUnit nals).length).seiSize =
        p.length) := by
  rw [nalScan_wellFormed_eq byteStream nals tail hwf hsize]
  refine ⟨⟨lastSei_eq_none nals 0, fun h => ?_⟩, ?_⟩
  · show (lastSei nals 0 (none, 0)).1 = none
    rw [lastSei_of_none nals 0 (none, 0) h]
  · intro front back p hnals hp hback
    show (lastSei nals 0 (none, 0)).1 = some ((avccAccessUnit front).length + 4) ∧
      (lastSei nals 0 (none, 0)).2 = p.length
    rw [hnals, lastSei_of_last front back p 0 (none, 0) hp hback]
    simp

/-- C14, instance of the amended statement: in the sample access unit the
SEI is the first NAL unit, its payload is at index 4 and has 3 bytes. -/
theorem nalScan_sei_witness :
    WellFormedNals [[0x06, 0x05, 0x80], [0x65, 0x88]] ∧
    (avccAccessUnit [[0x06, 0x05, 0x80], [0x65, 0x88]]).length < 2 ^ 32 ∧
    ((nalScan true (avccAccessUnit [[0x06, 0x05, 0x80], [0x65, 0x88]] ++ [0xAA])
        (avccAccessUnit [[0x06, 0x05, 0x80], [0x65, 0x88]]).length).sei = none ↔
      ∀ p ∈ [[0x06, 0x05, 0x80], [0x65, 0x88]], p.headD 0 ≠ 6) ∧
    (∀ (front back : List (List Nat)) (p : List Nat),
      [[0x06, 0x05, 0x80], [0x65, 0x88]] = front ++ p :: back →
      p.headD 0 = 6 → (∀ q ∈ back, q.headD 0 ≠ 6) →
      (nalScan true (avccAccessUnit [[0x06, 0x05, 0x80], [0x65, 0x88]] ++ [0xAA])
          (avccAccessUnit [[0x06, 0x05, 0x80], [0x65, 0x88]]).length).sei =
        some ((avccAccessUnit front).length + 4) ∧
      (nalScan true (avccAccessUnit [[0x06, 0x05, 0x80], [0x65, 0x88]] ++ [0xAA])
          (avccAccessUnit [[0x06, 0x05, 0x80], [0x65, 0x88]]).length).seiSize =
        p.length) :=
  ⟨sampleNals_wellFormed, by decide,
    nalScan_sei true [[0x06, 0x05, 0x80], [0x65, 0x88]] [0xAA] sampleNals_wellFormed
      (by decide)⟩

end RecordDemuxer

/-! ## Decoder configuration and user data -/
theorem memcpyAt_zero_take (mem src : List Nat) (h : src.length ≤ mem.length) :
    (memcpyAt mem 0 src).take src.length = src := by
  unfold memcpyAt
  have h1 : src.take (mem.length - 0) = src := List.take_of_length_le (by omega)
  rw [List.take_zero, List.nil_append, h1]
  exact List.take_left' rfl

namespace RecordDemuxer

/-- C16: for a user-data SEI delivered to the callback while a buffer is held:
when its UUID is one of the two "Parrot Streaming" UUIDs, nothing changes, so
the user-data region and size of the buffer are as before; otherwise, when
the payload is not empty and `vbuf_set_userdata_capacity` has made room for it
(it returns at least its length and the region has that many bytes), the
user-data region then holds exactly the delivered bytes and the user-data size
is their length. -/
theorem h264UserDataSeiCb_userdata (lib : Libs) (st : RecordDemuxer) (b : VBuf)
    (sei : SeiUserData) (hb : st.mCurrentBuffer = some b) :
    ((lib.vstrm_h264_sei_streaming_is_v1 sei.uuid = true ∨
        lib.vstrm_h264_sei_streaming_is_v2 sei.uuid = true) →
      h264UserDataSeiCb lib st sei = st) ∧
    (∀ payload : List Nat, sei.buf = some payload → payload ≠ [] →
      lib.vstrm_h264_sei_streaming_is_v1 sei.uuid = false →
      lib.vstrm_h264_sei_streaming_is_v2 sei.uuid = false →
      ¬ (lib.vbuf_set_userdata_capacity b payload.length).1 < signedOfSize payload.length →
      payload.length ≤ (lib.vbuf_set_userdata_capacity b payload.length).2.userdata.length →
      ∃ b' : VBuf, (h264UserDataSeiCb lib st sei).mCurrentBuffer = some b' ∧
        b'.userdataSize = payload.length ∧ b'.userdata.take b'.userdataSize = payload) := by
  constructor
  · intro huuid
    have hor : (lib.vstrm_h264_sei_streaming_is_v1 sei.uuid ||
        lib.vstrm_h264_sei_streaming_is_v2 sei.uuid) = true := by
      simpa using huuid
    unfold h264UserDataSeiCb
    cases hbuf : sei.buf with
    | none => rfl
    | some payload =>
      simp only [hb, hor, if_true]
      split <;> rfl
  · intro payload hbuf hne h1 h2 hcap hlen
    have hl0 : (payload.length == 0) = false := by
      simpa using hne
    unfold h264UserDataSeiCb
    simp only [hbuf, hl0, hb, h1, h2, hcap, Bool.or_self, Bool.false_eq_true, if_false]
    exact ⟨_, rfl, rfl, memcpyAt_zero_take _ payload hlen⟩

/-- C16, instance: a user-data SEI of 3 bytes with an unfiltered UUID,
delivered while the sample buffer is held. -/
theorem h264UserDataSeiCb_userdata_witness :
    ({ decodingDemuxer with mCurrentBuffer := some sampleBuffer } : RecordDemuxer).mCurrentBuffer =
      some sampleBuffer ∧
    ((sampleLibs.vstrm_h264_sei_streaming_is_v1
          (⟨List.replicate 16 0x33, some [1, 2, 3]⟩ : SeiUserData).uuid = true ∨
        sampleLibs.vstrm_h264_sei_streaming_is_v2
          (⟨List.replicate 16 0x33, some [1, 2, 3]⟩ : SeiUserData).uuid = true) →
      h264UserDataSeiCb sampleLibs { decodingDemuxer with mCurrentBuffer := some sampleBuffer }
          ⟨List.replicate 16 0x33, some [1, 2, 3]⟩ =
        { decodingDemuxer with mCurrentBuffer := some sampleBuffer }) ∧
    (∀ payload : List Nat,
      (⟨List.replicate 16 0x33, some [1, 2, 3]⟩ : SeiUserData).buf = some payload →
      payload ≠ [] →
      sampleLibs.vstrm_h264_sei_streaming_is_v1
        (⟨List.replicate 16 0x33, some [1, 2, 3]⟩ : SeiUserData).uuid = false →
      sampleLibs.vstrm_h264_sei_streaming_is_v2
        (⟨List.replicate 16 0x33, some [1, 2, 3]⟩ : SeiUserData).uuid = false →
      ¬ (sampleLibs.vbuf_set_userdata_capacity sampleBuffer payload.length).1 <
        signedOfSize payload.length →
      payload.length ≤
        (sampleLibs.vbuf_set_userdata_capacity sampleBuffer payload.length).2.userdata.length →
      ∃ b' : VBuf,
        (h264UserDataSeiCb sampleLibs { decodingDemuxer with mCurrentBuffer := some sampleBuffer }
          ⟨List.replicate 16 0x33, some [1, 2, 3]⟩).mCurrentBuffer = some b' ∧
        b'.userdataSize = payload.length ∧ b'.userdata.take b'.userdataSize = payload) :=
  ⟨rfl, h264UserDataSeiCb_userdata sampleLibs { decodingDemuxer with mCurrentBuffer := some sampleBuffer }
    sampleBuffer ⟨List.replicate 16 0x33, some [1, 2, 3]⟩ rfl⟩


/-! ## The calls made by a timer tick -/

/-- The appended buffers of two sequences of calls in a row. -/
theorem appended_append (a b : List Event) : appended (a ++ b) = appended a ++ appended b := by
  induction a with
  | nil => rfl
  | cons e rest ih =>
    cases e <;> simp only [List.cons_append, appended, List.append_eq, ih]
    split <;> rfl

/-- The last queued timestamp of two sequences of calls in a row. -/
theorem lastQueuedDts_append (a b : List Event) :
    ∀ init : Nat, lastQueuedDts init (a ++ b) = lastQueuedDts (lastQueuedDts init a) b := by
  induction a with
  | nil => intro init; rfl
  | cons e rest ih =>
    intro init
    cases e <;> simp only [List.cons_append, lastQueuedDts, List.append_eq, ih]

/-- Calls other than `queue_buffer` append nothing. -/
theorem appended_of_no_queue (l : List Event)
    (h : ∀ e ∈ l, ∀ b r, e ≠ Event.queueBuffer b r) : appended l = [] := by
  induction l with
  | nil => rfl
  | cons e rest ih =>
    have hr : ∀ e ∈ rest, ∀ b r, e ≠ Event.queueBuffer b r :=
      fun e he => h e (List.mem_cons_of_mem _ he)
    cases e <;> simp only [appended, ih hr]
    exact absurd rfl (h _ (List.mem_cons_self _ _) _ _)

/-- Calls other than `queue_buffer` leave the last queued timestamp as it
was. -/
theorem lastQueuedDts_of_no_queue (l : List Event)
    (h : ∀ e ∈ l, ∀ b r, e ≠ Event.queueBuffer b r) (init : Nat) :
    lastQueuedDts init l = init := by
  induction l with
  | nil => rfl
  | cons e rest ih =>
    have hr : ∀ e ∈ rest, ∀ b r, e ≠ Event.queueBuffer b r :=
      fun e he => h e (List.mem_cons_of_mem _ he)
    cases e <;> simp only [lastQueuedDts, ih hr]
    exact absurd rfl (h _ (List.mem_cons_self _ _) _ _)

/-- The calls of `openAvcDecoder` are calls of the decoder's `open`. -/
theorem openAvcDecoder_events (k : Defs) (inp : TickInputs) (st : RecordDemuxer) :
    ∀ e ∈ (openAvcDecoder k inp st).2.2, e ≠ Event.poolGet ∧ ∀ b r, e ≠ Event.queueBuffer b r := by
  unfold openAvcDecoder
  intro e he
  split at he
  · simp at he
  · simp only at he
    split at he
    · simp at he
    · split at he
      · simp at he
      · split at he
        · simp at he
        · split at he
          · simp at he
          · split at he
            · simp at he
            · split at he
              · simp at he
              · split at he
                · simp at he
                · split at he
                  · simp only [List.mem_singleton] at he
                    subst he
                    simp
                  · split at he <;>
                    · simp only [List.mem_singleton] at he
                      subst he
                      simp

/-- The function `openAvcDecoder` changes no member but `mDecoderSource`. -/
theorem openAvcDecoder_keeps (k : Defs) (inp : TickInputs) (st : RecordDemuxer) :
    (openAvcDecoder k inp st).2.1.mPendingSeekTs = st.mPendingSeekTs ∧
    (openAvcDecoder k inp st).2.1.mPendingSeekToPrevSample = st.mPendingSeekToPrevSample ∧
    (openAvcDecoder k inp st).2.1.mCurrentTime = st.mCurrentTime ∧
    (openAvcDecoder k inp st).2.1.mCurrentBuffer = st.mCurrentBuffer := by
  unfold openAvcDecoder
  split
  · exact ⟨rfl, rfl, rfl, rfl⟩
  · simp only
    split
    · exact ⟨rfl, rfl, rfl, rfl⟩
    · split
      · exact ⟨rfl, rfl, rfl, rfl⟩
      · split
        · exact ⟨rfl, rfl, rfl, rfl⟩
        · split
          · exact ⟨rfl, rfl, rfl, rfl⟩
          · split
            · exact ⟨rfl, rfl, rfl, rfl⟩
            · split
              · exact ⟨rfl, rfl, rfl, rfl⟩
              · split
                · exact ⟨rfl, rfl, rfl, rfl⟩
                · split
                  · exact ⟨rfl, rfl, rfl, rfl⟩
                  · split <;> exact ⟨rfl, rfl, rfl, rfl⟩


/-- The lazy configuration of the tick makes no pool or queue call and leaves
the pending seeks, the current time and the held buffer as they were. -/
theorem tickConfigure_spec (k : Defs) (inp : TickInputs) (st : RecordDemuxer) :
    (tickConfigure k inp st).1.mPendingSeekTs = st.mPendingSeekTs ∧
    (tickConfigure k inp st).1.mPendingSeekToPrevSample = st.mPendingSeekToPrevSample ∧
    (tickConfigure k inp st).1.mCurrentTime = st.mCurrentTime ∧
    (tickConfigure k inp st).1.mCurrentBuffer = st.mCurrentBuffer ∧
    ∀ e ∈ (tickConfigure k inp st).2, e ≠ Event.poolGet ∧ ∀ b r, e ≠ Event.queueBuffer b r := by
  have hk := openAvcDecoder_keeps k inp st
  have he := openAvcDecoder_events k inp st
  unfold tickConfigure
  split
  · simp only
    split
    · exact ⟨hk.1, hk.2.1, hk.2.2.1, hk.2.2.2, he⟩
    · exact ⟨hk.1, hk.2.1, hk.2.2.1, hk.2.2.2, he⟩
  · refine ⟨rfl, rfl, rfl, rfl, ?_⟩
    intro e h
    simp at h

/-- The seek of the tick makes no pool or queue call and leaves the pending
seeks, the current time and the held buffer as they were. -/
theorem tickSeek_spec (inp : TickInputs) (st : RecordDemuxer) :
    (tickSeek inp st).1.mPendingSeekTs = st.mPendingSeekTs ∧
    (tickSeek inp st).1.mPendingSeekToPrevSample = st.mPendingSeekToPrevSample ∧
    (tickSeek inp st).1.mCurrentTime = st.mCurrentTime ∧
    (tickSeek inp st).1.mCurrentBuffer = st.mCurrentBuffer ∧
    ∀ e ∈ (tickSeek inp st).2, e ≠ Event.poolGet ∧ ∀ b r, e ≠ Event.queueBuffer b r := by
  unfold tickSeek
  split
  · split <;>
    · refine ⟨rfl, rfl, rfl, rfl, ?_⟩
      intro e h
      simp only [List.mem_singleton] at h
      subst h
      simp
  · split
    · split <;>
      · refine ⟨rfl, rfl, rfl, rfl, ?_⟩
        intro e h
        simp only [List.mem_singleton] at h
        subst h
        simp
    · refine ⟨rfl, rfl, rfl, rfl, ?_⟩
      intro e h
      simp at h

/-- The user-data SEI callback changes no member but the held buffer, and
keeps a buffer held. -/
theorem h264UserDataSeiCb_keeps (lib : Libs) (st : RecordDemuxer) (sei : SeiUserData) :
    (h264UserDataSeiCb lib st sei).mPendingSeekTs = st.mPendingSeekTs ∧
    (h264UserDataSeiCb lib st sei).mPendingSeekToPrevSample = st.mPendingSeekToPrevSample ∧
    (h264UserDataSeiCb lib st sei).mCurrentTime = st.mCurrentTime ∧
    (h264UserDataSeiCb lib st sei).mFrameByFrame = st.mFrameByFrame ∧
    (st.mCurrentBuffer.isSome = true →
      (h264UserDataSeiCb lib st sei).mCurrentBuffer.isSome = true) := by
  unfold h264UserDataSeiCb
  split
  · exact ⟨rfl, rfl, rfl, rfl, id⟩
  · split
    · exact ⟨rfl, rfl, rfl, rfl, id⟩
    · split
      · exact ⟨rfl, rfl, rfl, rfl, id⟩
      · split
        · exact ⟨rfl, rfl, rfl, rfl, id⟩
        · simp only
          split <;> exact ⟨rfl, rfl, rfl, rfl, fun _ => rfl⟩

/-- The user-data SEI callbacks of one SEI NAL unit change no member but the
held buffer, and keep a buffer held. -/
theorem h264UserDataSeiCb_foldl_keeps (lib : Libs) (seis : List SeiUserData) :
    ∀ st : RecordDemuxer,
      (seis.foldl (h264UserDataSeiCb lib) st).mPendingSeekTs = st.mPendingSeekTs ∧
      (seis.foldl (h264UserDataSeiCb lib) st).mPendingSeekToPrevSample =
        st.mPendingSeekToPrevSample ∧
      (seis.foldl (h264UserDataSeiCb lib) st).mCurrentTime = st.mCurrentTime ∧
      (seis.foldl (h264UserDataSeiCb lib) st).mFrameByFrame = st.mFrameByFrame ∧
      (st.mCurrentBuffer.isSome = true →
        (seis.foldl (h264UserDataSeiCb lib) st).mCurrentBuffer.isSome = true) := by
  induction seis with
  | nil => intro st; exact ⟨rfl, rfl, rfl, rfl, id⟩
  | cons sei rest ih =>
    intro st
    have h1 := h264UserDataSeiCb_keeps lib st sei
    have h2 := ih (h264UserDataSeiCb lib st sei)
    simp only [List.foldl_cons]
    exact ⟨h2.1.trans h1.1, h2.2.1.trans h1.2.1, h2.2.2.1.trans h1.2.2.1,
      h2.2.2.2.1.trans h1.2.2.2.1, fun h => h2.2.2.2.2 (h1.2.2.2.2 h)⟩

/-- The end of the tick body, from `vbuf_metadata_add` on: either the
descriptor is not attached and nothing changes, or the buffer is queued with
the timestamp of the sample, which becomes the current time, and it is held
afterwards exactly when the call failed. -/
theorem tickQueue_spec (inp : TickInputs) (st : RecordDemuxer) (b : VBuf) (silent : Bool)
    (evs : List Event) :
    (tickQueue inp st b silent evs).retry = false ∧
    (tickQueue inp st b silent evs).st.mPendingSeekTs = st.mPendingSeekTs ∧
    (tickQueue inp st b silent evs).st.mPendingSeekToPrevSample = st.mPendingSeekToPrevSample ∧
    ((inp.metadataAddOk = false ∧ (tickQueue inp st b silent evs).events = evs ∧
        (tickQueue inp st b silent evs).st.mCurrentTime = st.mCurrentTime) ∨
      (inp.metadataAddOk = true ∧
        (tickQueue inp st b silent evs).events =
          evs ++ [Event.queueBuffer
            { b with
                inputBuffer := some ⟨true, false, true, silent, inp.sample.sample_dts,
                  inp.sample.sample_dts, inp.clock2, inp.hasMetadata, inp.clock2⟩ }
            inp.queueRet] ∧
        (tickQueue inp st b silent evs).st.mCurrentTime = inp.sample.sample_dts ∧
        (tickQueue inp st b silent evs).st.mCurrentBuffer =
          if inp.queueRet < 0 then
            some { b with
              inputBuffer := some ⟨true, false, true, silent, inp.sample.sample_dts,
                inp.sample.sample_dts, inp.clock2, inp.hasMetadata, inp.clock2⟩ }
          else none)) := by
  unfold tickQueue
  cases hm : inp.metadataAddOk <;>
    by_cases hc : (st.mFrameByFrame && !silent) = true <;> simp [hc]


/-- The end of the tick body once the pending seeks are cleared and a buffer
is held: the descriptor is attached and the buffer queued, or nothing more
happens. -/
theorem tickSample_tail (inp : TickInputs) (st st2 : RecordDemuxer) (silent : Bool)
    (evs : List Event) (body : TickBody)
    (hbody : body = match st2.mCurrentBuffer with
      | none => ⟨st2, false, silent, inp.sample, inp.clock1, evs⟩
      | some b3 => tickQueue inp st2 b3 silent evs)
    (h1 : st2.mPendingSeekTs = -1) (h2 : st2.mPendingSeekToPrevSample = false)
    (h3 : st2.mCurrentTime = st.mCurrentTime) (h4 : st2.mCurrentBuffer.isSome = true) :
    body.retry = false ∧ body.st.mPendingSeekTs = -1 ∧
    body.st.mPendingSeekToPrevSample = false ∧
    ((inp.metadataAddOk = false ∧ body.events = evs ∧
        body.st.mCurrentTime = st.mCurrentTime) ∨
      (inp.metadataAddOk = true ∧ ∃ (b1 : VBuf) (d : AvcDecoderInputBuffer),
        body.events = evs ++ [Event.queueBuffer b1 inp.queueRet] ∧
        b1.inputBuffer = some d ∧ d.auNtpTimestamp = inp.sample.sample_dts ∧
        body.st.mCurrentTime = inp.sample.sample_dts ∧
        body.st.mCurrentBuffer = if inp.queueRet < 0 then some b1 else none)) := by
  cases hb : st2.mCurrentBuffer with
  | none =>
    rw [hb] at h4
    exact absurd h4 (by decide)
  | some b3 =>
    rw [hb] at hbody
    simp only at hbody
    have q := tickQueue_spec inp st2 b3 silent evs
    rw [← hbody] at q
    refine ⟨q.1, q.2.1.trans h1, q.2.2.1.trans h2, ?_⟩
    rcases q.2.2.2 with ⟨qa, qb, qc⟩ | ⟨qa, qb, qc, qd⟩
    · exact Or.inl ⟨qa, qb, qc.trans h3⟩
    · exact Or.inr ⟨qa, _, _, qb, rfl, rfl, qc, qd⟩

/-- The tick body from `vbuf_set_size` on, for a sample of non-zero size: the
pending seeks are cleared, and the buffer is queued unless the descriptor
cannot be attached. -/
theorem tickSample_spec (k : Defs) (lib : Libs) (inp : TickInputs) (st : RecordDemuxer)
    (b : VBuf) (evs : List Event) :
    (tickSample k lib inp st b evs).retry = false ∧
    (tickSample k lib inp st b evs).st.mPendingSeekTs = -1 ∧
    (tickSample k lib inp st b evs).st.mPendingSeekToPrevSample = false ∧
    ((inp.metadataAddOk = false ∧ (tickSample k lib inp st b evs).events = evs ∧
        (tickSample k lib inp st b evs).st.mCurrentTime = st.mCurrentTime) ∨
      (inp.metadataAddOk = true ∧ ∃ (b1 : VBuf) (d : AvcDecoderInputBuffer),
        (tickSample k lib inp st b evs).events = evs ++ [Event.queueBuffer b1 inp.queueRet] ∧
        b1.inputBuffer = some d ∧ d.auNtpTimestamp = inp.sample.sample_dts ∧
        (tickSample k lib inp st b evs).st.mCurrentTime = inp.sample.sample_dts ∧
        (tickSample k lib inp st b evs).st.mCurrentBuffer =
          if inp.queueRet < 0 then some b1 else none)) := by
  refine tickSample_tail inp st _ _ evs (tickSample k lib inp st b evs) rfl ?_ ?_ ?_ ?_
  all_goals
    split
    · rfl
    · split
      · first
        | exact ((h264UserDataSeiCb_foldl_keeps lib _ _).1)
        | exact ((h264UserDataSeiCb_foldl_keeps lib _ _).2.1)
        | exact ((h264UserDataSeiCb_foldl_keeps lib _ _).2.2.1)
        | exact ((h264UserDataSeiCb_foldl_keeps lib _ _).2.2.2.2 rfl)
      · rfl


/-- The tick body from the seek on, with a buffer held.  Either no buffer is
queued: the tick asks for a retry, or the sample is empty, or the descriptor
cannot be attached; the current time is as before and the pending seeks are
both cleared or both as before.  Or one buffer is queued, as the last call:
it carries the timestamp of the sample, which becomes the current time, the
pending seeks are cleared and the buffer is held afterwards exactly when the
call failed. -/
theorem tickRead_spec (k : Defs) (lib : Libs) (inp : TickInputs) (st : RecordDemuxer)
    (b : VBuf) (evs : List Event) :
    ∃ mid : List Event, (∀ e ∈ mid, e ≠ Event.poolGet ∧ ∀ b r, e ≠ Event.queueBuffer b r) ∧
      (((tickRead k lib inp st b evs).events = evs ++ mid ∧
          ((tickRead k lib inp st b evs).retry = true ∨ inp.sample.sample_size = 0 ∨
            inp.metadataAddOk = false) ∧
          (tickRead k lib inp st b evs).st.mCurrentTime = st.mCurrentTime ∧
          (((tickRead k lib inp st b evs).st.mPendingSeekTs = -1 ∧
              (tickRead k lib inp st b evs).st.mPendingSeekToPrevSample = false) ∨
            ((tickRead k lib inp st b evs).st.mPendingSeekTs = st.mPendingSeekTs ∧
              (tickRead k lib inp st b evs).st.mPendingSeekToPrevSample =
                st.mPendingSeekToPrevSample))) ∨
        (∃ (b1 : VBuf) (d : AvcDecoderInputBuffer),
          (tickRead k lib inp st b evs).events =
            evs ++ mid ++ [Event.queueBuffer b1 inp.queueRet] ∧
          b1.inputBuffer = some d ∧ d.auNtpTimestamp = inp.sample.sample_dts ∧
          (tickRead k lib inp st b evs).retry = false ∧ inp.sample.sample_size ≠ 0 ∧
          inp.metadataAddOk = true ∧
          (tickRead k lib inp st b evs).st.mCurrentTime = inp.sample.sample_dts ∧
          (tickRead k lib inp st b evs).st.mPendingSeekTs = -1 ∧
          (tickRead k lib inp st b evs).st.mPendingSeekToPrevSample = false ∧
          (tickRead k lib inp st b evs).st.mCurrentBuffer =
            if inp.queueRet < 0 then some b1 else none)) := by
  have sk := tickSeek_spec inp st
  by_cases h : (inp.nextSampleRet != 0) = true
  · have e : tickRead k lib inp st b evs =
        ⟨(tickSeek inp st).1, true, false, zeroSample, inp.clock1,
          if inp.nextSampleRet == -ENOBUFS then
            evs ++ (tickSeek inp st).2 ++ [Event.nextSample] ++ [Event.skipSample]
          else evs ++ (tickSeek inp st).2 ++ [Event.nextSample]⟩ := by
      unfold tickRead
      simp only [h, if_true]
    rw [e]
    refine ⟨(tickSeek inp st).2 ++ [Event.nextSample] ++
        (if inp.nextSampleRet == -ENOBUFS then [Event.skipSample] else []), ?_,
      Or.inl ⟨?_, Or.inl rfl, sk.2.2.1, Or.inr ⟨sk.1, sk.2.1⟩⟩⟩
    · intro e he
      simp only [List.mem_append, List.mem_singleton] at he
      rcases he with (he | he) | he
      · exact sk.2.2.2.2 e he
      · subst he
        simp
      · split at he
        · simp only [List.mem_singleton] at he
          subst he
          simp
        · simp at he
    · show (if inp.nextSampleRet == -ENOBUFS then _ else _) = _
      split <;> simp
  · by_cases hz : (inp.sample.sample_size == 0) = true
    · have e : tickRead k lib inp st b evs =
          ⟨{ (tickSeek inp st).1 with
              mCurrentBuffer := some { b with data := memcpyAt b.data 0 inp.sampleData } },
            false, false, inp.sample, inp.clock1,
            evs ++ (tickSeek inp st).2 ++ [Event.nextSample]⟩ := by
        unfold tickRead
        simp only [h, hz, Bool.false_eq_true, if_true, if_false]
      rw [e]
      refine ⟨(tickSeek inp st).2 ++ [Event.nextSample], ?_,
        Or.inl ⟨by simp, Or.inr (Or.inl (by simpa using hz)), sk.2.2.1,
          Or.inr ⟨sk.1, sk.2.1⟩⟩⟩
      intro e he
      simp only [List.mem_append, List.mem_singleton] at he
      rcases he with he | he
      · exact sk.2.2.2.2 e he
      · subst he
        simp
    · have e : tickRead k lib inp st b evs =
          tickSample k lib inp
            { (tickSeek inp st).1 with
              mCurrentBuffer := some { b with data := memcpyAt b.data 0 inp.sampleData } }
            { b with data := memcpyAt b.data 0 inp.sampleData }
            (evs ++ (tickSeek inp st).2 ++ [Event.nextSample]) := by
        unfold tickRead
        simp only [h, hz, Bool.false_eq_true, if_false]
      have ts := tickSample_spec k lib inp
        { (tickSeek inp st).1 with
          mCurrentBuffer := some { b with data := memcpyAt b.data 0 inp.sampleData } }
        { b with data := memcpyAt b.data 0 inp.sampleData }
        (evs ++ (tickSeek inp st).2 ++ [Event.nextSample])
      rw [← e] at ts
      have hsz : inp.sample.sample_size ≠ 0 := by simpa using hz
      refine ⟨(tickSeek inp st).2 ++ [Event.nextSample], ?_, ?_⟩
      · intro e he
        simp only [List.mem_append, List.mem_singleton] at he
        rcases he with he | he
        · exact sk.2.2.2.2 e he
        · subst he
          simp
      · rcases ts.2.2.2 with ⟨qa, qb, qc⟩ | ⟨qa, b1, d, qb, qc, qd, qe, qf⟩
        · refine Or.inl ⟨?_, Or.inr (Or.inr qa), qc.trans sk.2.2.1, Or.inl ⟨ts.2.1, ts.2.2.1⟩⟩
          simp only [qb, List.append_assoc]
        · refine Or.inr ⟨b1, d, ?_, qc, qd, ts.1, hsz, qa, qe, ts.2.1, ts.2.2.1, qf⟩
          simp only [qb, List.append_assoc]


/-- The whole tick body.  A buffer is taken from the pool only when none is
held at the entry.  Either no buffer is queued: the tick asks for a retry, or
the sample is empty, or the descriptor cannot be attached; the current time
is as before and the pending seeks are both cleared or both as before.  Or
one buffer is queued, as the last call: it carries the timestamp of the
sample, which becomes the current time, the pending seeks are cleared and the
buffer is held afterwards exactly when the call failed. -/
theorem timerCbBody_spec (k : Defs) (lib : Libs) (inp : TickInputs) (st : RecordDemuxer) :
    ∃ mid : List Event,
      (∀ e ∈ mid, (e = Event.poolGet → st.mCurrentBuffer = none) ∧
        ∀ b r, e ≠ Event.queueBuffer b r) ∧
      (((timerCbBody k lib inp st).events = mid ∧
          ((timerCbBody k lib inp st).retry = true ∨ inp.sample.sample_size = 0 ∨
            inp.metadataAddOk = false) ∧
          (timerCbBody k lib inp st).st.mCurrentTime = st.mCurrentTime ∧
          (((timerCbBody k lib inp st).st.mPendingSeekTs = -1 ∧
              (timerCbBody k lib inp st).st.mPendingSeekToPrevSample = false) ∨
            ((timerCbBody k lib inp st).st.mPendingSeekTs = st.mPendingSeekTs ∧
              (timerCbBody k lib inp st).st.mPendingSeekToPrevSample =
                st.mPendingSeekToPrevSample))) ∨
        (∃ (b1 : VBuf) (d : AvcDecoderInputBuffer),
          (timerCbBody k lib inp st).events = mid ++ [Event.queueBuffer b1 inp.queueRet] ∧
          b1.inputBuffer = some d ∧ d.auNtpTimestamp = inp.sample.sample_dts ∧
          (timerCbBody k lib inp st).retry = false ∧ inp.sample.sample_size ≠ 0 ∧
          inp.metadataAddOk = true ∧
          (timerCbBody k lib inp st).st.mCurrentTime = inp.sample.sample_dts ∧
          (timerCbBody k lib inp st).st.mPendingSeekTs = -1 ∧
          (timerCbBody k lib inp st).st.mPendingSeekToPrevSample = false ∧
          (timerCbBody k lib inp st).st.mCurrentBuffer =
            if inp.queueRet < 0 then some b1 else none)) := by
  have c := tickConfigure_spec k inp st
  have hquiet : ∀ (X : Prop), ∀ e ∈ (tickConfigure k inp st).2,
      (e = Event.poolGet → X) ∧ ∀ b r, e ≠ Event.queueBuffer b r :=
    fun X e he => ⟨fun h => absurd h (c.2.2.2.2 e he).1, (c.2.2.2.2 e he).2⟩
  -- what remains once a buffer `b` is held in the state `st1` after the calls `evs`
  have hread : ∀ (st1 : RecordDemuxer) (b : VBuf) (evs : List Event),
      timerCbBody k lib inp st = tickRead k lib inp st1 b evs →
      st1.mCurrentTime = st.mCurrentTime → st1.mPendingSeekTs = st.mPendingSeekTs →
      st1.mPendingSeekToPrevSample = st.mPendingSeekToPrevSample →
      (∀ e ∈ evs, (e = Event.poolGet → st.mCurrentBuffer = none) ∧
        ∀ b r, e ≠ Event.queueBuffer b r) →
      ∃ mid : List Event,
        (∀ e ∈ mid, (e = Event.poolGet → st.mCurrentBuffer = none) ∧
          ∀ b r, e ≠ Event.queueBuffer b r) ∧
        (((timerCbBody k lib inp st).events = mid ∧
            ((timerCbBody k lib inp st).retry = true ∨ inp.sample.sample_size = 0 ∨
              inp.metadataAddOk = false) ∧
            (timerCbBody k lib inp st).st.mCurrentTime = st.mCurrentTime ∧
            (((timerCbBody k lib inp st).st.mPendingSeekTs = -1 ∧
                (timerCbBody k lib inp st).st.mPendingSeekToPrevSample = false) ∨
              ((timerCbBody k lib inp st).st.mPendingSeekTs = st.mPendingSeekTs ∧
                (timerCbBody k lib inp st).st.mPendingSeekToPrevSample =
                  st.mPendingSeekToPrevSample))) ∨
          (∃ (b1 : VBuf) (d : AvcDecoderInputBuffer),
            (timerCbBody k lib inp st).events = mid ++ [Event.queueBuffer b1 inp.queueRet] ∧
            b1.inputBuffer = some d ∧ d.auNtpTimestamp = inp.sample.sample_dts ∧
            (timerCbBody k lib inp st).retry = false ∧ inp.sample.sample_size ≠ 0 ∧
            inp.metadataAddOk = true ∧
            (timerCbBody k lib inp st).st.mCurrentTime = inp.sample.sample_dts ∧
            (timerCbBody k lib inp st).st.mPendingSeekTs = -1 ∧
            (timerCbBody k lib inp st).st.mPendingSeekToPrevSample = false ∧
            (timerCbBody k lib inp st).st.mCurrentBuffer =
              if inp.queueRet < 0 then some b1 else none)) := by
    intro st1 b evs e h1 h2 h3 hevs
    obtain ⟨mid, hmid, hr⟩ := tickRead_spec k lib inp st1 b evs
    rw [← e] at hr
    refine ⟨evs ++ mid, ?_, ?_⟩
    · intro x hx
      rcases List.mem_append.1 hx with hx | hx
      · exact hevs x hx
      · exact ⟨fun h => absurd h (hmid x hx).1, (hmid x hx).2⟩
    · rcases hr with ⟨ra, rb, rc, rd⟩ | ⟨b1, d, ra, rb, rc, rd, re, rf, rg, rh, ri, rj⟩
      · refine Or.inl ⟨ra, rb, rc.trans h1, ?_⟩
        rcases rd with rd | rd
        · exact Or.inl rd
        · exact Or.inr ⟨rd.1.trans h2, rd.2.trans h3⟩
      · exact Or.inr ⟨b1, d, ra, rb, rc, rd, re, rf, rg, rh, ri, rj⟩
  by_cases hp : (tickConfigure k inp st).1.mDecoderSource.pool.isNone = true
  · have e : timerCbBody k lib inp st =
        ⟨(tickConfigure k inp st).1, true, false, zeroSample, inp.clock1,
          (tickConfigure k inp st).2⟩ := by
      unfold timerCbBody
      simp only [hp, if_true]
    rw [e]
    exact ⟨(tickConfigure k inp st).2, hquiet _,
      Or.inl ⟨rfl, Or.inl rfl, c.2.2.1, Or.inr ⟨c.1, c.2.1⟩⟩⟩
  · cases hb : (tickConfigure k inp st).1.mCurrentBuffer with
    | some b =>
      have e : timerCbBody k lib inp st =
          tickRead k lib inp (tickConfigure k inp st).1 b (tickConfigure k inp st).2 := by
        unfold timerCbBody
        simp only [hp, hb, Bool.false_eq_true, if_false]
      exact hread _ _ _ e c.2.2.1 c.1 c.2.1 (hquiet _)
    | none =>
      have hnone : st.mCurrentBuffer = none := c.2.2.2.1.symm.trans hb
      have hevs : ∀ e ∈ (tickConfigure k inp st).2 ++ [Event.poolGet],
          (e = Event.poolGet → st.mCurrentBuffer = none) ∧
            ∀ b r, e ≠ Event.queueBuffer b r := by
        intro x hx
        rcases List.mem_append.1 hx with hx | hx
        · exact hquiet _ x hx
        · simp only [List.mem_singleton] at hx
          subst hx
          exact ⟨fun _ => hnone, by simp⟩
      by_cases hr : inp.poolGetRet < 0
      · have e : timerCbBody k lib inp st =
            ⟨{ (tickConfigure k inp st).1 with mCurrentBuffer := inp.poolGetBuffer }, true, false,
              zeroSample, inp.clock1, (tickConfigure k inp st).2 ++ [Event.poolGet]⟩ := by
          unfold timerCbBody
          simp only [hp, hb, hr, Bool.false_eq_true, if_false, if_true]
        rw [e]
        exact ⟨_, hevs, Or.inl ⟨rfl, Or.inl rfl, c.2.2.1, Or.inr ⟨c.1, c.2.1⟩⟩⟩
      · cases hg : inp.poolGetBuffer with
        | none =>
          have e : timerCbBody k lib inp st =
              ⟨{ (tickConfigure k inp st).1 with mCurrentBuffer := none }, true, false,
                zeroSample, inp.clock1, (tickConfigure k inp st).2 ++ [Event.poolGet]⟩ := by
            unfold timerCbBody
            simp only [hp, hb, hr, hg, Bool.false_eq_true, if_false]
          rw [e]
          exact ⟨_, hevs, Or.inl ⟨rfl, Or.inl rfl, c.2.2.1, Or.inr ⟨c.1, c.2.1⟩⟩⟩
        | some b =>
          have e : timerCbBody k lib inp st =
              tickRead k lib inp { (tickConfigure k inp st).1 with mCurrentBuffer := some b } b
                ((tickConfigure k inp st).2 ++ [Event.poolGet]) := by
            unfold timerCbBody
            simp only [hp, hb, hr, hg, Bool.false_eq_true, if_false]
          exact hread _ _ _ e c.2.2.1 c.1 c.2.1 hevs


/-- The catch-up seek, if any, is the only call of the sample duration
computation. -/
theorem sampleDuration_events (lib : Libs) (inp : TickInputs) (speed : F32)
    (sample : Mp4TrackSample) (silent : Bool) (error avg : Int) :
    ∀ e ∈ (sampleDuration lib inp speed sample silent error avg).events,
      e ≠ Event.poolGet ∧ ∀ b r, e ≠ Event.queueBuffer b r := by
  intro e he
  unfold sampleDuration at he
  split at he
  · simp at he
  · split at he
    · simp only at he
      split at he
      · simp only [List.mem_singleton] at he
        subst he
        simp
      · simp at he
    · simp only at he
      split at he
      · simp only [List.mem_singleton] at he
        subst he
        simp
      · simp at he

/-- The pacing part of the tick leaves the pending seeks, the current time
and the held buffer as the body left them, and makes no pool or queue
call. -/
theorem timerCbOut_spec (lib : Libs) (inp : TickInputs) (speed : F32) (body : TickBody) :
    (timerCbOut lib inp speed body).1.mPendingSeekTs = body.st.mPendingSeekTs ∧
    (timerCbOut lib inp speed body).1.mPendingSeekToPrevSample =
      body.st.mPendingSeekToPrevSample ∧
    (timerCbOut lib inp speed body).1.mCurrentTime = body.st.mCurrentTime ∧
    (timerCbOut lib inp speed body).1.mCurrentBuffer = body.st.mCurrentBuffer ∧
    ∃ post : List Event, (timerCbOut lib inp speed body).2 = body.events ++ post ∧
      ∀ e ∈ post, e ≠ Event.poolGet ∧ ∀ b r, e ≠ Event.queueBuffer b r := by
  unfold timerCbOut
  split
  · exact ⟨rfl, rfl, rfl, rfl, [], (List.append_nil _).symm, by simp⟩
  · split
    · exact ⟨rfl, rfl, rfl, rfl, _, rfl, sampleDuration_events _ _ _ _ _ _ _⟩
    · exact ⟨rfl, rfl, rfl, rfl, [], (List.append_nil _).symm, by simp⟩

/-- A tick without a decoder or while not running makes no call and changes
no member but the timer and the pacing variables; any other tick is its body
followed by the pacing part. -/
theorem tick_spec (k : Defs) (lib : Libs) (inp : TickInputs) (st : RecordDemuxer) :
    ((st.mDecoder.isNone || !st.mRunning) = true ∧
      (tick k lib inp st).2 = [] ∧
      (tick k lib inp st).1.mPendingSeekTs = st.mPendingSeekTs ∧
      (tick k lib inp st).1.mPendingSeekToPrevSample = st.mPendingSeekToPrevSample ∧
      (tick k lib inp st).1.mCurrentTime = st.mCurrentTime ∧
      (tick k lib inp st).1.mCurrentBuffer = st.mCurrentBuffer) ∨
    ((st.mDecoder.isNone || !st.mRunning) = false ∧
      (tick k lib inp st).1.mPendingSeekTs =
        (timerCbBody k lib inp { st with mTimer := ⟨none⟩ }).st.mPendingSeekTs ∧
      (tick k lib inp st).1.mPendingSeekToPrevSample =
        (timerCbBody k lib inp { st with mTimer := ⟨none⟩ }).st.mPendingSeekToPrevSample ∧
      (tick k lib inp st).1.mCurrentTime =
        (timerCbBody k lib inp { st with mTimer := ⟨none⟩ }).st.mCurrentTime ∧
      (tick k lib inp st).1.mCurrentBuffer =
        (timerCbBody k lib inp { st with mTimer := ⟨none⟩ }).st.mCurrentBuffer ∧
      ∃ post : List Event,
        (tick k lib inp st).2 =
          (timerCbBody k lib inp { st with mTimer := ⟨none⟩ }).events ++ post ∧
        ∀ e ∈ post, e ≠ Event.poolGet ∧ ∀ b r, e ≠ Event.queueBuffer b r) := by
  cases hg : (st.mDecoder.isNone || !st.mRunning)
  · right
    have e : tick k lib inp st =
        timerCbOut lib inp st.mSpeed (timerCbBody k lib inp { st with mTimer := ⟨none⟩ }) := by
      unfold tick timerCb
      simp only [hg, Bool.false_eq_true, if_false]
    rw [e]
    exact ⟨rfl, timerCbOut_spec lib inp st.mSpeed _⟩
  · left
    have e : tick k lib inp st =
        ({ st with mTimer := ⟨none⟩, mLastFrameDuration := 0, mLastOutputError := 0 }, []) := by
      unfold tick timerCb
      simp only [hg, if_true]
    rw [e]
    exact ⟨rfl, rfl, rfl, rfl, rfl, rfl⟩

/-- What a tick does, seen from outside.  A buffer is taken from the pool only
when none is held at the entry.  Either no buffer is queued, the current time
is as before and the pending seeks are both cleared or both as before.  Or
exactly one buffer is queued: it carries the timestamp of the sample, which
becomes the current time, the pending seeks are cleared and the buffer is held
afterwards exactly when the call failed. -/
theorem tick_shape (k : Defs) (lib : Libs) (inp : TickInputs) (st : RecordDemuxer) :
    ∃ mid post : List Event,
      (∀ e ∈ mid, (e = Event.poolGet → st.mCurrentBuffer = none) ∧
        ∀ b r, e ≠ Event.queueBuffer b r) ∧
      (∀ e ∈ post, e ≠ Event.poolGet ∧ ∀ b r, e ≠ Event.queueBuffer b r) ∧
      (((tick k lib inp st).2 = mid ++ post ∧
          (tick k lib inp st).1.mCurrentTime = st.mCurrentTime ∧
          (((tick k lib inp st).1.mPendingSeekTs = -1 ∧
              (tick k lib inp st).1.mPendingSeekToPrevSample = false) ∨
            ((tick k lib inp st).1.mPendingSeekTs = st.mPendingSeekTs ∧
              (tick k lib inp st).1.mPendingSeekToPrevSample =
                st.mPendingSeekToPrevSample))) ∨
        (∃ (b1 : VBuf) (d : AvcDecoderInputBuffer),
          (tick k lib inp st).2 = mid ++ [Event.queueBuffer b1 inp.queueRet] ++ post ∧
          b1.inputBuffer = some d ∧ d.auNtpTimestamp = inp.sample.sample_dts ∧
          (tick k lib inp st).1.mCurrentTime = inp.sample.sample_dts ∧
          (tick k lib inp st).1.mPendingSeekTs = -1 ∧
          (tick k lib inp st).1.mPendingSeekToPrevSample = false ∧
          (tick k lib inp st).1.mCurrentBuffer =
            if inp.queueRet < 0 then some b1 else none)) := by
  rcases tick_spec k lib inp st with ⟨_, h0, h1, h2, h3, _⟩ | ⟨_, h1, h2, h3, h4, post, h5, h6⟩
  · exact ⟨[], [], by simp, by simp, Or.inl ⟨h0, h3, Or.inr ⟨h1, h2⟩⟩⟩
  · obtain ⟨mid, hmid, hb⟩ := timerCbBody_spec k lib inp { st with mTimer := ⟨none⟩ }
    refine ⟨mid, post, hmid, h6, ?_⟩
    rcases hb with ⟨ra, _, rc, rd⟩ | ⟨b1, d, ra, rb, rc, _, _, _, rg, rh, ri, rj⟩
    · refine Or.inl ⟨by rw [h5, ra], h3.trans rc, ?_⟩
      rcases rd with rd | rd
      · exact Or.inl ⟨h1.trans rd.1, h2.trans rd.2⟩
      · exact Or.inr ⟨h1.trans rd.1, h2.trans rd.2⟩
    · exact Or.inr ⟨b1, d, by rw [h5, ra], rb, rc, h3.trans rg, h1.trans rh, h2.trans ri,
        h4.trans rj⟩


/-! ## Pending seeks at the end of a tick -/

/-- The track loop of `open` does not write `mCurrentTime`. -/
theorem openTrackLoop_currentTime (d : Mp4Demux) (n i : Nat) (st : RecordDemuxer) :
    (openTrackLoop d n i st).2.mCurrentTime = st.mCurrentTime := by
  induction n generalizing i with
  | zero => rfl
  | succ n ih =>
    unfold openTrackLoop
    simp only
    split
    · rfl
    · exact ih (i + 1)

/-- The method `open` does not write `mCurrentTime`. -/
theorem open_currentTime (env : Env) (st : RecordDemuxer) (fileName : String) :
    (open_ env st fileName).2.mCurrentTime = st.mCurrentTime := by
  have hdims : ∀ (d : Mp4Demux) (s : RecordDemuxer),
      (fetchVideoDimensions env d s).2.mCurrentTime = s.mCurrentTime := by
    intro d s
    unfold fetchVideoDimensions
    simp only
    split <;> rfl
  have hmeta : ∀ (d : Mp4Demux) (s : RecordDemuxer),
      (fetchSessionMetadata env d s).2.mCurrentTime = s.mCurrentTime := by
    intro d s
    unfold fetchSessionMetadata
    simp only
    split <;> rfl
  have hwith : ∀ (d : Mp4Demux) (s : RecordDemuxer),
      (openWithDemux env d s).2.mCurrentTime = s.mCurrentTime := by
    intro d s
    unfold openWithDemux
    simp only
    generalize (uint32ToInt d.mediaInfo.track_count).toNat = n
    have h1 := openTrackLoop_currentTime d n 0 { s with mDuration := d.mediaInfo.duration }
    split
    · rfl
    · split
      · exact h1
      · have h2 := hdims d (openTrackLoop d n 0 { s with mDuration := d.mediaInfo.duration }).2
        split
        · exact h2.trans h1
        · have h3 := hmeta d (fetchVideoDimensions env d
            (openTrackLoop d n 0 { s with mDuration := d.mediaInfo.duration }).2).2
          split
          · exact h3.trans (h2.trans h1)
          · exact h3.trans (h2.trans h1)
  unfold open_
  split
  · rfl
  · simp only
    split
    · rfl
    · exact hwith _ _

/-- One action changes the current time to the timestamp of the buffer it
passes to `queue_buffer`, if it passes one, and not otherwise. -/
theorem step_currentTime (k : Defs) (lib : Libs) (st : RecordDemuxer) (a : Action) :
    (step k lib st a).1.mCurrentTime = lastQueuedDts st.mCurrentTime (step k lib st a).2 := by
  cases a with
  | play speed =>
    show (play st speed).2.mCurrentTime = st.mCurrentTime
    unfold play
    split
    · rfl
    · split <;> rfl
  | previous =>
    show (previous st).2.mCurrentTime = st.mCurrentTime
    unfold previous
    split
    · rfl
    · split <;> rfl
  | next =>
    show (next st).2.mCurrentTime = st.mCurrentTime
    unfold next
    split <;> rfl
  | seek delta exact =>
    show (seek st delta exact).2.mCurrentTime = st.mCurrentTime
    unfold seek
    split
    · rfl
    · simp only
      unfold seekTo
      split <;> rfl
  | seekTo timestamp exact =>
    show (seekTo st timestamp exact).2.mCurrentTime = st.mCurrentTime
    unfold seekTo
    split <;> rfl
  | close =>
    show (close st).2.mCurrentTime = st.mCurrentTime
    unfold close
    split <;> rfl
  | setElementaryStreamDecoder esIndex decoder =>
    show (setElementaryStreamDecoder k st esIndex decoder).2.mCurrentTime = st.mCurrentTime
    unfold setElementaryStreamDecoder
    cases decoder with
    | none => rfl
    | some dec =>
      simp only
      split
      · rfl
      · split
        · rfl
        · split
          · rfl
          · split <;> rfl
  | tick inp =>
    show (tick k lib inp st).1.mCurrentTime = lastQueuedDts st.mCurrentTime (tick k lib inp st).2
    obtain ⟨mid, post, hmid, hpost, h⟩ := tick_shape k lib inp st
    have qmid : ∀ e ∈ mid, ∀ b r, e ≠ Event.queueBuffer b r := fun e he => (hmid e he).2
    have qpost : ∀ e ∈ post, ∀ b r, e ≠ Event.queueBuffer b r := fun e he => (hpost e he).2
    rcases h with ⟨ha, hb, _⟩ | ⟨b1, d, ha, hb, hc, hd, _, _, _⟩
    · rw [ha, hb, lastQueuedDts_append, lastQueuedDts_of_no_queue mid qmid,
        lastQueuedDts_of_no_queue post qpost]
    · rw [ha, hd, lastQueuedDts_append, lastQueuedDts_append,
        lastQueuedDts_of_no_queue mid qmid, lastQueuedDts_of_no_queue post qpost]
      simp only [lastQueuedDts, hb, hc]

/-- A sequence of actions leaves the current time at the timestamp of the last
buffer passed to `queue_buffer`, or as it was when no buffer was passed. -/
theorem run_currentTime_from (k : Defs) (lib : Libs) (acts : List Action) :
    ∀ st : RecordDemuxer,
      (run k lib st acts).1.mCurrentTime = lastQueuedDts st.mCurrentTime (run k lib st acts).2 := by
  induction acts with
  | nil => intro st; rfl
  | cons a rest ih =>
    intro st
    simp only [run]
    rw [lastQueuedDts_append, ← step_currentTime]
    exact ih _

set_option maxRecDepth 20000 in
/-- C18 as stated fails: on the opened sample demuxer, after a decoder is
attached and `play(1.0)`, the first tick reads the sample with dts 33333 and
`queue_buffer` fails; nothing has been appended to the decoder's queue, and
the current time is 33333, not 0. -/
theorem currentTime_after_failed_queue :
    (run sampleDefs sampleLibs openedDemuxer
      [Action.setElementaryStreamDecoder 0 (some ⟨2⟩), Action.play F32.one,
        Action.tick failedQueueInputs]).1.mCurrentTime = 33333 ∧
    appended (run sampleDefs sampleLibs openedDemuxer
      [Action.setElementaryStreamDecoder 0 (some ⟨2⟩), Action.play F32.one,
        Action.tick failedQueueInputs]).2 = [] ∧
    failedQueueInputs.queueRet < 0 ∧
    openedDemuxer.mCurrentTime = 0 := by
  refine ⟨?_, ?_, ?_, ?_⟩
  · rfl
  · rfl
  · decide
  · rfl

/-- C18, amended: in every state reached from a freshly constructed demuxer
by `open` and then any sequence of calls of the public interface and timer
ticks, the current time is the timestamp of the last sample passed to the
decoder's `queue_buffer`, whether that call succeeded or failed, and 0 when
no sample has been passed yet. -/
theorem run_currentTime (env : Env) (k : Defs) (lib : Libs) (peerMeta : VmetaSession)
    (fileName : String) (acts : List Action) :
    (run k lib (open_ env (new k peerMeta) fileName).2 acts).1.mCurrentTime =
      lastQueuedDts 0 (run k lib (open_ env (new k peerMeta) fileName).2 acts).2 := by
  have h := run_currentTime_from k lib acts (open_ env (new k peerMeta) fileName).2
  rw [open_currentTime] at h
  exact h


/-! ## The held buffer and the decoder's queue -/

/-- C19: the demuxer holds at most one buffer (`mCurrentBuffer`).  A tick
takes a buffer from the pool only when none is held at that point; and when
the tick passes a buffer to `queue_buffer`, then at the end of the tick no
buffer is held if the call succeeded, and that same buffer is held if the
call failed. -/
theorem tick_buffer (k : Defs) (lib : Libs) (inp : TickInputs) (st : RecordDemuxer) :
    (Event.poolGet ∈ (tick k lib inp st).2 → st.mCurrentBuffer = none) ∧
    (∀ (b : VBuf) (r : Int), Event.queueBuffer b r ∈ (tick k lib inp st).2 →
      r = inp.queueRet ∧
      (0 ≤ r → (tick k lib inp st).1.mCurrentBuffer = none) ∧
      (r < 0 → (tick k lib inp st).1.mCurrentBuffer = some b)) := by
  obtain ⟨mid, post, hmid, hpost, h⟩ := tick_shape k lib inp st
  rcases h with ⟨ha, _, _⟩ | ⟨b1, d, ha, _, _, _, _, _, hg⟩
  · rw [ha]
    constructor
    · intro hmem
      rcases List.mem_append.1 hmem with h | h
      · exact (hmid _ h).1 rfl
      · exact absurd rfl (hpost _ h).1
    · intro b r hmem
      rcases List.mem_append.1 hmem with h | h
      · exact absurd rfl ((hmid _ h).2 b r)
      · exact absurd rfl ((hpost _ h).2 b r)
  · rw [ha]
    constructor
    · intro hmem
      rcases List.mem_append.1 hmem with h | h
      · rcases List.mem_append.1 h with h | h
        · exact (hmid _ h).1 rfl
        · simp at h
      · exact absurd rfl (hpost _ h).1
    · intro b r hmem
      rcases List.mem_append.1 hmem with h | h
      · rcases List.mem_append.1 h with h | h
        · exact absurd rfl ((hmid _ h).2 b r)
        · simp only [List.mem_singleton, Event.queueBuffer.injEq] at h
          obtain ⟨hb, hr⟩ := h
          subst hb
          subst hr
          refine ⟨rfl, fun h0 => ?_, fun h0 => ?_⟩
          · rw [hg, if_neg (by omega)]
          · rw [hg, if_pos h0]
      · exact absurd rfl ((hpost _ h).2 b r)

set_option maxRecDepth 20000 in
/-- C19, instance: the first tick of the playing sample demuxer takes a buffer
from the pool, none being held, and its `queue_buffer` call succeeds; no
buffer is held afterwards. -/
theorem tick_buffer_witness :
    Event.poolGet ∈ (tick sampleDefs sampleLibs sampleInputs (play decodingDemuxer F32.one).2).2 ∧
    (play decodingDemuxer F32.one).2.mCurrentBuffer = none ∧
    Event.queueBuffer queuedSampleBuffer 0 ∈
      (tick sampleDefs sampleLibs sampleInputs (play decodingDemuxer F32.one).2).2 ∧
    (0 : Int) = sampleInputs.queueRet ∧
    ((0 : Int) ≤ 0 →
      (tick sampleDefs sampleLibs sampleInputs (play decodingDemuxer F32.one).2).1.mCurrentBuffer =
        none) ∧
    ((0 : Int) < 0 →
      (tick sampleDefs sampleLibs sampleInputs (play decodingDemuxer F32.one).2).1.mCurrentBuffer =
        some queuedSampleBuffer) :=
  ⟨by decide,
    (tick_buffer sampleDefs sampleLibs sampleInputs (play decodingDemuxer F32.one).2).1
      (by decide),
    by decide,
    (tick_buffer sampleDefs sampleLibs sampleInputs (play decodingDemuxer F32.one).2).2
      queuedSampleBuffer 0 (by decide)⟩

set_option maxRecDepth 20000 in
/-- C20 as stated fails: on the opened sample demuxer, after a decoder is
attached and `play(1.0)`, a tick at the end of the track reads a sample of
size 0: the demuxer is running at the entry and at the exit of the tick, no
retry is signalled (the timer is not re-armed), and nothing is appended to
the decoder's queue. -/
theorem tick_appends_nothing_at_end_of_track :
    (run sampleDefs sampleLibs openedDemuxer
      [Action.setElementaryStreamDecoder 0 (some ⟨2⟩), Action.play F32.one]).1 =
      (play decodingDemuxer F32.one).2 ∧
    (play decodingDemuxer F32.one).2.mRunning = true ∧
    (tick sampleDefs sampleLibs endOfTrackInputs (play decodingDemuxer F32.one).2).1.mRunning =
      true ∧
    (timerCbBody sampleDefs sampleLibs endOfTrackInputs
      { (play decodingDemuxer F32.one).2 with mTimer := ⟨none⟩ }).retry = false ∧
    (tick sampleDefs sampleLibs endOfTrackInputs (play decodingDemuxer F32.one).2).1.mTimer =
      ⟨none⟩ ∧
    (tick sampleDefs sampleLibs endOfTrackInputs (play decodingDemuxer F32.one).2).2 =
      [Event.decoderOpen 2 [0, 0, 0, 1, 0x67, 0x42] [0, 0, 0, 1, 0x68, 0xCE], Event.poolGet,
        Event.nextSample] ∧
    appended (tick sampleDefs sampleLibs endOfTrackInputs (play decodingDemuxer F32.one).2).2 =
      [] := by
  refine ⟨?_, ?_, ?_, ?_, ?_, ?_, ?_⟩ <;> rfl

/-- C20, amended: every tick appends at most one access unit to the decoder's
input queue, and none without a decoder or while not running.  A tick with a
decoder attached and running at its entry that signals no retry appends
exactly one access unit if and only if the sample it read is not empty, the
descriptor could be attached to the buffer and `queue_buffer` did not fail. -/
theorem tick_appended (k : Defs) (lib : Libs) (inp : TickInputs) (st : RecordDemuxer) :
    (appended (tick k lib inp st).2).length ≤ 1 ∧
    ((st.mDecoder = none ∨ st.mRunning = false) → appended (tick k lib inp st).2 = []) ∧
    (st.mDecoder ≠ none → st.mRunning = true →
      (timerCbBody k lib inp { st with mTimer := ⟨none⟩ }).retry = false →
      ((appended (tick k lib inp st).2).length = 1 ↔
        inp.sample.sample_size ≠ 0 ∧ inp.metadataAddOk = true ∧ 0 ≤ inp.queueRet)) := by
  rcases tick_spec k lib inp st with ⟨hg, h0, _⟩ | ⟨hg, _, _, _, _, post, h5, h6⟩
  · rw [h0]
    refine ⟨by simp [appended], fun _ => rfl, ?_⟩
    intro hdec hrun
    cases hd : st.mDecoder with
    | none => exact absurd hd hdec
    | some dec =>
      rw [hd, hrun] at hg
      simp at hg
  · have hidle : ¬ (st.mDecoder = none ∨ st.mRunning = false) := by
      intro h
      rcases h with h | h
      · rw [h] at hg
        simp at hg
      · rw [h] at hg
        simp at hg
    have qpost : ∀ e ∈ post, ∀ b r, e ≠ Event.queueBuffer b r := fun e he => (h6 e he).2
    obtain ⟨mid, hmid, hb⟩ := timerCbBody_spec k lib inp { st with mTimer := ⟨none⟩ }
    have qmid : ∀ e ∈ mid, ∀ b r, e ≠ Event.queueBuffer b r := fun e he => (hmid e he).2
    rcases hb with ⟨ra, rb, _, _⟩ | ⟨b1, d, ra, _, _, rd, re, rf, _, _, _, _⟩
    · have hnil : appended (tick k lib inp st).2 = [] := by
        rw [h5, ra, appended_append, appended_of_no_queue mid qmid,
          appended_of_no_queue post qpost]
        rfl
      rw [hnil]
      refine ⟨by simp, fun h => absurd h hidle, ?_⟩
      intro _ _ hretry
      constructor
      · intro h
        simp at h
      · intro h
        rcases rb with rb | rb | rb
        · rw [hretry] at rb
          exact absurd rb (by decide)
        · exact absurd rb h.1
        · rw [h.2.1] at rb
          exact absurd rb (by decide)
    · have happ : appended (tick k lib inp st).2 = if inp.queueRet < 0 then [] else [b1] := by
        rw [h5, ra, appended_append, appended_append, appended_of_no_queue mid qmid,
          appended_of_no_queue post qpost]
        simp only [appended, List.nil_append, List.append_nil]
      rw [happ]
      by_cases hq : inp.queueRet < 0
      · rw [if_pos hq]
        refine ⟨by simp, fun h => absurd h hidle, ?_⟩
        intro _ _ _
        constructor
        · intro h
          simp at h
        · intro h
          omega
      · rw [if_neg hq]
        refine ⟨by simp, fun h => absurd h hidle, ?_⟩
        intro _ _ _
        exact ⟨fun _ => ⟨re, rf, by omega⟩, fun _ => rfl⟩

set_option maxRecDepth 20000 in
/-- C20, instance of the amended statement: the first tick of the playing
sample demuxer appends one access unit. -/
theorem tick_appended_witness :
    (play decodingDemuxer F32.one).2.mDecoder ≠ none ∧
    (play decodingDemuxer F32.one).2.mRunning = true ∧
    (timerCbBody sampleDefs sampleLibs sampleInputs
      { (play decodingDemuxer F32.one).2 with mTimer := ⟨none⟩ }).retry = false ∧
    ((appended
        (tick sampleDefs sampleLibs sampleInputs (play decodingDemuxer F32.one).2).2).length = 1 ↔
      sampleInputs.sample.sample_size ≠ 0 ∧ sampleInputs.metadataAddOk = true ∧
        0 ≤ sampleInputs.queueRet) ∧
    appended (tick sampleDefs sampleLibs sampleInputs (play decodingDemuxer F32.one).2).2 =
      [queuedSampleBuffer] :=
  ⟨by decide, rfl, rfl,
    (tick_appended sampleDefs sampleLibs sampleInputs (play decodingDemuxer F32.one).2).2.2
      (by decide) rfl rfl,
    rfl⟩

end RecordDemuxer

/-! ## More machine integer facts -/

/-- The conversion to `int64_t` leaves a value of the range of `int64_t`
unchanged. -/
theorem toInt64_of_range (x : Int) (h1 : -2 ^ 63 ≤ x) (h2 : x < 2 ^ 63) : toInt64 x = x := by
  unfold toInt64
  omega

/-- The result of the conversion to `int64_t` is in the range of
`int64_t`. -/
theorem toInt64_range (x : Int) : -2 ^ 63 ≤ toInt64 x ∧ toInt64 x < 2 ^ 63 := by
  unfold toInt64
  omega

namespace RecordDemuxer

/-! ## The paths of the tick body -/

/-- A demuxer that holds the buffer `b` is not changed by storing `b` as the
held buffer. -/
theorem set_currentBuffer_self (st : RecordDemuxer) (b : VBuf)
    (h : st.mCurrentBuffer = some b) : st = { st with mCurrentBuffer := some b } := by
  cases st
  simp only at h
  subst h
  rfl

/-- The lazy configuration of the tick changes no member but `mDecoderSource`
and `mFirstFrame`. -/
theorem tickConfigure_frame (k : Defs) (inp : TickInputs) (st : RecordDemuxer) :
    (tickConfigure k inp st).1 =
      { st with
          mDecoderSource := (tickConfigure k inp st).1.mDecoderSource
          mFirstFrame := (tickConfigure k inp st).1.mFirstFrame } := by
  have hopen : (openAvcDecoder k inp st).2.1 =
      { st with mDecoderSource := (openAvcDecoder k inp st).2.1.mDecoderSource } := by
    unfold openAvcDecoder
    split
    · rfl
    · simp only
      split
      · rfl
      · split
        · rfl
        · split
          · rfl
          · split
            · rfl
            · split
              · rfl
              · split
                · rfl
                · split
                  · rfl
                  · split
                    · rfl
                    · split <;> rfl
  unfold tickConfigure
  split
  · simp only
    split
    · rw [hopen]
    · rw [hopen]
  · rfl

/-- The seek of the tick changes no member but `mLastFrameDuration` and
`mLastOutputError`, which it clears together when it carries out a seek with
success; it carries none out when no seek is pending. -/
theorem tickSeek_frame (inp : TickInputs) (st : RecordDemuxer) :
    ∃ done : Bool,
      (tickSeek inp st).1 =
        { st with
            mLastFrameDuration := if done then 0 else st.mLastFrameDuration
            mLastOutputError := if done then 0 else st.mLastOutputError } ∧
      (st.mPendingSeekTs < 0 → st.mPendingSeekToPrevSample = false → done = false) := by
  unfold tickSeek
  split
  · split
    · exact ⟨false, rfl, fun _ _ => rfl⟩
    · refine ⟨true, rfl, fun h _ => ?_⟩
      omega
  · split
    · split
      · exact ⟨false, rfl, fun _ _ => rfl⟩
      · refine ⟨true, rfl, fun _ h => ?_⟩
        rename_i h1 _ _
        rw [h] at h1
        exact absurd h1 (by decide)
    · exact ⟨false, rfl, fun _ _ => rfl⟩

/-- The user-data SEI callback, with a buffer held, changes no member but the
held buffer, and a buffer is held afterwards. -/
theorem h264UserDataSeiCb_frame (lib : Libs) (st : RecordDemuxer) (sei : SeiUserData)
    (b : VBuf) (h : st.mCurrentBuffer = some b) :
    ∃ b' : VBuf, h264UserDataSeiCb lib st sei = { st with mCurrentBuffer := some b' } := by
  have hself := set_currentBuffer_self st b h
  unfold h264UserDataSeiCb
  split
  · exact ⟨b, hself⟩
  · split
    · exact ⟨b, hself⟩
    · split
      · exact ⟨b, hself⟩
      · split
        · exact ⟨b, hself⟩
        · simp only
          split
          · exact ⟨_, rfl⟩
          · exact ⟨_, rfl⟩

/-- The user-data SEI callbacks of one SEI NAL unit, with a buffer held,
change no member but the held buffer, and a buffer is held afterwards. -/
theorem h264UserDataSeiCb_foldl_frame (lib : Libs) (seis : List SeiUserData) :
    ∀ (st : RecordDemuxer) (b : VBuf), st.mCurrentBuffer = some b →
      ∃ b' : VBuf,
        seis.foldl (h264UserDataSeiCb lib) st = { st with mCurrentBuffer := some b' } := by
  induction seis with
  | nil =>
    intro st b h
    exact ⟨b, set_currentBuffer_self st b h⟩
  | cons sei rest ih =>
    intro st b h
    obtain ⟨b1, h1⟩ := h264UserDataSeiCb_frame lib st sei b h
    obtain ⟨b2, h2⟩ := ih (h264UserDataSeiCb lib st sei) b1 (by rw [h1])
    refine ⟨b2, ?_⟩
    simp only [List.foldl_cons]
    rw [h2, h1]


/-- The end of the tick body when the descriptor cannot be attached: nothing
changes. -/
theorem tickQueue_of_no_descriptor (inp : TickInputs) (st : RecordDemuxer) (b : VBuf)
    (silent : Bool) (evs : List Event) (h : inp.metadataAddOk = false) :
    tickQueue inp st b silent evs = ⟨st, false, silent, inp.sample, inp.clock1, evs⟩ := by
  unfold tickQueue
  rw [h]
  rfl

/-- The end of the tick body when the descriptor is attached: the buffer is
queued with its descriptor, the current time is the timestamp of the sample,
the buffer stays held exactly when the call fails, and frame-by-frame play
stops on a sample that is not silent. -/
theorem tickQueue_of_descriptor (inp : TickInputs) (st : RecordDemuxer) (b : VBuf)
    (silent : Bool) (evs : List Event) (h : inp.metadataAddOk = true) :
    tickQueue inp st b silent evs =
      ⟨{ st with
          mCurrentTime := inp.sample.sample_dts
          mCurrentBuffer :=
            if inp.queueRet < 0 then
              some { b with
                inputBuffer := some ⟨true, false, true, silent, inp.sample.sample_dts,
                  inp.sample.sample_dts, inp.clock2, inp.hasMetadata, inp.clock2⟩ }
            else none
          mRunning := if (st.mFrameByFrame && !silent) = true then false else st.mRunning },
        false, silent, inp.sample, inp.clock2,
        evs ++ [Event.queueBuffer
          { b with
              inputBuffer := some ⟨true, false, true, silent, inp.sample.sample_dts,
                inp.sample.sample_dts, inp.clock2, inp.hasMetadata, inp.clock2⟩ }
          inp.queueRet]⟩ := by
  unfold tickQueue
  rw [h]
  by_cases hc : (st.mFrameByFrame && !silent) = true
  · simp only [hc, Bool.not_true, Bool.false_eq_true, if_false, if_true]
  · simp only [hc, Bool.not_true, Bool.false_eq_true, if_false]

/-- The user-data callbacks run for the remembered SEI, if any, with a buffer
held: no member changes but the held buffer, and a buffer is held
afterwards. -/
theorem seiStep_frame (lib : Libs) (st1 : RecordDemuxer) (b2 : VBuf)
    (h : st1.mCurrentBuffer = some b2) (sei : Option Nat) (c : Bool)
    (f : Nat → List SeiUserData) :
    ∃ b3 : VBuf,
      (match sei with
        | none => st1
        | some pos => if c = true then (f pos).foldl (h264UserDataSeiCb lib) st1 else st1) =
      { st1 with mCurrentBuffer := some b3 } := by
  cases sei with
  | none => exact ⟨b2, set_currentBuffer_self st1 b2 h⟩
  | some pos =>
    cases c with
    | false => exact ⟨b2, set_currentBuffer_self st1 b2 h⟩
    | true =>
      obtain ⟨b3, h3⟩ := h264UserDataSeiCb_foldl_frame lib (f pos) st1 b2 h
      exact ⟨b3, h3⟩

/-- The tick body from `vbuf_set_size` on, for a sample of non-zero size: the
pending seeks are cleared, the sample is silent when the container says so
during an exact seek, `mPendingSeekExact` becomes that value, and the rest is
the end of the body with the buffer left by the user-data callbacks. -/
theorem tickSample_eq (k : Defs) (lib : Libs) (inp : TickInputs) (st : RecordDemuxer)
    (b : VBuf) (evs : List Event) :
    ∃ b3 : VBuf,
      tickSample k lib inp st b evs =
        tickQueue inp
          { st with
              mPendingSeekTs := -1
              mPendingSeekToPrevSample := false
              mPendingSeekExact := (inp.sample.silent && st.mPendingSeekExact)
              mCurrentBuffer := some b3 }
          b3 (inp.sample.silent && st.mPendingSeekExact) evs := by
  have hs : ∀ a e : Bool, (if (a && e) = true then e else false) = (a && e) := by
    intro a e
    cases a <;> cases e <;> rfl
  have key : ∀ (st1 st2 : RecordDemuxer) (b3 : VBuf) (silent : Bool),
      st2 = { st1 with mCurrentBuffer := some b3 } →
      (match st2.mCurrentBuffer with
        | none => (⟨st2, false, silent, inp.sample, inp.clock1, evs⟩ : TickBody)
        | some b3 => tickQueue inp st2 b3 silent evs) =
      tickQueue inp { st1 with mCurrentBuffer := some b3 } b3 silent evs := by
    intro st1 st2 b3 silent h
    subst h
    rfl
  obtain ⟨b3, h3⟩ := seiStep_frame lib
    { st with
        mPendingSeekTs := -1
        mPendingSeekToPrevSample := false
        mPendingSeekExact := (inp.sample.silent && st.mPendingSeekExact)
        mCurrentBuffer := some
          { b with
              size := inp.sample.sample_size
              userdataSize := 0
              data := (nalScan
                (st.mDecoderBitstreamFormat == k.AVCDECODER_BITSTREAM_FORMAT_BYTE_STREAM)
                b.data inp.sample.sample_size).mem } }
    _ rfl
    (nalScan (st.mDecoderBitstreamFormat == k.AVCDECODER_BITSTREAM_FORMAT_BYTE_STREAM)
      b.data inp.sample.sample_size).sei
    ((nalScan (st.mDecoderBitstreamFormat == k.AVCDECODER_BITSTREAM_FORMAT_BYTE_STREAM)
      b.data inp.sample.sample_size).seiSize != 0)
    (fun pos => (inp.h264_reader_parse_nalu
      (((nalScan (st.mDecoderBitstreamFormat == k.AVCDECODER_BITSTREAM_FORMAT_BYTE_STREAM)
        b.data inp.sample.sample_size).mem.drop pos).take
        (nalScan (st.mDecoderBitstreamFormat == k.AVCDECODER_BITSTREAM_FORMAT_BYTE_STREAM)
          b.data inp.sample.sample_size).seiSize)).2)
  unfold tickSample
  simp only [hs]
  exact ⟨b3, key _ _ _ _ h3⟩


/-- The tick body from the seek on, with the buffer `b` held: the four ways it
ends.  The sample read fails and the tick asks for a retry; or the sample is
empty; or its descriptor cannot be attached; or the buffer is queued.  In
each case the demuxer, the local variables and the calls at the label `out`
are given; `done` tells whether the seek of this tick was carried out with
success. -/
theorem tickRead_path (k : Defs) (lib : Libs) (inp : TickInputs) (st : RecordDemuxer)
    (b : VBuf) (evs : List Event) :
    ∃ (done : Bool) (mid : List Event) (cb : Option VBuf) (B : VBuf),
      (∀ e ∈ mid, e ≠ Event.poolGet ∧ ∀ b r, e ≠ Event.queueBuffer b r) ∧
      Event.nextSample ∈ mid ∧
      (st.mPendingSeekTs < 0 → st.mPendingSeekToPrevSample = false → done = false) ∧
      ((inp.nextSampleRet ≠ 0 ∧
          tickRead k lib inp st b evs =
            ⟨{ st with
                mLastFrameDuration := if done then 0 else st.mLastFrameDuration
                mLastOutputError := if done then 0 else st.mLastOutputError },
              true, false, zeroSample, inp.clock1, evs ++ mid⟩) ∨
        (inp.nextSampleRet = 0 ∧ inp.sample.sample_size = 0 ∧
          tickRead k lib inp st b evs =
            ⟨{ st with
                mLastFrameDuration := if done then 0 else st.mLastFrameDuration
                mLastOutputError := if done then 0 else st.mLastOutputError
                mCurrentBuffer := cb },
              false, false, inp.sample, inp.clock1, evs ++ mid⟩) ∨
        (inp.nextSampleRet = 0 ∧ inp.sample.sample_size ≠ 0 ∧ inp.metadataAddOk = false ∧
          tickRead k lib inp st b evs =
            ⟨{ st with
                mLastFrameDuration := if done then 0 else st.mLastFrameDuration
                mLastOutputError := if done then 0 else st.mLastOutputError
                mPendingSeekTs := -1
                mPendingSeekToPrevSample := false
                mPendingSeekExact := (inp.sample.silent && st.mPendingSeekExact)
                mCurrentBuffer := cb },
              false, (inp.sample.silent && st.mPendingSeekExact), inp.sample, inp.clock1,
              evs ++ mid⟩) ∨
        (inp.nextSampleRet = 0 ∧ inp.sample.sample_size ≠ 0 ∧ inp.metadataAddOk = true ∧
          B.inputBuffer = some ⟨true, false, true, (inp.sample.silent && st.mPendingSeekExact),
            inp.sample.sample_dts, inp.sample.sample_dts, inp.clock2, inp.hasMetadata,
            inp.clock2⟩ ∧
          tickRead k lib inp st b evs =
            ⟨{ st with
                mLastFrameDuration := if done then 0 else st.mLastFrameDuration
                mLastOutputError := if done then 0 else st.mLastOutputError
                mPendingSeekTs := -1
                mPendingSeekToPrevSample := false
                mPendingSeekExact := (inp.sample.silent && st.mPendingSeekExact)
                mCurrentTime := inp.sample.sample_dts
                mCurrentBuffer := if inp.queueRet < 0 then some B else none
                mRunning :=
                  if (st.mFrameByFrame && !(inp.sample.silent && st.mPendingSeekExact)) = true
                  then false else st.mRunning },
              false, (inp.sample.silent && st.mPendingSeekExact), inp.sample, inp.clock2,
              evs ++ mid ++ [Event.queueBuffer B inp.queueRet]⟩)) := by
  have sk := tickSeek_spec inp st
  obtain ⟨done, hsk, hdone⟩ := tickSeek_frame inp st
  by_cases h : (inp.nextSampleRet != 0) = true
  · have hne : inp.nextSampleRet ≠ 0 := by simpa using h
    have e : tickRead k lib inp st b evs =
        ⟨(tickSeek inp st).1, true, false, zeroSample, inp.clock1,
          evs ++ ((tickSeek inp st).2 ++ [Event.nextSample] ++
            (if inp.nextSampleRet == -ENOBUFS then [Event.skipSample] else []))⟩ := by
      unfold tickRead
      simp only [h, if_true]
      split <;> simp only [List.append_assoc, List.append_nil]
    refine ⟨done, (tickSeek inp st).2 ++ [Event.nextSample] ++
        (if inp.nextSampleRet == -ENOBUFS then [Event.skipSample] else []), none, b, ?_, ?_,
      hdone, Or.inl ⟨hne, ?_⟩⟩
    · intro e he
      simp only [List.mem_append, List.mem_singleton] at he
      rcases he with (he | he) | he
      · exact sk.2.2.2.2 e he
      · subst he
        simp
      · split at he
        · simp only [List.mem_singleton] at he
          subst he
          simp
        · simp at he
    · simp
    · rw [e, hsk]
  · have heq : inp.nextSampleRet = 0 := by simpa using h
    have hmid : ∀ e ∈ (tickSeek inp st).2 ++ [Event.nextSample],
        e ≠ Event.poolGet ∧ ∀ b r, e ≠ Event.queueBuffer b r := by
      intro e he
      simp only [List.mem_append, List.mem_singleton] at he
      rcases he with he | he
      · exact sk.2.2.2.2 e he
      · subst he
        simp
    by_cases hz : (inp.sample.sample_size == 0) = true
    · have e : tickRead k lib inp st b evs =
          ⟨{ (tickSeek inp st).1 with
              mCurrentBuffer := some { b with data := memcpyAt b.data 0 inp.sampleData } },
            false, false, inp.sample, inp.clock1,
            evs ++ ((tickSeek inp st).2 ++ [Event.nextSample])⟩ := by
        unfold tickRead
        simp only [h, hz, Bool.false_eq_true, if_true, if_false, List.append_assoc]
      refine ⟨done, (tickSeek inp st).2 ++ [Event.nextSample],
        some { b with data := memcpyAt b.data 0 inp.sampleData }, b, hmid, by simp, hdone,
        Or.inr (Or.inl ⟨heq, by simpa using hz, ?_⟩)⟩
      rw [e, hsk]
    · have hsz : inp.sample.sample_size ≠ 0 := by simpa using hz
      have e : tickRead k lib inp st b evs =
          tickSample k lib inp
            { (tickSeek inp st).1 with
              mCurrentBuffer := some { b with data := memcpyAt b.data 0 inp.sampleData } }
            { b with data := memcpyAt b.data 0 inp.sampleData }
            (evs ++ ((tickSeek inp st).2 ++ [Event.nextSample])) := by
        unfold tickRead
        simp only [h, hz, Bool.false_eq_true, if_false, List.append_assoc]
      obtain ⟨b3, h3⟩ := tickSample_eq k lib inp
        { (tickSeek inp st).1 with
          mCurrentBuffer := some { b with data := memcpyAt b.data 0 inp.sampleData } }
        { b with data := memcpyAt b.data 0 inp.sampleData }
        (evs ++ ((tickSeek inp st).2 ++ [Event.nextSample]))
      cases hm : inp.metadataAddOk with
      | false =>
        refine ⟨done, (tickSeek inp st).2 ++ [Event.nextSample], some b3, b, hmid, by simp,
          hdone, Or.inr (Or.inr (Or.inl ⟨heq, hsz, rfl, ?_⟩))⟩
        rw [e, h3, tickQueue_of_no_descriptor _ _ _ _ _ hm, hsk]
      | true =>
        refine ⟨done, (tickSeek inp st).2 ++ [Event.nextSample], none,
          { b3 with
              inputBuffer := some ⟨true, false, true,
                (inp.sample.silent && st.mPendingSeekExact),
                inp.sample.sample_dts, inp.sample.sample_dts, inp.clock2, inp.hasMetadata,
                inp.clock2⟩ },
          hmid, by simp, hdone, Or.inr (Or.inr (Or.inr ⟨heq, hsz, rfl, rfl, ?_⟩))⟩
        rw [e, h3, tickQueue_of_descriptor _ _ _ _ _ hm, hsk]


/-- The whole tick body, after the lazy configuration has left the demuxer
`(tickConfigure k inp st).1`: the four ways it ends.  The tick asks for a
retry (no pool, no buffer, or the sample read fails); or the sample is empty;
or its descriptor cannot be attached; or the buffer is queued.  In each case
the demuxer, the local variables and the calls at the label `out` are given;
`done` tells whether the seek of this tick was carried out with success. -/
theorem timerCbBody_path (k : Defs) (lib : Libs) (inp : TickInputs) (st : RecordDemuxer) :
    ∃ (done : Bool) (mid : List Event) (cb : Option VBuf) (B : VBuf),
      (∀ e ∈ mid, (e = Event.poolGet → st.mCurrentBuffer = none) ∧
        ∀ b r, e ≠ Event.queueBuffer b r) ∧
      (st.mPendingSeekTs < 0 → st.mPendingSeekToPrevSample = false → done = false) ∧
      (((inp.nextSampleRet ≠ 0 ∨ Event.nextSample ∉ mid) ∧
          timerCbBody k lib inp st =
            ⟨{ (tickConfigure k inp st).1 with
                mLastFrameDuration :=
                  if done then 0 else (tickConfigure k inp st).1.mLastFrameDuration
                mLastOutputError :=
                  if done then 0 else (tickConfigure k inp st).1.mLastOutputError
                mCurrentBuffer := cb },
              true, false, zeroSample, inp.clock1, mid⟩) ∨
        (inp.nextSampleRet = 0 ∧ inp.sample.sample_size = 0 ∧ Event.nextSample ∈ mid ∧
          timerCbBody k lib inp st =
            ⟨{ (tickConfigure k inp st).1 with
                mLastFrameDuration :=
                  if done then 0 else (tickConfigure k inp st).1.mLastFrameDuration
                mLastOutputError :=
                  if done then 0 else (tickConfigure k inp st).1.mLastOutputError
                mCurrentBuffer := cb },
              false, false, inp.sample, inp.clock1, mid⟩) ∨
        (inp.nextSampleRet = 0 ∧ inp.sample.sample_size ≠ 0 ∧ inp.metadataAddOk = false ∧
          Event.nextSample ∈ mid ∧
          timerCbBody k lib inp st =
            ⟨{ (tickConfigure k inp st).1 with
                mLastFrameDuration :=
                  if done then 0 else (tickConfigure k inp st).1.mLastFrameDuration
                mLastOutputError :=
                  if done then 0 else (tickConfigure k inp st).1.mLastOutputError
                mPendingSeekTs := -1
                mPendingSeekToPrevSample := false
                mPendingSeekExact :=
                  (inp.sample.silent && (tickConfigure k inp st).1.mPendingSeekExact)
                mCurrentBuffer := cb },
              false, (inp.sample.silent && (tickConfigure k inp st).1.mPendingSeekExact),
              inp.sample, inp.clock1, mid⟩) ∨
        (inp.nextSampleRet = 0 ∧ inp.sample.sample_size ≠ 0 ∧ inp.metadataAddOk = true ∧
          Event.nextSample ∈ mid ∧
          B.inputBuffer = some ⟨true, false, true,
            (inp.sample.silent && (tickConfigure k inp st).1.mPendingSeekExact),
            inp.sample.sample_dts, inp.sample.sample_dts, inp.clock2, inp.hasMetadata,
            inp.clock2⟩ ∧
          timerCbBody k lib inp st =
            ⟨{ (tickConfigure k inp st).1 with
                mLastFrameDuration :=
                  if done then 0 else (tickConfigure k inp st).1.mLastFrameDuration
                mLastOutputError :=
                  if done then 0 else (tickConfigure k inp st).1.mLastOutputError
                mPendingSeekTs := -1
                mPendingSeekToPrevSample := false
                mPendingSeekExact :=
                  (inp.sample.silent && (tickConfigure k inp st).1.mPendingSeekExact)
                mCurrentTime := inp.sample.sample_dts
                mCurrentBuffer := if inp.queueRet < 0 then some B else none
                mRunning :=
                  if ((tickConfigure k inp st).1.mFrameByFrame &&
                      !(inp.sample.silent && (tickConfigure k inp st).1.mPendingSeekExact)) = true
                  then false else (tickConfigure k inp st).1.mRunning },
              false, (inp.sample.silent && (tickConfigure k inp st).1.mPendingSeekExact),
              inp.sample, inp.clock2, mid ++ [Event.queueBuffer B inp.queueRet]⟩)) := by
  have c := tickConfigure_spec k inp st
  have hquiet : ∀ (X : Prop), ∀ e ∈ (tickConfigure k inp st).2,
      (e = Event.poolGet → X) ∧ ∀ b r, e ≠ Event.queueBuffer b r :=
    fun X e he => ⟨fun h => absurd h (c.2.2.2.2 e he).1, (c.2.2.2.2 e he).2⟩
  have hnext : Event.nextSample ∉ (tickConfigure k inp st).2 := by
    intro hmem
    have hq := c.2.2.2.2 _ hmem
    unfold tickConfigure at hmem
    split at hmem
    · have he : ∀ e ∈ (openAvcDecoder k inp st).2.2, e ≠ Event.nextSample := by
        intro e he
        unfold openAvcDecoder at he
        split at he
        · simp at he
        · simp only at he
          split at he
          · simp at he
          · split at he
            · simp at he
            · split at he
              · simp at he
              · split at he
                · simp at he
                · split at he
                  · simp at he
                  · split at he
                    · simp at he
                    · split at he
                      · simp at he
                      · split at he
                        · simp only [List.mem_singleton] at he
                          subst he
                          simp
                        · split at he <;>
                          · simp only [List.mem_singleton] at he
                            subst he
                            simp
      simp only at hmem
      split at hmem
      · exact he _ hmem rfl
      · exact he _ hmem rfl
    · simp at hmem
  have hcases :
      (∃ (cb : Option VBuf) (evs : List Event), Event.nextSample ∉ evs ∧
        (∀ e ∈ evs, (e = Event.poolGet → st.mCurrentBuffer = none) ∧
          ∀ b r, e ≠ Event.queueBuffer b r) ∧
        timerCbBody k lib inp st =
          ⟨{ (tickConfigure k inp st).1 with mCurrentBuffer := cb }, true, false, zeroSample,
            inp.clock1, evs⟩) ∨
      (∃ (b : VBuf) (evs : List Event),
        (∀ e ∈ evs, (e = Event.poolGet → st.mCurrentBuffer = none) ∧
          ∀ b r, e ≠ Event.queueBuffer b r) ∧
        timerCbBody k lib inp st =
          tickRead k lib inp { (tickConfigure k inp st).1 with mCurrentBuffer := some b } b
            evs) := by
    by_cases hp : (tickConfigure k inp st).1.mDecoderSource.pool.isNone = true
    · have e : timerCbBody k lib inp st =
          ⟨(tickConfigure k inp st).1, true, false, zeroSample, inp.clock1,
            (tickConfigure k inp st).2⟩ := by
        unfold timerCbBody
        simp only [hp, if_true]
      exact Or.inl ⟨(tickConfigure k inp st).1.mCurrentBuffer, _, hnext, hquiet _, e⟩
    · cases hb : (tickConfigure k inp st).1.mCurrentBuffer with
      | some b =>
        have e : timerCbBody k lib inp st =
            tickRead k lib inp (tickConfigure k inp st).1 b (tickConfigure k inp st).2 := by
          unfold timerCbBody
          simp only [hp, hb, Bool.false_eq_true, if_false]
        rw [set_currentBuffer_self _ b hb] at e
        exact Or.inr ⟨b, _, hquiet _, e⟩
      | none =>
        have hnone : st.mCurrentBuffer = none := c.2.2.2.1.symm.trans hb
        have hevs : ∀ e ∈ (tickConfigure k inp st).2 ++ [Event.poolGet],
            (e = Event.poolGet → st.mCurrentBuffer = none) ∧
              ∀ b r, e ≠ Event.queueBuffer b r := by
          intro x hx
          rcases List.mem_append.1 hx with hx | hx
          · exact hquiet _ x hx
          · simp only [List.mem_singleton] at hx
            subst hx
            exact ⟨fun _ => hnone, by simp⟩
        have hnext' : Event.nextSample ∉ (tickConfigure k inp st).2 ++ [Event.poolGet] := by
          intro hmem
          rcases List.mem_append.1 hmem with hx | hx
          · exact hnext hx
          · simp at hx
        by_cases hr : inp.poolGetRet < 0
        · have e : timerCbBody k lib inp st =
              ⟨{ (tickConfigure k inp st).1 with mCurrentBuffer := inp.poolGetBuffer }, true,
                false, zeroSample, inp.clock1,
                (tickConfigure k inp st).2 ++ [Event.poolGet]⟩ := by
            unfold timerCbBody
            simp only [hp, hb, hr, Bool.false_eq_true, if_false, if_true]
          exact Or.inl ⟨inp.poolGetBuffer, _, hnext', hevs, e⟩
        · cases hg : inp.poolGetBuffer with
          | none =>
            have e : timerCbBody k lib inp st =
                ⟨{ (tickConfigure k inp st).1 with mCurrentBuffer := none }, true, false,
                  zeroSample, inp.clock1, (tickConfigure k inp st).2 ++ [Event.poolGet]⟩ := by
              unfold timerCbBody
              simp only [hp, hb, hr, hg, Bool.false_eq_true, if_false]
            exact Or.inl ⟨none, _, hnext', hevs, e⟩
          | some b =>
            have e : timerCbBody k lib inp st =
                tickRead k lib inp { (tickConfigure k inp st).1 with mCurrentBuffer := some b }
                  b ((tickConfigure k inp st).2 ++ [Event.poolGet]) := by
              unfold timerCbBody
              simp only [hp, hb, hr, hg, Bool.false_eq_true, if_false]
            exact Or.inr ⟨b, _, hevs, e⟩
  rcases hcases with ⟨cb, evs, hn, hevs, e⟩ | ⟨b, evs, hevs, e⟩
  · exact ⟨false, evs, cb, ⟨[], 0, 0, [], 0, 0, none⟩, hevs, fun _ _ => rfl, Or.inl ⟨Or.inr hn, e⟩⟩
  · obtain ⟨done, mid, cb, B, hmid, hns, hdone, hr⟩ :=
      tickRead_path k lib inp { (tickConfigure k inp st).1 with mCurrentBuffer := some b } b evs
    have hmid' : ∀ x ∈ evs ++ mid, (x = Event.poolGet → st.mCurrentBuffer = none) ∧
        ∀ b r, x ≠ Event.queueBuffer b r := by
      intro x hx
      rcases List.mem_append.1 hx with hx | hx
      · exact hevs x hx
      · exact ⟨fun h => absurd h (hmid x hx).1, (hmid x hx).2⟩
    have hns' : Event.nextSample ∈ evs ++ mid := List.mem_append.2 (Or.inr hns)
    have hdone' : st.mPendingSeekTs < 0 → st.mPendingSeekToPrevSample = false →
        done = false := by
      intro h1 h2
      apply hdone
      · show (tickConfigure k inp st).1.mPendingSeekTs < 0
        rw [c.1]
        exact h1
      · show (tickConfigure k inp st).1.mPendingSeekToPrevSample = false
        rw [c.2.1]
        exact h2
    rw [← e] at hr
    rcases hr with ⟨r1, r2⟩ | ⟨r1, r2, r3⟩ | ⟨r1, r2, r3, r4⟩ | ⟨r1, r2, r3, r4, r5⟩
    · exact ⟨done, evs ++ mid, some b, B, hmid', hdone', Or.inl ⟨Or.inl r1, r2⟩⟩
    · exact ⟨done, evs ++ mid, cb, B, hmid', hdone', Or.inr (Or.inl ⟨r1, r2, hns', r3⟩)⟩
    · exact ⟨done, evs ++ mid, cb, B, hmid', hdone',
        Or.inr (Or.inr (Or.inl ⟨r1, r2, r3, hns', r4⟩))⟩
    · exact ⟨done, evs ++ mid, cb, B, hmid', hdone',
        Or.inr (Or.inr (Or.inr ⟨r1, r2, r3, hns', r4, r5⟩))⟩


/-! ## The tick at the label `out` -/

/-- A tick with a decoder attached and running is the pacing part of the
callback applied to the tick body. -/
theorem tick_eq_out (k : Defs) (lib : Libs) (inp : TickInputs) (st : RecordDemuxer)
    (hdec : st.mDecoder ≠ none) (hrun : st.mRunning = true) :
    tick k lib inp st = timerCbOut lib inp st.mSpeed (tickBody k lib inp st) := by
  have hg : (st.mDecoder.isNone || !st.mRunning) = false := by
    cases hd : st.mDecoder with
    | none => exact absurd hd hdec
    | some d => simp [hrun]
  unfold tick timerCb tickBody
  simp only [hg, Bool.false_eq_true, if_false]

/-- A tick without a decoder or while not running only disarms the timer and
clears `mLastFrameDuration` and `mLastOutputError`. -/
theorem tick_of_guard (k : Defs) (lib : Libs) (inp : TickInputs) (st : RecordDemuxer)
    (h : st.mDecoder = none ∨ st.mRunning = false) :
    tick k lib inp st =
      ({ st with mTimer := ⟨none⟩, mLastFrameDuration := 0, mLastOutputError := 0 }, []) := by
  have hg : (st.mDecoder.isNone || !st.mRunning) = true := by
    rcases h with h | h
    · simp [h]
    · simp [h]
  unfold tick timerCb
  simp only [hg, if_true]

/-- The pacing part of a tick that asks for a retry: the timer is armed at
5 ms, nothing else changes. -/
theorem timerCbOut_of_retry (lib : Libs) (inp : TickInputs) (speed : F32) (body : TickBody)
    (h : body.retry = true) :
    timerCbOut lib inp speed body =
      ({ body.st with mTimer := ⟨some 5⟩ }, body.events) := by
  unfold timerCbOut
  simp only [h, if_true]
  rfl

/-- The pacing part of a tick that asks for no retry and is not running at the
label `out`. -/
theorem timerCbOut_of_stopped (lib : Libs) (inp : TickInputs) (speed : F32) (body : TickBody)
    (h : body.retry = false) (hrun : body.st.mRunning = false) :
    timerCbOut lib inp speed body =
      ({ body.st with
           mLastFrameOutputTime := body.curTime
           mLastFrameDuration := 0
           mLastOutputError := 0 },
        body.events) := by
  unfold timerCbOut
  simp only [h, hrun, Bool.false_eq_true, if_false]

/-- The pacing part of a tick that asks for no retry and is running at the
label `out`. -/
theorem timerCbOut_of_running (lib : Libs) (inp : TickInputs) (speed : F32) (body : TickBody)
    (h : body.retry = false) (hrun : body.st.mRunning = true) :
    timerCbOut lib inp speed body =
      ({ body.st with
           mAvgOutputInterval := avgOutputInterval body.st body.curTime
           mLastFrameOutputTime := body.curTime
           mLastFrameDuration :=
             (sampleDuration lib inp speed body.sample body.silent
               (outputError lib speed body.st body.silent body.curTime)
               (avgOutputInterval body.st body.curTime)).duration
           mLastOutputError := outputError lib speed body.st body.silent body.curTime
           mTimer :=
             if waitMs (sampleDuration lib inp speed body.sample body.silent
                 (outputError lib speed body.st body.silent body.curTime)
                 (avgOutputInterval body.st body.curTime))
                 (outputError lib speed body.st body.silent body.curTime) > 0 then
               ⟨some (waitMs (sampleDuration lib inp speed body.sample body.silent
                 (outputError lib speed body.st body.silent body.curTime)
                 (avgOutputInterval body.st body.curTime))
                 (outputError lib speed body.st body.silent body.curTime))⟩
             else body.st.mTimer },
        body.events ++
          (sampleDuration lib inp speed body.sample body.silent
            (outputError lib speed body.st body.silent body.curTime)
            (avgOutputInterval body.st body.curTime)).events) := by
  unfold timerCbOut
  simp only [h, hrun, Bool.false_eq_true, if_false, if_true]
  rfl

/-- The lazy configuration of the tick leaves every member but
`mDecoderSource` and `mFirstFrame` as it was. -/
theorem tickConfigure_keeps (k : Defs) (inp : TickInputs) (st : RecordDemuxer) :
    (tickConfigure k inp st).1.mConfigured = st.mConfigured ∧
    (tickConfigure k inp st).1.mTimer = st.mTimer ∧
    (tickConfigure k inp st).1.mRunning = st.mRunning ∧
    (tickConfigure k inp st).1.mFrameByFrame = st.mFrameByFrame ∧
    (tickConfigure k inp st).1.mDecoder = st.mDecoder ∧
    (tickConfigure k inp st).1.mAvgOutputInterval = st.mAvgOutputInterval ∧
    (tickConfigure k inp st).1.mLastFrameOutputTime = st.mLastFrameOutputTime ∧
    (tickConfigure k inp st).1.mLastFrameDuration = st.mLastFrameDuration ∧
    (tickConfigure k inp st).1.mLastOutputError = st.mLastOutputError ∧
    (tickConfigure k inp st).1.mPendingSeekExact = st.mPendingSeekExact ∧
    (tickConfigure k inp st).1.mSpeed = st.mSpeed := by
  have h := tickConfigure_frame k inp st
  refine ⟨?_, ?_, ?_, ?_, ?_, ?_, ?_, ?_, ?_, ?_, ?_⟩ <;> rw [h]


/-- The local variables of a tick at the label `out`, in terms of the demuxer
at the entry of the tick: the four ways the body ends.  `src` and `ff` are
`mDecoderSource` and `mFirstFrame` after the lazy configuration, `done` tells
whether the seek of this tick was carried out with success, `mid` are the
calls other than `queue_buffer`. -/
theorem tickBody_path (k : Defs) (lib : Libs) (inp : TickInputs) (st : RecordDemuxer) :
    ∃ (src : DecoderSource) (ff : Bool) (done : Bool) (mid : List Event) (cb : Option VBuf)
      (B : VBuf),
      (tickConfigure k inp { st with mTimer := ⟨none⟩ }).1.mDecoderSource = src ∧
      (tickConfigure k inp { st with mTimer := ⟨none⟩ }).1.mFirstFrame = ff ∧
      (∀ e ∈ mid, (e = Event.poolGet → st.mCurrentBuffer = none) ∧
        ∀ b r, e ≠ Event.queueBuffer b r) ∧
      (st.mPendingSeekTs < 0 → st.mPendingSeekToPrevSample = false → done = false) ∧
      (((inp.nextSampleRet ≠ 0 ∨ Event.nextSample ∉ mid) ∧
          tickBody k lib inp st =
            ⟨{ st with
                mTimer := ⟨none⟩
                mDecoderSource := src
                mFirstFrame := ff
                mLastFrameDuration := if done then 0 else st.mLastFrameDuration
                mLastOutputError := if done then 0 else st.mLastOutputError
                mCurrentBuffer := cb },
              true, false, zeroSample, inp.clock1, mid⟩) ∨
        (inp.nextSampleRet = 0 ∧ inp.sample.sample_size = 0 ∧ Event.nextSample ∈ mid ∧
          tickBody k lib inp st =
            ⟨{ st with
                mTimer := ⟨none⟩
                mDecoderSource := src
                mFirstFrame := ff
                mLastFrameDuration := if done then 0 else st.mLastFrameDuration
                mLastOutputError := if done then 0 else st.mLastOutputError
                mCurrentBuffer := cb },
              false, false, inp.sample, inp.clock1, mid⟩) ∨
        (inp.nextSampleRet = 0 ∧ inp.sample.sample_size ≠ 0 ∧ inp.metadataAddOk = false ∧
          Event.nextSample ∈ mid ∧
          tickBody k lib inp st =
            ⟨{ st with
                mTimer := ⟨none⟩
                mDecoderSource := src
                mFirstFrame := ff
                mLastFrameDuration := if done then 0 else st.mLastFrameDuration
                mLastOutputError := if done then 0 else st.mLastOutputError
                mPendingSeekTs := -1
                mPendingSeekToPrevSample := false
                mPendingSeekExact := (inp.sample.silent && st.mPendingSeekExact)
                mCurrentBuffer := cb },
              false, (inp.sample.silent && st.mPendingSeekExact), inp.sample, inp.clock1,
              mid⟩) ∨
        (inp.nextSampleRet = 0 ∧ inp.sample.sample_size ≠ 0 ∧ inp.metadataAddOk = true ∧
          Event.nextSample ∈ mid ∧
          B.inputBuffer = some ⟨true, false, true, (inp.sample.silent && st.mPendingSeekExact),
            inp.sample.sample_dts, inp.sample.sample_dts, inp.clock2, inp.hasMetadata,
            inp.clock2⟩ ∧
          tickBody k lib inp st =
            ⟨{ st with
                mTimer := ⟨none⟩
                mDecoderSource := src
                mFirstFrame := ff
                mLastFrameDuration := if done then 0 else st.mLastFrameDuration
                mLastOutputError := if done then 0 else st.mLastOutputError
                mPendingSeekTs := -1
                mPendingSeekToPrevSample := false
                mPendingSeekExact := (inp.sample.silent && st.mPendingSeekExact)
                mCurrentTime := inp.sample.sample_dts
                mCurrentBuffer := if inp.queueRet < 0 then some B else none
                mRunning :=
                  if (st.mFrameByFrame && !(inp.sample.silent && st.mPendingSeekExact)) = true
                  then false else st.mRunning },
              false, (inp.sample.silent && st.mPendingSeekExact), inp.sample, inp.clock2,
              mid ++ [Event.queueBuffer B inp.queueRet]⟩)) := by
  obtain ⟨src, ff, hX⟩ :
      ∃ (src : DecoderSource) (ff : Bool),
        (tickConfigure k inp { st with mTimer := ⟨none⟩ }).1 =
          { st with mTimer := ⟨none⟩, mDecoderSource := src, mFirstFrame := ff } :=
    ⟨_, _, tickConfigure_frame k inp { st with mTimer := ⟨none⟩ }⟩
  obtain ⟨done, mid, cb, B, hmid, hdone, hpath⟩ :=
    timerCbBody_path k lib inp { st with mTimer := ⟨none⟩ }
  refine ⟨src, ff, done, mid, cb, B, by rw [hX], by rw [hX], hmid, hdone, ?_⟩
  unfold tickBody
  rw [hX] at hpath
  exact hpath


/-! ## Pacing -/

/-- At maximum speed, for a silent sample or without a next sample the
duration is 0 and no catch-up seek is made. -/
theorem sampleDuration_of_zero (lib : Libs) (inp : TickInputs) (speed : F32)
    (sample : Mp4TrackSample) (silent : Bool) (error avg : Int)
    (h : speed.ge lib.PDRAW_PLAY_SPEED_MAX = true ∨ sample.next_sample_dts = 0 ∨ silent = true) :
    sampleDuration lib inp speed sample silent error avg = ⟨0, sample.next_sample_dts, []⟩ := by
  have hc : (speed.ge lib.PDRAW_PLAY_SPEED_MAX || sample.next_sample_dts == 0 || silent) = true := by
    rcases h with h | h | h
    · simp [h]
    · simp [h]
    · simp [h]
  unfold sampleDuration
  simp only [hc, if_true]

/-- At maximum speed or for a silent sample the error is 0. -/
theorem outputError_of_zero (lib : Libs) (speed : F32) (st : RecordDemuxer) (silent : Bool)
    (curTime : Nat)
    (h : st.mLastFrameOutputTime = 0 ∨ st.mLastFrameDuration = 0 ∨ speed.isZero = true ∨
      speed.ge lib.PDRAW_PLAY_SPEED_MAX = true ∨ silent = true) :
    outputError lib speed st silent curTime = 0 := by
  have hc : (st.mLastFrameOutputTime == 0 || st.mLastFrameDuration == 0 || speed.isZero ||
      speed.ge lib.PDRAW_PLAY_SPEED_MAX || silent) = true := by
    rcases h with h | h | h | h | h
    · simp [h]
    · simp [h]
    · simp [h]
    · simp [h]
    · simp [h]
  unfold outputError
  simp only [hc, if_true]

/-- With duration 0 and error 0 the delay is 1 ms when there is a next sample
and the timer is not armed otherwise. -/
theorem waitMs_of_zero (next : Nat) (evs : List Event) :
    waitMs ⟨0, next, evs⟩ 0 = if next = 0 then 0 else 1 := by
  unfold waitMs
  by_cases h : next = 0
  · simp [h]
  · have hb : (next != 0) = true := by simpa using h
    simp only [hb, if_true, h, if_false]
    rfl


/-- The local variables at the label `out` of a tick that asks for no retry:
the sample is the one read in the tick, and the timer, the speed and the
pacing members other than `mLastFrameDuration` and `mLastOutputError` are
those of the entry, the timer being disarmed. -/
theorem tickBody_keeps (k : Defs) (lib : Libs) (inp : TickInputs) (st : RecordDemuxer) :
    (tickBody k lib inp st).st.mTimer = ⟨none⟩ ∧
    (tickBody k lib inp st).st.mSpeed = st.mSpeed ∧
    (tickBody k lib inp st).st.mConfigured = st.mConfigured ∧
    (tickBody k lib inp st).st.mDecoder = st.mDecoder ∧
    (tickBody k lib inp st).st.mFrameByFrame = st.mFrameByFrame ∧
    (tickBody k lib inp st).st.mAvgOutputInterval = st.mAvgOutputInterval ∧
    (tickBody k lib inp st).st.mLastFrameOutputTime = st.mLastFrameOutputTime ∧
    ((tickBody k lib inp st).retry = false → (tickBody k lib inp st).sample = inp.sample) := by
  obtain ⟨src, ff, done, mid, cb, B, _, _, _, _, hp⟩ := tickBody_path k lib inp st
  rcases hp with ⟨_, hb⟩ | ⟨_, _, _, hb⟩ | ⟨_, _, _, _, hb⟩ | ⟨_, _, _, _, _, hb⟩
  · rw [hb]
    exact ⟨rfl, rfl, rfl, rfl, rfl, rfl, rfl, fun h => Bool.noConfusion h⟩
  · rw [hb]
    exact ⟨rfl, rfl, rfl, rfl, rfl, rfl, rfl, fun _ => rfl⟩
  · rw [hb]
    exact ⟨rfl, rfl, rfl, rfl, rfl, rfl, rfl, fun _ => rfl⟩
  · rw [hb]
    exact ⟨rfl, rfl, rfl, rfl, rfl, rfl, rfl, fun _ => rfl⟩

/-- C24: a tick entered with no decoder attached or while not running makes
no call at all (nothing is read, acquired or submitted), leaves the timer
disarmed, sets `mLastFrameDuration` and `mLastOutputError` to 0 and changes
no other member; and after `play(0)` on a configured demuxer the demuxer is
not running, so that this is what every tick does until another call. -/
theorem tick_idle (k : Defs) (lib : Libs) (inp : TickInputs) (st : RecordDemuxer)
    (h : st.mDecoder = none ∨ st.mRunning = false) :
    (tick k lib inp st).2 = [] ∧
    (tick k lib inp st).1 =
      { st with mTimer := ⟨none⟩, mLastFrameDuration := 0, mLastOutputError := 0 } ∧
    (tick k lib inp st).1.mTimer = ⟨none⟩ ∧
    (tick k lib inp st).1.mLastFrameDuration = 0 ∧
    (tick k lib inp st).1.mLastOutputError = 0 ∧
    (tick k lib inp st).1.mLastFrameOutputTime = st.mLastFrameOutputTime ∧
    (tick k lib inp st).1.mAvgOutputInterval = st.mAvgOutputInterval ∧
    (tick k lib inp st).1.mPendingSeekTs = st.mPendingSeekTs ∧
    (tick k lib inp st).1.mPendingSeekExact = st.mPendingSeekExact ∧
    (tick k lib inp st).1.mPendingSeekToPrevSample = st.mPendingSeekToPrevSample ∧
    (tick k lib inp st).1.mCurrentTime = st.mCurrentTime ∧
    (tick k lib inp st).1.mRunning = st.mRunning ∧
    (∀ (st0 : RecordDemuxer) (speed : F32), st0.mConfigured = true → speed.isZero = true →
      (play st0 speed).2.mRunning = false) := by
  rw [tick_of_guard k lib inp st h]
  refine ⟨rfl, rfl, rfl, rfl, rfl, rfl, rfl, rfl, rfl, rfl, rfl, rfl, ?_⟩
  intro st0 speed hc hz
  unfold play
  simp only [hc, hz, Bool.not_true, Bool.false_eq_true, if_false, if_true]

/-- C24, instance: the tick that follows `play(0)` on the sample demuxer with
a decoder attached. -/
theorem tick_idle_witness :
    ((play decodingDemuxer F32.zero).2.mDecoder = none ∨
      (play decodingDemuxer F32.zero).2.mRunning = false) ∧
    (tick sampleDefs sampleLibs sampleInputs (play decodingDemuxer F32.zero).2).2 = [] ∧
    (tick sampleDefs sampleLibs sampleInputs (play decodingDemuxer F32.zero).2).1 =
      { (play decodingDemuxer F32.zero).2 with
          mTimer := ⟨none⟩, mLastFrameDuration := 0, mLastOutputError := 0 } ∧
    (tick sampleDefs sampleLibs sampleInputs (play decodingDemuxer F32.zero).2).1.mTimer =
      ⟨none⟩ ∧
    (tick sampleDefs sampleLibs sampleInputs
      (play decodingDemuxer F32.zero).2).1.mLastFrameDuration = 0 ∧
    (tick sampleDefs sampleLibs sampleInputs
      (play decodingDemuxer F32.zero).2).1.mLastOutputError = 0 ∧
    (tick sampleDefs sampleLibs sampleInputs
      (play decodingDemuxer F32.zero).2).1.mLastFrameOutputTime =
      (play decodingDemuxer F32.zero).2.mLastFrameOutputTime ∧
    (tick sampleDefs sampleLibs sampleInputs
      (play decodingDemuxer F32.zero).2).1.mAvgOutputInterval =
      (play decodingDemuxer F32.zero).2.mAvgOutputInterval ∧
    (tick sampleDefs sampleLibs sampleInputs (play decodingDemuxer F32.zero).2).1.mPendingSeekTs =
      (play decodingDemuxer F32.zero).2.mPendingSeekTs ∧
    (tick sampleDefs sampleLibs sampleInputs
      (play decodingDemuxer F32.zero).2).1.mPendingSeekExact =
      (play decodingDemuxer F32.zero).2.mPendingSeekExact ∧
    (tick sampleDefs sampleLibs sampleInputs
      (play decodingDemuxer F32.zero).2).1.mPendingSeekToPrevSample =
      (play decodingDemuxer F32.zero).2.mPendingSeekToPrevSample ∧
    (tick sampleDefs sampleLibs sampleInputs (play decodingDemuxer F32.zero).2).1.mCurrentTime =
      (play decodingDemuxer F32.zero).2.mCurrentTime ∧
    (tick sampleDefs sampleLibs sampleInputs (play decodingDemuxer F32.zero).2).1.mRunning =
      (play decodingDemuxer F32.zero).2.mRunning ∧
    (∀ (st0 : RecordDemuxer) (speed : F32), st0.mConfigured = true → speed.isZero = true →
      (play st0 speed).2.mRunning = false) :=
  ⟨Or.inr rfl,
    tick_idle sampleDefs sampleLibs sampleInputs (play decodingDemuxer F32.zero).2 (Or.inr rfl)⟩

/-- The pacing part of the tick changes neither the configuration members nor
the playback flags. -/
theorem timerCbOut_keeps (lib : Libs) (inp : TickInputs) (speed : F32) (body : TickBody) :
    (timerCbOut lib inp speed body).1.mFirstFrame = body.st.mFirstFrame ∧
    (timerCbOut lib inp speed body).1.mDecoderSource = body.st.mDecoderSource ∧
    (timerCbOut lib inp speed body).1.mRunning = body.st.mRunning ∧
    (timerCbOut lib inp speed body).1.mFrameByFrame = body.st.mFrameByFrame ∧
    (timerCbOut lib inp speed body).1.mPendingSeekExact = body.st.mPendingSeekExact ∧
    (timerCbOut lib inp speed body).1.mConfigured = body.st.mConfigured ∧
    (timerCbOut lib inp speed body).1.mDecoder = body.st.mDecoder ∧
    (timerCbOut lib inp speed body).1.mSpeed = body.st.mSpeed := by
  unfold timerCbOut
  split
  · exact ⟨rfl, rfl, rfl, rfl, rfl, rfl, rfl, rfl⟩
  · split
    · exact ⟨rfl, rfl, rfl, rfl, rfl, rfl, rfl, rfl⟩
    · exact ⟨rfl, rfl, rfl, rfl, rfl, rfl, rfl, rfl⟩

/-- The only call of the sample duration computation is the catch-up seek. -/
theorem sampleDuration_events_seek (lib : Libs) (inp : TickInputs) (speed : F32)
    (sample : Mp4TrackSample) (silent : Bool) (error avg : Int) :
    ∀ e ∈ (sampleDuration lib inp speed sample silent error avg).events,
      ∃ ts, e = Event.seek ts := by
  intro e he
  unfold sampleDuration at he
  split at he
  · simp at he
  · split at he
    · simp only at he
      split at he
      · simp only [List.mem_singleton] at he
        exact ⟨_, he⟩
      · simp at he
    · simp only at he
      split at he
      · simp only [List.mem_singleton] at he
        exact ⟨_, he⟩
      · simp at he

/-- The calls of a tick with a decoder attached and running are those of the
tick body, followed by the catch-up seek if there is one. -/
theorem tick_events (k : Defs) (lib : Libs) (inp : TickInputs) (st : RecordDemuxer)
    (hdec : st.mDecoder ≠ none) (hrun : st.mRunning = true) :
    ∃ post : List Event,
      (tick k lib inp st).2 = (tickBody k lib inp st).events ++ post ∧
      ∀ e ∈ post, ∃ ts, e = Event.seek ts := by
  rw [tick_eq_out k lib inp st hdec hrun]
  unfold timerCbOut
  split
  · exact ⟨[], (List.append_nil _).symm, by simp⟩
  · split
    · exact ⟨_, rfl, sampleDuration_events_seek _ _ _ _ _ _ _⟩
    · exact ⟨[], (List.append_nil _).symm, by simp⟩

/-- A tick without a decoder or while not running makes no call; the guard
is decided by the two members. -/
theorem tick_guard_cases (st : RecordDemuxer) :
    (st.mDecoder = none ∨ st.mRunning = false) ∨ (st.mDecoder ≠ none ∧ st.mRunning = true) := by
  by_cases hd : st.mDecoder = none
  · exact Or.inl (Or.inl hd)
  · cases hr : st.mRunning
    · exact Or.inl (Or.inr rfl)
    · exact Or.inr ⟨hd, rfl⟩

set_option maxRecDepth 20000 in
/-- C23 as stated fails: on the sample demuxer, the first tick reads the
access unit with dts 33333 and `queue_buffer` fails; the next tick takes no
buffer from the pool, reads the access unit with dts 66666 into the buffer
that was kept and queues that one.  The access unit with dts 33333 is never
appended to the decoder's queue. -/
theorem failed_access_unit_is_dropped :
    (run sampleDefs sampleLibs openedDemuxer
      [Action.setElementaryStreamDecoder 0 (some ⟨2⟩), Action.play F32.one,
        Action.tick failedQueueInputs, Action.tick secondInputs]).2 =
      [Event.decoderOpen 2 [0, 0, 0, 1, 0x67, 0x42] [0, 0, 0, 1, 0x68, 0xCE], Event.poolGet,
        Event.nextSample, Event.queueBuffer queuedSampleBuffer (-EAGAIN),
        Event.nextSample, Event.queueBuffer secondQueuedBuffer 0] ∧
    appended (run sampleDefs sampleLibs openedDemuxer
      [Action.setElementaryStreamDecoder 0 (some ⟨2⟩), Action.play F32.one,
        Action.tick failedQueueInputs, Action.tick secondInputs]).2 = [secondQueuedBuffer] ∧
    failedQueueInputs.nextSampleRet = 0 ∧ failedQueueInputs.sample.sample_size ≠ 0 ∧
    failedQueueInputs.sample.sample_dts = 33333 := by
  refine ⟨?_, ?_, rfl, by decide, rfl⟩ <;> rfl

/-- C23, amended: the scheduler submits every access unit once and never
again.  In every tick, a non-empty sample that is read with success and
whose descriptor can be attached is passed to `queue_buffer` in that tick;
every buffer passed to `queue_buffer` carries the sample read in the same
tick (its timestamp), also when a buffer kept after a failed submission is
held at the entry, in which case no buffer is taken from the pool. -/
theorem tick_submits (k : Defs) (lib : Libs) (inp : TickInputs) (st : RecordDemuxer) :
    (Event.nextSample ∈ (tick k lib inp st).2 → inp.nextSampleRet = 0 →
      inp.sample.sample_size ≠ 0 → inp.metadataAddOk = true →
      ∃ b, Event.queueBuffer b inp.queueRet ∈ (tick k lib inp st).2) ∧
    (∀ b r, Event.queueBuffer b r ∈ (tick k lib inp st).2 →
      Event.nextSample ∈ (tick k lib inp st).2 ∧ inp.nextSampleRet = 0 ∧
      inp.sample.sample_size ≠ 0 ∧
      ∃ d, b.inputBuffer = some d ∧ d.auNtpTimestamp = inp.sample.sample_dts) ∧
    (st.mCurrentBuffer ≠ none → Event.poolGet ∉ (tick k lib inp st).2) := by
  rcases tick_guard_cases st with hg | ⟨hdec, hrun⟩
  · rw [tick_of_guard k lib inp st hg]
    exact ⟨fun h => by simp at h, fun b r h => by simp at h, fun _ h => by simp at h⟩
  · obtain ⟨post, hev, hpost⟩ := tick_events k lib inp st hdec hrun
    obtain ⟨src, ff, done, mid, cb, B, _, _, hmid, _, hp⟩ := tickBody_path k lib inp st
    have hpost_next : Event.nextSample ∉ post := by
      intro h
      obtain ⟨ts, hts⟩ := hpost _ h
      exact absurd hts (by simp)
    have hpost_queue : ∀ b r, Event.queueBuffer b r ∉ post := by
      intro b r h
      obtain ⟨ts, hts⟩ := hpost _ h
      exact absurd hts (by simp)
    have hpost_pool : Event.poolGet ∉ post := by
      intro h
      obtain ⟨ts, hts⟩ := hpost _ h
      exact absurd hts (by simp)
    have hmid_queue : ∀ b r, Event.queueBuffer b r ∉ mid := fun b r h => (hmid _ h).2 b r rfl
    have hmid_pool : st.mCurrentBuffer ≠ none → Event.poolGet ∉ mid :=
      fun hne h => hne ((hmid _ h).1 rfl)
    rw [hev]
    rcases hp with ⟨h1, hb⟩ | ⟨h1, h2, h3, hb⟩ | ⟨h1, h2, h3, h4, hb⟩ | ⟨h1, h2, h3, h4, h5, hb⟩
    · rw [hb]
      refine ⟨?_, ?_, ?_⟩
      · intro hmem hret _ _
        rcases List.mem_append.1 hmem with h | h
        · rcases h1 with h1 | h1
          · exact absurd hret h1
          · exact absurd h h1
        · exact absurd h hpost_next
      · intro b r hmem
        rcases List.mem_append.1 hmem with h | h
        · exact absurd h (hmid_queue b r)
        · exact absurd h (hpost_queue b r)
      · intro hne hmem
        rcases List.mem_append.1 hmem with h | h
        · exact hmid_pool hne h
        · exact hpost_pool h
    · rw [hb]
      refine ⟨fun _ _ hs _ => absurd h2 hs, ?_, ?_⟩
      · intro b r hmem
        rcases List.mem_append.1 hmem with h | h
        · exact absurd h (hmid_queue b r)
        · exact absurd h (hpost_queue b r)
      · intro hne hmem
        rcases List.mem_append.1 hmem with h | h
        · exact hmid_pool hne h
        · exact hpost_pool h
    · rw [hb]
      refine ⟨fun _ _ _ hm => ?_, ?_, ?_⟩
      · rw [h3] at hm
        exact absurd hm (by decide)
      · intro b r hmem
        rcases List.mem_append.1 hmem with h | h
        · exact absurd h (hmid_queue b r)
        · exact absurd h (hpost_queue b r)
      · intro hne hmem
        rcases List.mem_append.1 hmem with h | h
        · exact hmid_pool hne h
        · exact hpost_pool h
    · rw [hb]
      refine ⟨fun _ _ _ _ => ⟨B, ?_⟩, ?_, ?_⟩
      · simp
      · intro b r hmem
        rcases List.mem_append.1 hmem with h | h
        · rcases List.mem_append.1 h with h | h
          · exact absurd h (hmid_queue b r)
          · simp only [List.mem_singleton, Event.queueBuffer.injEq] at h
            refine ⟨?_, h1, h2, ?_⟩
            · simp [h4]
            · rw [h.1, h5]
              exact ⟨_, rfl, rfl⟩
        · exact absurd h (hpost_queue b r)
      · intro hne hmem
        rcases List.mem_append.1 hmem with h | h
        · rcases List.mem_append.1 h with h | h
          · exact hmid_pool hne h
          · simp at h
        · exact hpost_pool h

set_option maxRecDepth 20000 in
/-- C23, instance of the amended statement: the tick that follows a failed
submission on the sample demuxer holds the buffer that was kept and queues
the access unit it reads, with dts 66666. -/
theorem tick_submits_witness :
    Event.nextSample ∈
      (tick sampleDefs sampleLibs secondInputs
        (run sampleDefs sampleLibs decodingDemuxer
          [Action.play F32.one, Action.tick failedQueueInputs]).1).2 ∧
    secondInputs.nextSampleRet = 0 ∧ secondInputs.sample.sample_size ≠ 0 ∧
    secondInputs.metadataAddOk = true ∧
    (∃ b, Event.queueBuffer b secondInputs.queueRet ∈
      (tick sampleDefs sampleLibs secondInputs
        (run sampleDefs sampleLibs decodingDemuxer
          [Action.play F32.one, Action.tick failedQueueInputs]).1).2) ∧
    Event.queueBuffer secondQueuedBuffer 0 ∈
      (tick sampleDefs sampleLibs secondInputs
        (run sampleDefs sampleLibs decodingDemuxer
          [Action.play F32.one, Action.tick failedQueueInputs]).1).2 ∧
    (∃ d, secondQueuedBuffer.inputBuffer = some d ∧
      d.auNtpTimestamp = secondInputs.sample.sample_dts) ∧
    (run sampleDefs sampleLibs decodingDemuxer
      [Action.play F32.one, Action.tick failedQueueInputs]).1.mCurrentBuffer ≠ none ∧
    Event.poolGet ∉
      (tick sampleDefs sampleLibs secondInputs
        (run sampleDefs sampleLibs decodingDemuxer
          [Action.play F32.one, Action.tick failedQueueInputs]).1).2 :=
  ⟨by decide, rfl, by decide, rfl,
    (tick_submits sampleDefs sampleLibs secondInputs
      (run sampleDefs sampleLibs decodingDemuxer
        [Action.play F32.one, Action.tick failedQueueInputs]).1).1
      (by decide) rfl (by decide) rfl,
    by decide,
    ((tick_submits sampleDefs sampleLibs secondInputs
      (run sampleDefs sampleLibs decodingDemuxer
        [Action.play F32.one, Action.tick failedQueueInputs]).1).2.1
      secondQueuedBuffer 0 (by decide)).2.2.2,
    by decide,
    (tick_submits sampleDefs sampleLibs secondInputs
      (run sampleDefs sampleLibs decodingDemuxer
        [Action.play F32.one, Action.tick failedQueueInputs]).1).2.2 (by decide)⟩


/-! ## Silent access units -/

/-- The silent flag and the pending seeks of a tick.  Every buffer passed to
`queue_buffer` is silent exactly when the container says the sample is silent
and an exact seek is pending at the entry; a tick that reads a non-empty
sample clears the pending seeks and leaves `mPendingSeekExact` at that value;
any other tick leaves `mPendingSeekExact` as it was. -/
theorem tick_silent (k : Defs) (lib : Libs) (inp : TickInputs) (st : RecordDemuxer) :
    (∀ b r, Event.queueBuffer b r ∈ (tick k lib inp st).2 →
      ∃ d, b.inputBuffer = some d ∧
        d.isSilent = (inp.sample.silent && st.mPendingSeekExact)) ∧
    (Event.nextSample ∈ (tick k lib inp st).2 → inp.nextSampleRet = 0 →
      inp.sample.sample_size ≠ 0 →
      (tick k lib inp st).1.mPendingSeekTs = -1 ∧
      (tick k lib inp st).1.mPendingSeekToPrevSample = false ∧
      (tick k lib inp st).1.mPendingSeekExact =
        (inp.sample.silent && st.mPendingSeekExact)) ∧
    ((tick k lib inp st).1.mPendingSeekExact = st.mPendingSeekExact ∨
      (tick k lib inp st).1.mPendingSeekExact =
        (inp.sample.silent && st.mPendingSeekExact)) := by
  rcases tick_guard_cases st with hg | ⟨hdec, hrun⟩
  · rw [tick_of_guard k lib inp st hg]
    exact ⟨fun b r h => by simp at h, fun h => by simp at h, Or.inl rfl⟩
  · obtain ⟨post, hev, hpost⟩ := tick_events k lib inp st hdec hrun
    have ko := timerCbOut_keeps lib inp st.mSpeed (tickBody k lib inp st)
    have ks := timerCbOut_spec lib inp st.mSpeed (tickBody k lib inp st)
    obtain ⟨src, ff, done, mid, cb, B, _, _, hmid, _, hp⟩ := tickBody_path k lib inp st
    have hpost_next : Event.nextSample ∉ post := by
      intro h
      obtain ⟨ts, hts⟩ := hpost _ h
      exact absurd hts (by simp)
    have hpost_queue : ∀ b r, Event.queueBuffer b r ∉ post := by
      intro b r h
      obtain ⟨ts, hts⟩ := hpost _ h
      exact absurd hts (by simp)
    have hmid_queue : ∀ b r, Event.queueBuffer b r ∉ mid := fun b r h => (hmid _ h).2 b r rfl
    rw [hev]
    rw [← tick_eq_out k lib inp st hdec hrun] at ko ks
    rw [ko.2.2.2.2.1, ks.1, ks.2.1]
    rcases hp with ⟨h1, hb⟩ | ⟨h1, h2, h3, hb⟩ | ⟨h1, h2, h3, h4, hb⟩ | ⟨h1, h2, h3, h4, h5, hb⟩
    · rw [hb]
      refine ⟨?_, ?_, Or.inl rfl⟩
      · intro b r hmem
        rcases List.mem_append.1 hmem with h | h
        · exact absurd h (hmid_queue b r)
        · exact absurd h (hpost_queue b r)
      · intro hmem hret _
        rcases List.mem_append.1 hmem with h | h
        · rcases h1 with h1 | h1
          · exact absurd hret h1
          · exact absurd h h1
        · exact absurd h hpost_next
    · rw [hb]
      refine ⟨?_, fun _ _ hs => absurd h2 hs, Or.inl rfl⟩
      intro b r hmem
      rcases List.mem_append.1 hmem with h | h
      · exact absurd h (hmid_queue b r)
      · exact absurd h (hpost_queue b r)
    · rw [hb]
      refine ⟨?_, fun _ _ _ => ⟨rfl, rfl, rfl⟩, Or.inr rfl⟩
      intro b r hmem
      rcases List.mem_append.1 hmem with h | h
      · exact absurd h (hmid_queue b r)
      · exact absurd h (hpost_queue b r)
    · rw [hb]
      refine ⟨?_, fun _ _ _ => ⟨rfl, rfl, rfl⟩, Or.inr rfl⟩
      intro b r hmem
      rcases List.mem_append.1 hmem with h | h
      · rcases List.mem_append.1 h with h | h
        · exact absurd h (hmid_queue b r)
        · simp only [List.mem_singleton, Event.queueBuffer.injEq] at h
          rw [h.1, h5]
          exact ⟨_, rfl, rfl⟩
      · exact absurd h (hpost_queue b r)

/-- A call of the public interface other than `previous()` and an exact seek
leaves `mPendingSeekExact` false when it is false. -/
theorem api_exact_false (k : Defs) (st : RecordDemuxer) (h : st.mPendingSeekExact = false) :
    (∀ speed, (play st speed).2.mPendingSeekExact = false) ∧
    (next st).2.mPendingSeekExact = false ∧
    (∀ delta, (seek st delta false).2.mPendingSeekExact = false) ∧
    (∀ ts, (seekTo st ts false).2.mPendingSeekExact = false) ∧
    (close st).2.mPendingSeekExact = false ∧
    (∀ esIndex decoder,
      (setElementaryStreamDecoder k st esIndex decoder).2.mPendingSeekExact = false) := by
  refine ⟨?_, ?_, ?_, ?_, ?_, ?_⟩
  · intro speed
    unfold play
    split
    · exact h
    · split <;> exact h
  · unfold next
    split <;> exact h
  · intro delta
    unfold seek
    split
    · exact h
    · simp only
      unfold seekTo
      split
      · exact h
      · rfl
  · intro ts
    unfold seekTo
    split
    · exact h
    · rfl
  · unfold close
    split <;> exact h
  · intro esIndex decoder
    unfold setElementaryStreamDecoder
    cases decoder with
    | none => exact h
    | some dec =>
      simp only
      split
      · exact h
      · split
        · exact h
        · split
          · exact h
          · split <;> exact h


/-- One action that does not make the seek exact, while `mPendingSeekExact` is
false: it stays false and no buffer queued is silent. -/
theorem step_not_silent (k : Defs) (lib : Libs) (st : RecordDemuxer) (a : Action)
    (h : st.mPendingSeekExact = false) (ha : a.setsExact = false) :
    (step k lib st a).1.mPendingSeekExact = false ∧
    ∀ b r d, Event.queueBuffer b r ∈ (step k lib st a).2 → b.inputBuffer = some d →
      d.isSilent = false := by
  have hapi := api_exact_false k st h
  cases a with
  | play speed => exact ⟨hapi.1 speed, fun b r d hm => by simp [step] at hm⟩
  | previous => exact absurd ha (by decide)
  | next => exact ⟨hapi.2.1, fun b r d hm => by simp [step] at hm⟩
  | seek delta exact =>
    have he : exact = false := ha
    subst he
    exact ⟨hapi.2.2.1 delta, fun b r d hm => by simp [step] at hm⟩
  | seekTo ts exact =>
    have he : exact = false := ha
    subst he
    exact ⟨hapi.2.2.2.1 ts, fun b r d hm => by simp [step] at hm⟩
  | close => exact ⟨hapi.2.2.2.2.1, fun b r d hm => by simp [step] at hm⟩
  | setElementaryStreamDecoder esIndex decoder =>
    exact ⟨hapi.2.2.2.2.2 esIndex decoder, fun b r d hm => by simp [step] at hm⟩
  | tick inp =>
    have hs := tick_silent k lib inp st
    show (tick k lib inp st).1.mPendingSeekExact = false ∧
      ∀ b r d, Event.queueBuffer b r ∈ (tick k lib inp st).2 → b.inputBuffer = some d →
        d.isSilent = false
    constructor
    · rcases hs.2.2 with h1 | h1
      · rw [h1, h]
      · rw [h1, h, Bool.and_false]
    · intro b r d hm hd
      obtain ⟨d', hd', hsil⟩ := hs.1 b r hm
      rw [hd] at hd'
      cases hd'
      rw [hsil, h, Bool.and_false]

/-- A sequence of actions none of which makes the seek exact, started while
`mPendingSeekExact` is false: it stays false and no buffer queued is
silent. -/
theorem run_not_silent (k : Defs) (lib : Libs) (acts : List Action) :
    ∀ st : RecordDemuxer, st.mPendingSeekExact = false →
      (∀ a ∈ acts, a.setsExact = false) →
      (run k lib st acts).1.mPendingSeekExact = false ∧
      ∀ b r d, Event.queueBuffer b r ∈ (run k lib st acts).2 → b.inputBuffer = some d →
        d.isSilent = false := by
  induction acts with
  | nil =>
    intro st h _
    exact ⟨h, fun b r d hm => by simp [run] at hm⟩
  | cons a rest ih =>
    intro st h hall
    have h1 := step_not_silent k lib st a h (hall a (List.mem_cons_self _ _))
    have h2 := ih (step k lib st a).1 h1.1 (fun x hx => hall x (List.mem_cons_of_mem _ hx))
    simp only [run]
    refine ⟨h2.1, ?_⟩
    intro b r d hm hd
    rcases List.mem_append.1 hm with hm | hm
    · exact h1.2 b r d hm hd
    · exact h2.2 b r d hm hd

/-- A sequence of ticks whose samples the container marks silent, started
while `mPendingSeekExact` is set: it stays set and every buffer queued is
silent. -/
theorem run_silent (k : Defs) (lib : Libs) (ticks : List TickInputs) :
    ∀ st : RecordDemuxer, st.mPendingSeekExact = true →
      (∀ i ∈ ticks, i.sample.silent = true) →
      (run k lib st (ticks.map Action.tick)).1.mPendingSeekExact = true ∧
      ∀ b r d, Event.queueBuffer b r ∈ (run k lib st (ticks.map Action.tick)).2 →
        b.inputBuffer = some d → d.isSilent = true := by
  induction ticks with
  | nil =>
    intro st h _
    exact ⟨h, fun b r d hm => by simp [run] at hm⟩
  | cons i rest ih =>
    intro st h hall
    have hi : i.sample.silent = true := hall i (List.mem_cons_self _ _)
    have hs := tick_silent k lib i st
    have h1 : (tick k lib i st).1.mPendingSeekExact = true := by
      rcases hs.2.2 with h1 | h1
      · rw [h1, h]
      · rw [h1, h, hi]
        rfl
    have h2 := ih (tick k lib i st).1 h1 (fun x hx => hall x (List.mem_cons_of_mem _ hx))
    simp only [List.map_cons, run, step]
    refine ⟨h2.1, ?_⟩
    intro b r d hm hd
    rcases List.mem_append.1 hm with hm | hm
    · obtain ⟨d', hd', hsil⟩ := hs.1 b r hm
      rw [hd] at hd'
      cases hd'
      rw [hsil, h, hi]
      rfl
    · exact h2.2 b r d hm hd

/-- C25: in every tick the access unit passed to the decoder's queue has
`isSilent` equal to `sample.silent && mPendingSeekExact`, with
`mPendingSeekExact` taken at the entry of the tick; a tick that reads a
non-empty sample ends with no timestamp seek pending,
`mPendingSeekToPrevSample` false and `mPendingSeekExact` equal to that silent
value.  Hence, while `mPendingSeekExact` is set and the container marks the
samples silent, every access unit submitted is silent; and once
`mPendingSeekExact` is false (as after a sample that is not silent), no
access unit is silent until `previous()` or a seek with `exact` set is
called. -/
theorem silent_spec (k : Defs) (lib : Libs) (inp : TickInputs) (st : RecordDemuxer) :
    (∀ b r, Event.queueBuffer b r ∈ (tick k lib inp st).2 →
      ∃ d, b.inputBuffer = some d ∧
        d.isSilent = (inp.sample.silent && st.mPendingSeekExact)) ∧
    (Event.nextSample ∈ (tick k lib inp st).2 → inp.nextSampleRet = 0 →
      inp.sample.sample_size ≠ 0 →
      pendingSeekTs (tick k lib inp st).1 = none ∧
      (tick k lib inp st).1.mPendingSeekToPrevSample = false ∧
      (tick k lib inp st).1.mPendingSeekExact =
        (inp.sample.silent && st.mPendingSeekExact)) ∧
    (st.mPendingSeekExact = true → ∀ ticks : List TickInputs,
      (∀ i ∈ ticks, i.sample.silent = true) →
      (run k lib st (ticks.map Action.tick)).1.mPendingSeekExact = true ∧
      ∀ b r d, Event.queueBuffer b r ∈ (run k lib st (ticks.map Action.tick)).2 →
        b.inputBuffer = some d → d.isSilent = true) ∧
    (st.mPendingSeekExact = false → ∀ acts : List Action,
      (∀ a ∈ acts, a.setsExact = false) →
      (run k lib st acts).1.mPendingSeekExact = false ∧
      ∀ b r d, Event.queueBuffer b r ∈ (run k lib st acts).2 → b.inputBuffer = some d →
        d.isSilent = false) := by
  have hs := tick_silent k lib inp st
  refine ⟨hs.1, ?_, fun h ticks hall => run_silent k lib ticks st h hall,
    fun h acts hall => run_not_silent k lib acts st h hall⟩
  intro hmem hret hsize
  have h := hs.2.1 hmem hret hsize
  refine ⟨?_, h.2.1, h.2.2⟩
  unfold pendingSeekTs
  rw [h.1]
  rfl

set_option maxRecDepth 20000 in
/-- C25, instance: after `seekTo(5, true)` on the sample demuxer, a tick that
reads a sample marked silent queues it as a silent access unit and leaves
`mPendingSeekExact` set. -/
theorem silent_spec_witness :
    Event.queueBuffer silentQueuedBuffer 0 ∈
      (tick sampleDefs sampleLibs silentInputs
        (run sampleDefs sampleLibs decodingDemuxer [Action.seekTo 5 true]).1).2 ∧
    (∃ d, silentQueuedBuffer.inputBuffer = some d ∧
      d.isSilent = (silentInputs.sample.silent &&
        (run sampleDefs sampleLibs decodingDemuxer
          [Action.seekTo 5 true]).1.mPendingSeekExact)) ∧
    Event.nextSample ∈
      (tick sampleDefs sampleLibs silentInputs
        (run sampleDefs sampleLibs decodingDemuxer [Action.seekTo 5 true]).1).2 ∧
    silentInputs.nextSampleRet = 0 ∧ silentInputs.sample.sample_size ≠ 0 ∧
    (pendingSeekTs (tick sampleDefs sampleLibs silentInputs
        (run sampleDefs sampleLibs decodingDemuxer [Action.seekTo 5 true]).1).1 = none ∧
      (tick sampleDefs sampleLibs silentInputs
        (run sampleDefs sampleLibs decodingDemuxer
          [Action.seekTo 5 true]).1).1.mPendingSeekToPrevSample = false ∧
      (tick sampleDefs sampleLibs silentInputs
        (run sampleDefs sampleLibs decodingDemuxer
          [Action.seekTo 5 true]).1).1.mPendingSeekExact =
        (silentInputs.sample.silent &&
          (run sampleDefs sampleLibs decodingDemuxer
            [Action.seekTo 5 true]).1.mPendingSeekExact)) ∧
    (silentInputs.sample.silent &&
      (run sampleDefs sampleLibs decodingDemuxer
        [Action.seekTo 5 true]).1.mPendingSeekExact) = true :=
  ⟨by decide,
    (silent_spec sampleDefs sampleLibs silentInputs
      (run sampleDefs sampleLibs decodingDemuxer [Action.seekTo 5 true]).1).1
      silentQueuedBuffer 0 (by decide),
    by decide, rfl, by decide,
    (silent_spec sampleDefs sampleLibs silentInputs
      (run sampleDefs sampleLibs decodingDemuxer [Action.seekTo 5 true]).1).2.1
      (by decide) rfl (by decide),
    rfl⟩


/-! ## Frame stepping -/

/-- The local variables at the label `out` of a tick that reads a non-empty
sample and attaches its descriptor: the sample is silent when the container
says so during an exact seek, the clock has been read again, and frame-by-frame
play has stopped on a sample that is not silent. -/
theorem tickBody_of_queue (k : Defs) (lib : Libs) (inp : TickInputs) (st : RecordDemuxer)
    (hdec : st.mDecoder ≠ none) (hrun : st.mRunning = true)
    (hread : Event.nextSample ∈ (tick k lib inp st).2) (hret : inp.nextSampleRet = 0)
    (hsize : inp.sample.sample_size ≠ 0) (hmeta : inp.metadataAddOk = true) :
    (tickBody k lib inp st).retry = false ∧
    (tickBody k lib inp st).silent = (inp.sample.silent && st.mPendingSeekExact) ∧
    (tickBody k lib inp st).sample = inp.sample ∧
    (tickBody k lib inp st).curTime = inp.clock2 ∧
    (tickBody k lib inp st).st.mRunning =
      (if (st.mFrameByFrame && !(inp.sample.silent && st.mPendingSeekExact)) = true then false
        else st.mRunning) := by
  obtain ⟨post, hev, hpost⟩ := tick_events k lib inp st hdec hrun
  obtain ⟨src, ff, done, mid, cb, B, _, _, hmid, _, hp⟩ := tickBody_path k lib inp st
  have hpost_next : Event.nextSample ∉ post := by
    intro h
    obtain ⟨ts, hts⟩ := hpost _ h
    exact absurd hts (by simp)
  rw [hev] at hread
  rcases hp with ⟨h1, hb⟩ | ⟨h1, h2, h3, hb⟩ | ⟨h1, h2, h3, h4, hb⟩ | ⟨h1, h2, h3, h4, h5, hb⟩
  · rw [hb] at hread
    rcases List.mem_append.1 hread with h | h
    · rcases h1 with h1 | h1
      · exact absurd hret h1
      · exact absurd h h1
    · exact absurd h hpost_next
  · exact absurd h2 hsize
  · rw [hmeta] at h3
    exact absurd h3 (by decide)
  · rw [hb]
    exact ⟨rfl, rfl, rfl, rfl, rfl⟩

set_option maxRecDepth 20000 in
/-- C26 as stated fails: on the sample demuxer in frame-by-frame mode
(`play(0)`) during an exact seek, a tick processes a silent sample that is
the last of the track: the demuxer is still running at the end of the tick,
but the timer is not re-armed. -/
theorem silent_frame_step_not_rearmed :
    (run sampleDefs sampleLibs decodingDemuxer
      [Action.play F32.zero, Action.seekTo 5 true]).1.mFrameByFrame = true ∧
    (run sampleDefs sampleLibs decodingDemuxer
      [Action.play F32.zero, Action.seekTo 5 true]).1.mRunning = true ∧
    Event.queueBuffer silentQueuedBuffer 0 ∈
      (tick sampleDefs sampleLibs lastSilentInputs
        (run sampleDefs sampleLibs decodingDemuxer
          [Action.play F32.zero, Action.seekTo 5 true]).1).2 ∧
    (tick sampleDefs sampleLibs lastSilentInputs
      (run sampleDefs sampleLibs decodingDemuxer
        [Action.play F32.zero, Action.seekTo 5 true]).1).1.mRunning = true ∧
    (tick sampleDefs sampleLibs lastSilentInputs
      (run sampleDefs sampleLibs decodingDemuxer
        [Action.play F32.zero, Action.seekTo 5 true]).1).1.mTimer = ⟨none⟩ := by
  refine ⟨rfl, rfl, by decide, rfl, rfl⟩

/-- C26, amended: for every tick in frame-by-frame mode that reads a non-empty
sample and attaches its descriptor: when the sample is not silent, the
demuxer is not running at the end of the tick and the timer is not re-armed;
when it is silent, the demuxer stays running, and the timer is re-armed, at
1 ms, exactly when the sample has a next sample (`next_sample_dts != 0`).
`isPaused()` is true before and after the tick.  After `play(0)` followed by
`next()` the demuxer is in that mode, running, with the timer armed at
1 ms. -/
theorem tick_frame_step (k : Defs) (lib : Libs) (inp : TickInputs) (st : RecordDemuxer)
    (hdec : st.mDecoder ≠ none) (hrun : st.mRunning = true) (hfbf : st.mFrameByFrame = true)
    (hread : Event.nextSample ∈ (tick k lib inp st).2) (hret : inp.nextSampleRet = 0)
    (hsize : inp.sample.sample_size ≠ 0) (hmeta : inp.metadataAddOk = true) :
    ((inp.sample.silent && st.mPendingSeekExact) = false →
      (tick k lib inp st).1.mRunning = false ∧ (tick k lib inp st).1.mTimer = ⟨none⟩) ∧
    ((inp.sample.silent && st.mPendingSeekExact) = true →
      (tick k lib inp st).1.mRunning = true ∧
      (tick k lib inp st).1.mTimer =
        if inp.sample.next_sample_dts = 0 then ⟨none⟩ else ⟨some 1⟩) ∧
    (tick k lib inp st).1.mFrameByFrame = true ∧
    (st.mConfigured = true → isPaused st = true ∧ isPaused (tick k lib inp st).1 = true) ∧
    (∀ (st0 : RecordDemuxer) (speed : F32), st0.mConfigured = true → speed.isZero = true →
      (next (play st0 speed).2).2.mFrameByFrame = true ∧
      (next (play st0 speed).2).2.mRunning = true ∧
      (next (play st0 speed).2).2.mTimer = ⟨some 1⟩ ∧
      isPaused (next (play st0 speed).2).2 = true) := by
  have hb := tickBody_of_queue k lib inp st hdec hrun hread hret hsize hmeta
  have hk := tickBody_keeps k lib inp st
  have ko := timerCbOut_keeps lib inp st.mSpeed (tickBody k lib inp st)
  rw [← tick_eq_out k lib inp st hdec hrun] at ko
  have hfbf' : (tick k lib inp st).1.mFrameByFrame = true := by
    rw [ko.2.2.2.1, hk.2.2.2.2.1, hfbf]
  have hconf : (tick k lib inp st).1.mConfigured = st.mConfigured := by
    rw [ko.2.2.2.2.2.1, hk.2.2.1]
  refine ⟨?_, ?_, hfbf', ?_, ?_⟩
  · intro hs
    have hout : (tickBody k lib inp st).st.mRunning = false := by
      rw [hb.2.2.2.2, hfbf, hs]
      rfl
    rw [tick_eq_out k lib inp st hdec hrun,
      timerCbOut_of_stopped lib inp st.mSpeed _ hb.1 hout]
    exact ⟨hout, hk.1⟩
  · intro hs
    have hout : (tickBody k lib inp st).st.mRunning = true := by
      rw [hb.2.2.2.2, hfbf, hs]
      exact hrun
    have hsil : (tickBody k lib inp st).silent = true := by rw [hb.2.1, hs]
    rw [tick_eq_out k lib inp st hdec hrun,
      timerCbOut_of_running lib inp st.mSpeed _ hb.1 hout]
    simp only
    rw [outputError_of_zero lib st.mSpeed _ _ _
        (Or.inr (Or.inr (Or.inr (Or.inr hsil)))),
      sampleDuration_of_zero lib inp st.mSpeed _ _ _ _ (Or.inr (Or.inr hsil)), waitMs_of_zero,
      hb.2.2.1, hk.1]
    refine ⟨hout, ?_⟩
    by_cases hn : inp.sample.next_sample_dts = 0
    · simp [hn]
    · simp [hn]
  · intro hc
    constructor
    · unfold isPaused
      simp [hc, hfbf]
    · unfold isPaused
      simp [hconf, hc, hfbf']
  · intro st0 speed hc hz
    unfold next play isPaused pomp_timer_set
    simp [hc, hz]

set_option maxRecDepth 20000 in
/-- C26, instance of the amended statement: after `play(0)` and `next()` on
the sample demuxer, the tick queues the sample, which is not silent, and
stops. -/
theorem tick_frame_step_witness :
    (run sampleDefs sampleLibs decodingDemuxer
      [Action.play F32.zero, Action.next]).1.mDecoder ≠ none ∧
    (run sampleDefs sampleLibs decodingDemuxer
      [Action.play F32.zero, Action.next]).1.mRunning = true ∧
    (run sampleDefs sampleLibs decodingDemuxer
      [Action.play F32.zero, Action.next]).1.mFrameByFrame = true ∧
    Event.nextSample ∈
      (tick sampleDefs sampleLibs sampleInputs
        (run sampleDefs sampleLibs decodingDemuxer [Action.play F32.zero, Action.next]).1).2 ∧
    sampleInputs.nextSampleRet = 0 ∧ sampleInputs.sample.sample_size ≠ 0 ∧
    sampleInputs.metadataAddOk = true ∧
    (sampleInputs.sample.silent &&
      (run sampleDefs sampleLibs decodingDemuxer
        [Action.play F32.zero, Action.next]).1.mPendingSeekExact) = false ∧
    ((tick sampleDefs sampleLibs sampleInputs
        (run sampleDefs sampleLibs decodingDemuxer
          [Action.play F32.zero, Action.next]).1).1.mRunning = false ∧
      (tick sampleDefs sampleLibs sampleInputs
        (run sampleDefs sampleLibs decodingDemuxer
          [Action.play F32.zero, Action.next]).1).1.mTimer = ⟨none⟩) :=
  ⟨by decide, rfl, rfl, by decide, rfl, by decide, rfl, rfl,
    (tick_frame_step sampleDefs sampleLibs sampleInputs
      (run sampleDefs sampleLibs decodingDemuxer [Action.play F32.zero, Action.next]).1
      (by decide) rfl rfl (by decide) rfl (by decide) rfl).1 rfl⟩

end RecordDemuxer

/-- The arithmetic right shift by one of a signed integer is the division by
2 rounded toward minus infinity. -/
theorem shiftRight_one_eq_div (x : Int) : x >>> (1 : Int) = x / 2 := by
  cases x with
  | ofNat m =>
    have h := Int.shiftRight_coe_nat m 1
    have h2 : m >>> 1 = m / 2 := by
      rw [Nat.shiftRight_eq_div_pow]
    rw [h2] at h
    simp only [Nat.cast_one, Nat.cast_ofNat, Int.ofNat_eq_coe] at h ⊢
    rw [h]
    omega
  | negSucc m =>
    have h := Int.shiftRight_negSucc m 1
    have h2 : m >>> 1 = m / 2 := by
      rw [Nat.shiftRight_eq_div_pow]
    rw [h2] at h
    simp only [Nat.cast_one] at h
    rw [h]
    simp only [Int.negSucc_eq]
    omega

namespace RecordDemuxer

/-! ## The error, the average and the delay -/

/-- Without a previous output time the average output interval is
unchanged. -/
theorem avgOutputInterval_of_zero (st : RecordDemuxer) (curTime : Nat)
    (h : st.mLastFrameOutputTime = 0) :
    avgOutputInterval st curTime = st.mAvgOutputInterval := by
  unfold avgOutputInterval
  simp [h]

/-- With a previous output time, and when no 64-bit operation overflows, the
average output interval moves half of the way, rounded toward minus infinity,
to the interval since the previous output. -/
theorem avgOutputInterval_of_nonzero (st : RecordDemuxer) (curTime : Nat)
    (h : st.mLastFrameOutputTime ≠ 0)
    (hd1 : -2 ^ 63 ≤ (curTime : Int) - (st.mLastFrameOutputTime : Int))
    (hd2 : (curTime : Int) - (st.mLastFrameOutputTime : Int) < 2 ^ 63)
    (ha1 : -2 ^ 63 ≤ st.mAvgOutputInterval) (ha2 : st.mAvgOutputInterval < 2 ^ 63)
    (hs1 : -2 ^ 63 ≤ (curTime : Int) - (st.mLastFrameOutputTime : Int) - st.mAvgOutputInterval)
    (hs2 : (curTime : Int) - (st.mLastFrameOutputTime : Int) - st.mAvgOutputInterval < 2 ^ 63) :
    avgOutputInterval st curTime =
      st.mAvgOutputInterval +
        ((curTime : Int) - (st.mLastFrameOutputTime : Int) - st.mAvgOutputInterval) / 2 := by
  have hb : (st.mLastFrameOutputTime != 0) = true := by simpa using h
  unfold avgOutputInterval
  simp only [hb, if_true]
  rw [toInt64_of_range _ hd1 hd2, toInt64_of_range _ hs1 hs2, shiftRight_one_eq_div]
  apply toInt64_of_range
  · omega
  · omega

/-- The pacing of a tick that asks for no retry and is still running at the
label `out`: what it stores, how it arms the timer and the calls it adds, in
terms of the error, the average, the duration and the delay computed from the
local variables at the label. -/
theorem tick_pacing (k : Defs) (lib : Libs) (inp : TickInputs) (st : RecordDemuxer)
    (hdec : st.mDecoder ≠ none) (hrun : st.mRunning = true)
    (hr : (tickBody k lib inp st).retry = false)
    (hout : (tickBody k lib inp st).st.mRunning = true) :
    (tick k lib inp st).1.mLastOutputError =
      outputError lib st.mSpeed (tickBody k lib inp st).st (tickBody k lib inp st).silent
        (tickBody k lib inp st).curTime ∧
    (tick k lib inp st).1.mAvgOutputInterval =
      avgOutputInterval (tickBody k lib inp st).st (tickBody k lib inp st).curTime ∧
    (tick k lib inp st).1.mLastFrameOutputTime = (tickBody k lib inp st).curTime ∧
    (tick k lib inp st).1.mLastFrameDuration =
      (sampleDuration lib inp st.mSpeed inp.sample (tickBody k lib inp st).silent
        (tick k lib inp st).1.mLastOutputError (tick k lib inp st).1.mAvgOutputInterval).duration ∧
    (tick k lib inp st).1.mTimer =
      (if waitMs (sampleDuration lib inp st.mSpeed inp.sample (tickBody k lib inp st).silent
          (tick k lib inp st).1.mLastOutputError (tick k lib inp st).1.mAvgOutputInterval)
          (tick k lib inp st).1.mLastOutputError > 0 then
        ⟨some (waitMs (sampleDuration lib inp st.mSpeed inp.sample (tickBody k lib inp st).silent
          (tick k lib inp st).1.mLastOutputError (tick k lib inp st).1.mAvgOutputInterval)
          (tick k lib inp st).1.mLastOutputError)⟩
      else ⟨none⟩) ∧
    (tick k lib inp st).2 =
      (tickBody k lib inp st).events ++
        (sampleDuration lib inp st.mSpeed inp.sample (tickBody k lib inp st).silent
          (tick k lib inp st).1.mLastOutputError
          (tick k lib inp st).1.mAvgOutputInterval).events := by
  have hk := tickBody_keeps k lib inp st
  have hsample := hk.2.2.2.2.2.2.2 hr
  have ht := hk.1
  rw [tick_eq_out k lib inp st hdec hrun, timerCbOut_of_running lib inp st.mSpeed _ hr hout,
    hsample, ht]
  exact ⟨rfl, rfl, rfl, rfl, rfl, rfl⟩


/-- C28: for every tick that reaches the pacing (decoder attached, running at
the entry and at the label `out`, no retry), with `now` the clock value of
the tick: when `mLastFrameOutputTime` is 0 at the entry the tick leaves
`mAvgOutputInterval` unchanged; when it is not 0, and the interval
`now - mLastFrameOutputTime`, the old average and their difference fit a
signed 64-bit integer, the new average is the old one plus the difference
divided by 2 and rounded toward minus infinity. -/
theorem tick_average (k : Defs) (lib : Libs) (inp : TickInputs) (st : RecordDemuxer)
    (hdec : st.mDecoder ≠ none) (hrun : st.mRunning = true)
    (hr : (tickBody k lib inp st).retry = false)
    (hout : (tickBody k lib inp st).st.mRunning = true) :
    (st.mLastFrameOutputTime = 0 →
      (tick k lib inp st).1.mAvgOutputInterval = st.mAvgOutputInterval) ∧
    (st.mLastFrameOutputTime ≠ 0 →
      -2 ^ 63 ≤ ((tickBody k lib inp st).curTime : Int) - (st.mLastFrameOutputTime : Int) →
      ((tickBody k lib inp st).curTime : Int) - (st.mLastFrameOutputTime : Int) < 2 ^ 63 →
      -2 ^ 63 ≤ st.mAvgOutputInterval → st.mAvgOutputInterval < 2 ^ 63 →
      -2 ^ 63 ≤ ((tickBody k lib inp st).curTime : Int) - (st.mLastFrameOutputTime : Int) -
        st.mAvgOutputInterval →
      ((tickBody k lib inp st).curTime : Int) - (st.mLastFrameOutputTime : Int) -
        st.mAvgOutputInterval < 2 ^ 63 →
      (tick k lib inp st).1.mAvgOutputInterval =
        st.mAvgOutputInterval +
          Int.floor (((((tickBody k lib inp st).curTime : Int) -
            (st.mLastFrameOutputTime : Int) - st.mAvgOutputInterval : Int) : ℚ) / 2)) := by
  have hk := tickBody_keeps k lib inp st
  have hlfo := hk.2.2.2.2.2.2.1
  have havg := hk.2.2.2.2.2.1
  have hp := tick_pacing k lib inp st hdec hrun hr hout
  constructor
  · intro h
    rw [hp.2.1, avgOutputInterval_of_zero _ _ (by rw [hlfo]; exact h), havg]
  · intro h hd1 hd2 ha1 ha2 hs1 hs2
    rw [hp.2.1, avgOutputInterval_of_nonzero _ _ (by rw [hlfo]; exact h)
      (by rw [hlfo]; exact hd1) (by rw [hlfo]; exact hd2) (by rw [havg]; exact ha1)
      (by rw [havg]; exact ha2) (by rw [hlfo, havg]; exact hs1)
      (by rw [hlfo, havg]; exact hs2), hlfo, havg]
    congr 1
    have h2 : ((2 : ℚ)) = ((2 : ℕ) : ℚ) := by norm_num
    rw [h2, Rat.floor_intCast_div_natCast]
    rfl

set_option maxRecDepth 20000 in
/-- C28, instance: the second tick of the sample demuxer, 33343 microseconds
after the first one, moves the average from 0 to 16671. -/
theorem tick_average_witness :
    pacedDemuxer.mDecoder ≠ none ∧ pacedDemuxer.mRunning = true ∧
    (tickBody sampleDefs sampleLibs secondInputs pacedDemuxer).retry = false ∧
    (tickBody sampleDefs sampleLibs secondInputs pacedDemuxer).st.mRunning = true ∧
    pacedDemuxer.mLastFrameOutputTime ≠ 0 ∧
    pacedDemuxer.mAvgOutputInterval = 0 ∧
    ((tickBody sampleDefs sampleLibs secondInputs pacedDemuxer).curTime : Int) -
      (pacedDemuxer.mLastFrameOutputTime : Int) = 33343 ∧
    (tick sampleDefs sampleLibs secondInputs pacedDemuxer).1.mAvgOutputInterval =
      pacedDemuxer.mAvgOutputInterval +
        Int.floor (((((tickBody sampleDefs sampleLibs secondInputs pacedDemuxer).curTime : Int) -
          (pacedDemuxer.mLastFrameOutputTime : Int) -
          pacedDemuxer.mAvgOutputInterval : Int) : ℚ) / 2) ∧
    (tick sampleDefs sampleLibs secondInputs pacedDemuxer).1.mAvgOutputInterval = 16671 :=
  ⟨by decide, rfl, rfl, rfl, by decide, rfl, by decide,
    (tick_average sampleDefs sampleLibs secondInputs pacedDemuxer (by decide) rfl rfl rfl).2
      (by decide) (by decide) (by decide) (by decide) (by decide) (by decide) (by decide),
    rfl⟩


/-! ## The duration and the catch-up seek -/

/-- The catch-up loop never resets `pendingSeekTs`: started with a positive
value, it returns a positive value. -/
theorem catchUp_pending_pos (lib : Libs) (speed : F32) (dts : Nat) (error : Int) (l : List Nat) :
    ∀ (nextSync pending : Nat) (newDuration : Int), 0 < pending →
      0 < (catchUp lib speed dts error l nextSync pending newDuration).2.1 := by
  induction l with
  | nil =>
    intro nextSync pending newDuration hp
    unfold catchUp
    split
    · exact hp
    · exact hp
  | cons r rest ih =>
    intro nextSync pending newDuration hp
    unfold catchUp
    split
    · split
      · rename_i hr
        exact ih r r _ hr
      · exact hp
    · exact hp

/-- The catch-up loop started without a pending seek returns one exactly when
the tick is late and the first query finds a later sync sample. -/
theorem catchUp_pending (lib : Libs) (speed : F32) (dts : Nat) (error : Int) (l : List Nat)
    (nextSync : Nat) (newDuration : Int) :
    0 < (catchUp lib speed dts error l nextSync 0 newDuration).2.1 ↔
      (toInt64 (newDuration - error) < 0 ∧ 0 < l.headD 0) := by
  cases l with
  | nil =>
    unfold catchUp
    split
    · simp
    · simp
  | cons r rest =>
    unfold catchUp
    split
    · rename_i hlate
      split
      · rename_i hr
        have := catchUp_pending_pos lib speed dts error rest r r
          (scaledDuration lib speed dts r) hr
        simp only [List.headD_cons]
        exact ⟨fun _ => ⟨hlate, hr⟩, fun _ => this⟩
      · rename_i hr
        simp only [List.headD_cons]
        constructor
        · intro h
          exact absurd h (Nat.lt_irrefl 0)
        · intro h
          exact absurd h.2 hr
    · rename_i hlate
      simp only [List.headD_cons]
      constructor
      · intro h
        exact absurd h (Nat.lt_irrefl 0)
      · intro h
        exact absurd h.1 hlate

/-- The duration of a sample played forward below the maximum speed: the
catch-up seek is committed when the loop returns a pending seek and the new
wait is below twice the average output interval. -/
theorem sampleDuration_forward (lib : Libs) (inp : TickInputs) (speed : F32)
    (sample : Mp4TrackSample) (silent : Bool) (error avg : Int)
    (h1 : speed.ge lib.PDRAW_PLAY_SPEED_MAX = false) (h2 : sample.next_sample_dts ≠ 0)
    (h3 : silent = false) (h4 : speed.isNegative = false) :
    sampleDuration lib inp speed sample silent error avg =
      if (catchUp lib speed sample.sample_dts error inp.syncSampleTimes sample.next_sample_dts 0
            (scaledDuration lib speed sample.sample_dts sample.next_sample_dts)).2.1 > 0 ∧
          toInt64 ((catchUp lib speed sample.sample_dts error inp.syncSampleTimes
            sample.next_sample_dts 0
            (scaledDuration lib speed sample.sample_dts sample.next_sample_dts)).2.2 - error) <
            toInt64 (2 * avg) then
        ⟨(catchUp lib speed sample.sample_dts error inp.syncSampleTimes sample.next_sample_dts 0
            (scaledDuration lib speed sample.sample_dts sample.next_sample_dts)).2.2,
          (catchUp lib speed sample.sample_dts error inp.syncSampleTimes sample.next_sample_dts 0
            (scaledDuration lib speed sample.sample_dts sample.next_sample_dts)).1,
          [Event.seek (catchUp lib speed sample.sample_dts error inp.syncSampleTimes
            sample.next_sample_dts 0
            (scaledDuration lib speed sample.sample_dts sample.next_sample_dts)).2.1]⟩
      else
        ⟨scaledDuration lib speed sample.sample_dts sample.next_sample_dts,
          sample.next_sample_dts, []⟩ := by
  have hc : (speed.ge lib.PDRAW_PLAY_SPEED_MAX || sample.next_sample_dts == 0 || silent) =
      false := by
    simp [h1, h2, h3]
  unfold sampleDuration
  simp only [hc, h4, Bool.false_eq_true, if_false, Bool.and_eq_true, decide_eq_true_eq]

/-- C30: for every tick that reaches the pacing in forward play below the
maximum speed, with a sample that is not silent and has a next sample.  With
`duration` the original duration `(next_sample_dts - sample_dts) / speed`,
`error` and `avg` the error and the average output interval that the tick
stores, and `newDuration` the duration recomputed by the catch-up loop, all
comparisons being those of signed 64-bit integers: the tick issues a catch-up
seek, as its last call, exactly when it is late (`duration - error < 0`), the
first query finds a later sync sample, and `newDuration - error < 2 * avg`; it
then stores `newDuration`.  Otherwise the pacing makes no call on the
container and the tick stores the original duration. -/
theorem tick_bounded_skip (k : Defs) (lib : Libs) (inp : TickInputs) (st : RecordDemuxer)
    (hdec : st.mDecoder ≠ none) (hrun : st.mRunning = true)
    (hr : (tickBody k lib inp st).retry = false)
    (hout : (tickBody k lib inp st).st.mRunning = true)
    (hmax : st.mSpeed.ge lib.PDRAW_PLAY_SPEED_MAX = false)
    (hfwd : st.mSpeed.isNegative = false)
    (hsilent : (tickBody k lib inp st).silent = false)
    (hnext : inp.sample.next_sample_dts ≠ 0) :
    ((∃ ts, (tick k lib inp st).2 = (tickBody k lib inp st).events ++ [Event.seek ts]) ↔
      (toInt64 (scaledDuration lib st.mSpeed inp.sample.sample_dts inp.sample.next_sample_dts -
          (tick k lib inp st).1.mLastOutputError) < 0 ∧
        0 < inp.syncSampleTimes.headD 0 ∧
        toInt64 ((catchUp lib st.mSpeed inp.sample.sample_dts
            (tick k lib inp st).1.mLastOutputError inp.syncSampleTimes
            inp.sample.next_sample_dts 0
            (scaledDuration lib st.mSpeed inp.sample.sample_dts
              inp.sample.next_sample_dts)).2.2 - (tick k lib inp st).1.mLastOutputError) <
          toInt64 (2 * (tick k lib inp st).1.mAvgOutputInterval))) ∧
    ((∃ ts, (tick k lib inp st).2 = (tickBody k lib inp st).events ++ [Event.seek ts]) →
      (tick k lib inp st).2 = (tickBody k lib inp st).events ++
        [Event.seek (catchUp lib st.mSpeed inp.sample.sample_dts
          (tick k lib inp st).1.mLastOutputError inp.syncSampleTimes
          inp.sample.next_sample_dts 0
          (scaledDuration lib st.mSpeed inp.sample.sample_dts
            inp.sample.next_sample_dts)).2.1] ∧
      (tick k lib inp st).1.mLastFrameDuration =
        (catchUp lib st.mSpeed inp.sample.sample_dts
          (tick k lib inp st).1.mLastOutputError inp.syncSampleTimes
          inp.sample.next_sample_dts 0
          (scaledDuration lib st.mSpeed inp.sample.sample_dts
            inp.sample.next_sample_dts)).2.2) ∧
    ((¬ ∃ ts, (tick k lib inp st).2 = (tickBody k lib inp st).events ++ [Event.seek ts]) →
      (tick k lib inp st).2 = (tickBody k lib inp st).events ∧
      (tick k lib inp st).1.mLastFrameDuration =
        scaledDuration lib st.mSpeed inp.sample.sample_dts inp.sample.next_sample_dts) ∧
    scaledDuration lib st.mSpeed inp.sample.sample_dts inp.sample.next_sample_dts =
      (if st.mSpeed.isZero = true then
        toInt64 ((inp.sample.next_sample_dts : Int) - (inp.sample.sample_dts : Int))
      else
        lib.durationBySpeed
          (toInt64 ((inp.sample.next_sample_dts : Int) - (inp.sample.sample_dts : Int)))
          st.mSpeed) := by
  have hp := tick_pacing k lib inp st hdec hrun hr hout
  generalize (tick k lib inp st).1.mLastOutputError = err at hp ⊢
  generalize (tick k lib inp st).1.mAvgOutputInterval = avg at hp ⊢
  have hd := sampleDuration_forward lib inp st.mSpeed inp.sample
    (tickBody k lib inp st).silent err avg hmax hnext hsilent hfwd
  have hc := catchUp_pending lib st.mSpeed inp.sample.sample_dts err inp.syncSampleTimes
    inp.sample.next_sample_dts
    (scaledDuration lib st.mSpeed inp.sample.sample_dts inp.sample.next_sample_dts)
  have hev := hp.2.2.2.2.2
  have hlfd := hp.2.2.2.1
  rw [hd] at hev hlfd
  generalize catchUp lib st.mSpeed inp.sample.sample_dts err inp.syncSampleTimes
    inp.sample.next_sample_dts 0
    (scaledDuration lib st.mSpeed inp.sample.sample_dts inp.sample.next_sample_dts) = c
    at hc hev hlfd ⊢
  have hscaled : scaledDuration lib st.mSpeed inp.sample.sample_dts inp.sample.next_sample_dts =
      (if st.mSpeed.isZero = true then
        toInt64 ((inp.sample.next_sample_dts : Int) - (inp.sample.sample_dts : Int))
      else
        lib.durationBySpeed
          (toInt64 ((inp.sample.next_sample_dts : Int) - (inp.sample.sample_dts : Int)))
          st.mSpeed) := by
    unfold scaledDuration
    cases st.mSpeed.isZero
    · simp
    · simp
  by_cases hcond : c.2.1 > 0 ∧ toInt64 (c.2.2 - err) < toInt64 (2 * avg)
  · rw [if_pos hcond] at hev hlfd
    have hex : ∃ ts, (tick k lib inp st).2 = (tickBody k lib inp st).events ++ [Event.seek ts] :=
      ⟨c.2.1, hev⟩
    refine ⟨⟨fun _ => ⟨(hc.mp hcond.1).1, (hc.mp hcond.1).2, hcond.2⟩, fun _ => hex⟩,
      fun _ => ⟨hev, hlfd⟩, fun h => absurd hex h, hscaled⟩
  · rw [if_neg hcond] at hev hlfd
    have hev2 : (tick k lib inp st).2 = (tickBody k lib inp st).events := by
      rw [hev, List.append_nil]
    have hno : ¬ ∃ ts, (tick k lib inp st).2 =
        (tickBody k lib inp st).events ++ [Event.seek ts] := by
      intro ⟨ts, h⟩
      rw [hev2] at h
      have := List.self_eq_append_right.mp h
      exact absurd this (by simp)
    refine ⟨⟨fun h => absurd h hno, fun h => absurd ⟨hc.mpr ⟨h.1, h.2.1⟩, h.2.2⟩ hcond⟩,
      fun h => absurd h hno, fun _ => ⟨hev2, hlfd⟩, hscaled⟩

set_option maxRecDepth 20000 in
/-- C30, instance: the second tick of the sample demuxer at the speed 1 comes
100 ms after the first one, which stored a duration of 33333: it is late by
66667, the next sync sample, at 200000, gives a new duration of 133334 and a
wait of 66667, below twice the average of 50000: the tick seeks to 200000 and
stores the new duration. -/
theorem tick_bounded_skip_witness :
    pacedDemuxer.mDecoder ≠ none ∧ pacedDemuxer.mRunning = true ∧
    (tickBody sampleDefs sampleLibs lateInputs pacedDemuxer).retry = false ∧
    (tickBody sampleDefs sampleLibs lateInputs pacedDemuxer).st.mRunning = true ∧
    pacedDemuxer.mSpeed.ge sampleLibs.PDRAW_PLAY_SPEED_MAX = false ∧
    pacedDemuxer.mSpeed.isNegative = false ∧
    (tickBody sampleDefs sampleLibs lateInputs pacedDemuxer).silent = false ∧
    lateInputs.sample.next_sample_dts ≠ 0 ∧
    (tick sampleDefs sampleLibs lateInputs pacedDemuxer).2 =
      (tickBody sampleDefs sampleLibs lateInputs pacedDemuxer).events ++ [Event.seek 200000] ∧
    (toInt64 (scaledDuration sampleLibs pacedDemuxer.mSpeed lateInputs.sample.sample_dts
        lateInputs.sample.next_sample_dts -
        (tick sampleDefs sampleLibs lateInputs pacedDemuxer).1.mLastOutputError) < 0 ∧
      0 < lateInputs.syncSampleTimes.headD 0 ∧
      toInt64 ((catchUp sampleLibs pacedDemuxer.mSpeed lateInputs.sample.sample_dts
          (tick sampleDefs sampleLibs lateInputs pacedDemuxer).1.mLastOutputError
          lateInputs.syncSampleTimes lateInputs.sample.next_sample_dts 0
          (scaledDuration sampleLibs pacedDemuxer.mSpeed lateInputs.sample.sample_dts
            lateInputs.sample.next_sample_dts)).2.2 -
          (tick sampleDefs sampleLibs lateInputs pacedDemuxer).1.mLastOutputError) <
        toInt64 (2 * (tick sampleDefs sampleLibs lateInputs pacedDemuxer).1.mAvgOutputInterval)) ∧
    (tick sampleDefs sampleLibs lateInputs pacedDemuxer).1.mLastOutputError = 66667 ∧
    (tick sampleDefs sampleLibs lateInputs pacedDemuxer).1.mAvgOutputInterval = 50000 ∧
    (tick sampleDefs sampleLibs lateInputs pacedDemuxer).1.mLastFrameDuration = 133334 :=
  ⟨by decide, rfl, rfl, rfl, rfl, rfl, rfl, by decide, rfl,
    (tick_bounded_skip sampleDefs sampleLibs lateInputs pacedDemuxer (by decide) rfl rfl rfl
      rfl rfl rfl (by decide)).1.mp ⟨200000, rfl⟩,
    rfl, rfl, rfl⟩


/-! ## The retry exits -/

/-- The seek step of the tick in terms of its test: it clears
`mLastFrameDuration` and `mLastOutputError` when a pending seek is carried
out with success and changes nothing otherwise. -/
theorem tickSeek_done (inp : TickInputs) (st : RecordDemuxer) :
    (tickSeek inp st).1 =
      { st with
          mLastFrameDuration := if seekCarriedOut inp st then 0 else st.mLastFrameDuration
          mLastOutputError := if seekCarriedOut inp st then 0 else st.mLastOutputError } := by
  by_cases h1 : st.mPendingSeekTs ≥ 0
  · by_cases h2 : inp.seekRet < 0
    · have hs : seekCarriedOut inp st = false := by
        unfold seekCarriedOut
        simp [h1, h2]
      have ht : tickSeek inp st = (st, [Event.seek (toUInt64 st.mPendingSeekTs)]) := by
        unfold tickSeek
        simp only [h1, h2, if_true]
      rw [ht, hs]
      rfl
    · have hs : seekCarriedOut inp st = true := by
        unfold seekCarriedOut
        simp [h1, h2]
      have ht : tickSeek inp st =
          ({ st with mLastFrameDuration := 0, mLastOutputError := 0 },
            [Event.seek (toUInt64 st.mPendingSeekTs)]) := by
        unfold tickSeek
        simp only [h1, h2, if_true, if_false]
      rw [ht, hs]
      rfl
  · by_cases h3 : st.mPendingSeekToPrevSample = true
    · cases h4 : (inp.seekPrevRet != 0)
      · have hs : seekCarriedOut inp st = true := by
          unfold seekCarriedOut
          have h5 : inp.seekPrevRet = 0 := by simpa using h4
          simp [h1, h3, h5]
        have ht : tickSeek inp st =
            ({ st with mLastFrameDuration := 0, mLastOutputError := 0 },
              [Event.seekToPrevSample]) := by
          unfold tickSeek
          simp only [h1, h3, h4, Bool.false_eq_true, if_true, if_false]
        rw [ht, hs]
        rfl
      · have hs : seekCarriedOut inp st = false := by
          unfold seekCarriedOut
          have h5 : inp.seekPrevRet ≠ 0 := by simpa using h4
          simp [h1, h3, h5]
        have ht : tickSeek inp st = (st, [Event.seekToPrevSample]) := by
          unfold tickSeek
          simp only [h1, h3, h4, if_true, if_false]
        rw [ht, hs]
        rfl
    · have hs : seekCarriedOut inp st = false := by
        unfold seekCarriedOut
        simp [h1, h3]
      have ht : tickSeek inp st = (st, []) := by
        unfold tickSeek
        simp only [h1, h3, Bool.false_eq_true, if_false]
      rw [ht, hs]
      rfl

/-- The test of the seek step reads the pending seeks only. -/
theorem seekCarriedOut_congr (inp : TickInputs) (s t : RecordDemuxer)
    (h1 : s.mPendingSeekTs = t.mPendingSeekTs)
    (h2 : s.mPendingSeekToPrevSample = t.mPendingSeekToPrevSample) :
    seekCarriedOut inp s = seekCarriedOut inp t := by
  unfold seekCarriedOut
  rw [h1, h2]

/-- No seek is carried out when none is pending. -/
theorem seekCarriedOut_of_none (inp : TickInputs) (st : RecordDemuxer)
    (h1 : st.mPendingSeekTs < 0) (h2 : st.mPendingSeekToPrevSample = false) :
    seekCarriedOut inp st = false := by
  have h3 : ¬ st.mPendingSeekTs ≥ 0 := by omega
  unfold seekCarriedOut
  simp [h3, h2]

/-- The lazy configuration reads no sample. -/
theorem tickConfigure_no_read (k : Defs) (inp : TickInputs) (st : RecordDemuxer) :
    Event.nextSample ∉ (tickConfigure k inp st).2 := by
  intro hmem
  unfold tickConfigure at hmem
  split at hmem
  · have he : ∀ e ∈ (openAvcDecoder k inp st).2.2, e ≠ Event.nextSample := by
      intro e he
      unfold openAvcDecoder at he
      split at he
      · simp at he
      · simp only at he
        split at he
        · simp at he
        · split at he
          · simp at he
          · split at he
            · simp at he
            · split at he
              · simp at he
              · split at he
                · simp at he
                · split at he
                  · simp at he
                  · split at he
                    · simp at he
                    · split at he
                      · simp only [List.mem_singleton] at he
                        subst he
                        simp
                      · split at he <;>
                        · simp only [List.mem_singleton] at he
                          subst he
                          simp
    simp only at hmem
    split at hmem
    · exact he _ hmem rfl
    · exact he _ hmem rfl
  · simp at hmem

/-- The tick body from the seek on asks for a retry only when the sample read
fails; the demuxer at the label `out` is then the one the seek step left, and
the read is among the calls. -/
theorem tickRead_retry (k : Defs) (lib : Libs) (inp : TickInputs) (st : RecordDemuxer)
    (b : VBuf) (evs : List Event) (hr : (tickRead k lib inp st b evs).retry = true) :
    inp.nextSampleRet ≠ 0 ∧ (tickRead k lib inp st b evs).st = (tickSeek inp st).1 ∧
    Event.nextSample ∈ (tickRead k lib inp st b evs).events := by
  by_cases h : (inp.nextSampleRet != 0) = true
  · have hne : inp.nextSampleRet ≠ 0 := by simpa using h
    have e : tickRead k lib inp st b evs =
        ⟨(tickSeek inp st).1, true, false, zeroSample, inp.clock1,
          evs ++ ((tickSeek inp st).2 ++ [Event.nextSample] ++
            (if inp.nextSampleRet == -ENOBUFS then [Event.skipSample] else []))⟩ := by
      unfold tickRead
      simp only [h, if_true]
      split <;> simp only [List.append_assoc, List.append_nil]
    rw [e]
    refine ⟨hne, rfl, ?_⟩
    simp
  · have heq : inp.nextSampleRet = 0 := by simpa using h
    obtain ⟨done, mid, cb, B, _, _, _, hp⟩ := tickRead_path k lib inp st b evs
    rcases hp with ⟨h1, _⟩ | ⟨_, _, hb⟩ | ⟨_, _, _, hb⟩ | ⟨_, _, _, _, hb⟩
    · exact absurd heq h1
    · rw [hb] at hr
      exact Bool.noConfusion hr
    · rw [hb] at hr
      exact Bool.noConfusion hr
    · rw [hb] at hr
      exact Bool.noConfusion hr


/-- The pacing members after a tick body from the seek on that asks for a
retry: the sample read failed, after the seek step. -/
theorem tickRead_retry_pacing (k : Defs) (lib : Libs) (inp : TickInputs) (st : RecordDemuxer)
    (b : VBuf) (evs : List Event) (hr : (tickRead k lib inp st b evs).retry = true) :
    Event.nextSample ∈ (tickRead k lib inp st b evs).events ∧ inp.nextSampleRet ≠ 0 ∧
    (tickRead k lib inp st b evs).st.mLastFrameDuration =
      (if seekCarriedOut inp st then 0 else st.mLastFrameDuration) ∧
    (tickRead k lib inp st b evs).st.mLastOutputError =
      (if seekCarriedOut inp st then 0 else st.mLastOutputError) := by
  obtain ⟨hne, hst, hmem⟩ := tickRead_retry k lib inp st b evs hr
  refine ⟨hmem, hne, ?_, ?_⟩
  · rw [hst, tickSeek_done]
  · rw [hst, tickSeek_done]

/-- The pacing members at the label `out` of a tick body that asks for a
retry.  When the body ends before the sample read (no pool, no buffer),
`mLastFrameDuration` and `mLastOutputError` are those of the entry; when the
sample read fails, they are those the seek step left. -/
theorem timerCbBody_retry (k : Defs) (lib : Libs) (inp : TickInputs) (st : RecordDemuxer)
    (hr : (timerCbBody k lib inp st).retry = true) :
    (Event.nextSample ∉ (timerCbBody k lib inp st).events ∧
      (timerCbBody k lib inp st).st.mLastFrameDuration = st.mLastFrameDuration ∧
      (timerCbBody k lib inp st).st.mLastOutputError = st.mLastOutputError) ∨
    (Event.nextSample ∈ (timerCbBody k lib inp st).events ∧ inp.nextSampleRet ≠ 0 ∧
      (timerCbBody k lib inp st).st.mLastFrameDuration =
        (if seekCarriedOut inp st then 0 else st.mLastFrameDuration) ∧
      (timerCbBody k lib inp st).st.mLastOutputError =
        (if seekCarriedOut inp st then 0 else st.mLastOutputError)) := by
  have c := tickConfigure_spec k inp st
  obtain ⟨_, _, _, _, _, _, _, hlfd, hloe, _⟩ := tickConfigure_keeps k inp st
  have hnext := tickConfigure_no_read k inp st
  have hnext' : Event.nextSample ∉ (tickConfigure k inp st).2 ++ [Event.poolGet] := by
    intro hmem
    rcases List.mem_append.1 hmem with hx | hx
    · exact hnext hx
    · simp at hx
  by_cases hp : (tickConfigure k inp st).1.mDecoderSource.pool.isNone = true
  · have e : timerCbBody k lib inp st =
        ⟨(tickConfigure k inp st).1, true, false, zeroSample, inp.clock1,
          (tickConfigure k inp st).2⟩ := by
      unfold timerCbBody
      simp only [hp, if_true]
    rw [e]
    exact Or.inl ⟨hnext, hlfd, hloe⟩
  · cases hb : (tickConfigure k inp st).1.mCurrentBuffer with
    | some b =>
      have e : timerCbBody k lib inp st =
          tickRead k lib inp (tickConfigure k inp st).1 b (tickConfigure k inp st).2 := by
        unfold timerCbBody
        simp only [hp, hb, Bool.false_eq_true, if_false]
      rw [e] at hr ⊢
      obtain ⟨h1, h2, h3, h4⟩ := tickRead_retry_pacing k lib inp _ b _ hr
      rw [seekCarriedOut_congr inp _ st c.1 c.2.1, hlfd] at h3
      rw [seekCarriedOut_congr inp _ st c.1 c.2.1, hloe] at h4
      exact Or.inr ⟨h1, h2, h3, h4⟩
    | none =>
      by_cases hg : inp.poolGetRet < 0
      · have e : timerCbBody k lib inp st =
            ⟨{ (tickConfigure k inp st).1 with mCurrentBuffer := inp.poolGetBuffer }, true,
              false, zeroSample, inp.clock1,
              (tickConfigure k inp st).2 ++ [Event.poolGet]⟩ := by
          unfold timerCbBody
          simp only [hp, hb, hg, Bool.false_eq_true, if_false, if_true]
        rw [e]
        exact Or.inl ⟨hnext', hlfd, hloe⟩
      · cases hq : inp.poolGetBuffer with
        | none =>
          have e : timerCbBody k lib inp st =
              ⟨{ (tickConfigure k inp st).1 with mCurrentBuffer := none }, true, false,
                zeroSample, inp.clock1, (tickConfigure k inp st).2 ++ [Event.poolGet]⟩ := by
            unfold timerCbBody
            simp only [hp, hb, hg, hq, Bool.false_eq_true, if_false]
          rw [e]
          exact Or.inl ⟨hnext', hlfd, hloe⟩
        | some b =>
          have e : timerCbBody k lib inp st =
              tickRead k lib inp { (tickConfigure k inp st).1 with mCurrentBuffer := some b } b
                ((tickConfigure k inp st).2 ++ [Event.poolGet]) := by
            unfold timerCbBody
            simp only [hp, hb, hg, hq, Bool.false_eq_true, if_false]
          rw [e] at hr ⊢
          obtain ⟨h1, h2, h3, h4⟩ := tickRead_retry_pacing k lib inp _ b _ hr
          have hc : seekCarriedOut inp
              { (tickConfigure k inp st).1 with mCurrentBuffer := some b } =
              seekCarriedOut inp st := seekCarriedOut_congr inp _ st c.1 c.2.1
          rw [hc] at h3 h4
          have h3' : (tickRead k lib inp
              { (tickConfigure k inp st).1 with mCurrentBuffer := some b } b
              ((tickConfigure k inp st).2 ++ [Event.poolGet])).st.mLastFrameDuration =
              (if seekCarriedOut inp st = true then 0
                else (tickConfigure k inp st).1.mLastFrameDuration) := h3
          have h4' : (tickRead k lib inp
              { (tickConfigure k inp st).1 with mCurrentBuffer := some b } b
              ((tickConfigure k inp st).2 ++ [Event.poolGet])).st.mLastOutputError =
              (if seekCarriedOut inp st = true then 0
                else (tickConfigure k inp st).1.mLastOutputError) := h4
          rw [hlfd] at h3'
          rw [hloe] at h4'
          exact Or.inr ⟨h1, h2, h3', h4'⟩

/-- The retry exits of a tick, on the demuxer at the entry: see
`timerCbBody_retry`; `mLastFrameOutputTime` and `mAvgOutputInterval` are
those of the entry and no buffer is queued. -/
theorem tickBody_retry (k : Defs) (lib : Libs) (inp : TickInputs) (st : RecordDemuxer)
    (hr : (tickBody k lib inp st).retry = true) :
    ((Event.nextSample ∉ (tickBody k lib inp st).events ∧
        (tickBody k lib inp st).st.mLastFrameDuration = st.mLastFrameDuration ∧
        (tickBody k lib inp st).st.mLastOutputError = st.mLastOutputError) ∨
      (Event.nextSample ∈ (tickBody k lib inp st).events ∧ inp.nextSampleRet ≠ 0 ∧
        (tickBody k lib inp st).st.mLastFrameDuration =
          (if seekCarriedOut inp st then 0 else st.mLastFrameDuration) ∧
        (tickBody k lib inp st).st.mLastOutputError =
          (if seekCarriedOut inp st then 0 else st.mLastOutputError))) ∧
    (tickBody k lib inp st).st.mLastFrameOutputTime = st.mLastFrameOutputTime ∧
    (tickBody k lib inp st).st.mAvgOutputInterval = st.mAvgOutputInterval ∧
    (∀ b r, Event.queueBuffer b r ∉ (tickBody k lib inp st).events) := by
  have hk := tickBody_keeps k lib inp st
  refine ⟨?_, hk.2.2.2.2.2.2.1, hk.2.2.2.2.2.1, ?_⟩
  · have h := timerCbBody_retry k lib inp { st with mTimer := ⟨none⟩ } hr
    exact h
  · obtain ⟨src, ff, done, mid, cb, B, _, _, hmid, _, hp⟩ := tickBody_path k lib inp st
    rcases hp with ⟨_, hb⟩ | ⟨_, _, _, hb⟩ | ⟨_, _, _, _, hb⟩ | ⟨_, _, _, _, _, hb⟩
    · rw [hb]
      intro b r hmem
      exact (hmid _ hmem).2 b r rfl
    · rw [hb] at hr
      exact Bool.noConfusion hr
    · rw [hb] at hr
      exact Bool.noConfusion hr
    · rw [hb] at hr
      exact Bool.noConfusion hr


set_option maxRecDepth 20000 in
/-- C31 as stated fails: the demuxer `seekingDemuxer` has a stored duration
of 33333 and a seek pending; in the next tick the seek is carried out, then
the sample read fails with `-ENOBUFS` and the sample is skipped: the tick asks
for a retry and the timer is armed at 5 ms, but the stored duration is now
0. -/
theorem seek_tick_retry_clears_duration :
    seekingDemuxer.mDecoder ≠ none ∧ seekingDemuxer.mRunning = true ∧
    (tickBody sampleDefs sampleLibs oversizedInputs seekingDemuxer).retry = true ∧
    (tick sampleDefs sampleLibs oversizedInputs seekingDemuxer).2 =
      [Event.poolGet, Event.seek 5, Event.nextSample, Event.skipSample] ∧
    (tick sampleDefs sampleLibs oversizedInputs seekingDemuxer).1.mTimer = ⟨some 5⟩ ∧
    seekingDemuxer.mLastFrameDuration = 33333 ∧
    (tick sampleDefs sampleLibs oversizedInputs seekingDemuxer).1.mLastFrameDuration = 0 := by
  refine ⟨by decide, rfl, rfl, rfl, rfl, rfl, rfl⟩

/-- C31, amended: for every tick in which a retry is asked for (no pool, no
buffer, or the sample read fails, with or without the skip of the sample):
no buffer is passed to `queue_buffer`, the timer is armed at exactly 5 ms,
and `mLastFrameOutputTime` and `mAvgOutputInterval` are those of the entry.
`mLastFrameDuration` and `mLastOutputError` are those of the entry when the
tick ends before the sample read, and when no seek is pending at the entry;
when the sample read fails they are what the seek step left: both 0 when the
pending seek was carried out with success, those of the entry otherwise. -/
theorem tick_retry (k : Defs) (lib : Libs) (inp : TickInputs) (st : RecordDemuxer)
    (hdec : st.mDecoder ≠ none) (hrun : st.mRunning = true)
    (hr : (tickBody k lib inp st).retry = true) :
    (∀ b r, Event.queueBuffer b r ∉ (tick k lib inp st).2) ∧
    (tick k lib inp st).1.mTimer = ⟨some 5⟩ ∧
    (tick k lib inp st).1.mLastFrameOutputTime = st.mLastFrameOutputTime ∧
    (tick k lib inp st).1.mAvgOutputInterval = st.mAvgOutputInterval ∧
    (Event.nextSample ∉ (tick k lib inp st).2 →
      (tick k lib inp st).1.mLastFrameDuration = st.mLastFrameDuration ∧
      (tick k lib inp st).1.mLastOutputError = st.mLastOutputError) ∧
    (Event.nextSample ∈ (tick k lib inp st).2 →
      inp.nextSampleRet ≠ 0 ∧
      (tick k lib inp st).1.mLastFrameDuration =
        (if seekCarriedOut inp st then 0 else st.mLastFrameDuration) ∧
      (tick k lib inp st).1.mLastOutputError =
        (if seekCarriedOut inp st then 0 else st.mLastOutputError)) ∧
    (st.mPendingSeekTs < 0 → st.mPendingSeekToPrevSample = false →
      (tick k lib inp st).1.mLastFrameDuration = st.mLastFrameDuration ∧
      (tick k lib inp st).1.mLastOutputError = st.mLastOutputError) := by
  obtain ⟨hcase, hlfo, havg, hq⟩ := tickBody_retry k lib inp st hr
  rw [tick_eq_out k lib inp st hdec hrun,
    timerCbOut_of_retry lib inp st.mSpeed (tickBody k lib inp st) hr]
  refine ⟨hq, rfl, hlfo, havg, ?_, ?_, ?_⟩
  · intro hn
    rcases hcase with ⟨_, h1, h2⟩ | ⟨hm, _⟩
    · exact ⟨h1, h2⟩
    · exact absurd hm hn
  · intro hm
    rcases hcase with ⟨hn, _⟩ | ⟨_, h1, h2, h3⟩
    · exact absurd hm hn
    · exact ⟨h1, h2, h3⟩
  · intro hp1 hp2
    rcases hcase with ⟨_, h1, h2⟩ | ⟨_, _, h2, h3⟩
    · exact ⟨h1, h2⟩
    · rw [seekCarriedOut_of_none inp st hp1 hp2] at h2 h3
      exact ⟨h2, h3⟩

set_option maxRecDepth 20000 in
/-- C31, instance of the amended statement: on the demuxer `pacedDemuxer`,
with no seek pending, a tick in which the sample read fails with `-ENOBUFS`
skips the sample, queues nothing, arms the timer at 5 ms and leaves the four
pacing members as they were. -/
theorem tick_retry_witness :
    pacedDemuxer.mDecoder ≠ none ∧ pacedDemuxer.mRunning = true ∧
    (tickBody sampleDefs sampleLibs oversizedInputs pacedDemuxer).retry = true ∧
    pacedDemuxer.mPendingSeekTs < 0 ∧ pacedDemuxer.mPendingSeekToPrevSample = false ∧
    (tick sampleDefs sampleLibs oversizedInputs pacedDemuxer).2 =
      [Event.poolGet, Event.nextSample, Event.skipSample] ∧
    (∀ b r, Event.queueBuffer b r ∉ (tick sampleDefs sampleLibs oversizedInputs pacedDemuxer).2) ∧
    (tick sampleDefs sampleLibs oversizedInputs pacedDemuxer).1.mTimer = ⟨some 5⟩ ∧
    (tick sampleDefs sampleLibs oversizedInputs pacedDemuxer).1.mLastFrameOutputTime =
      pacedDemuxer.mLastFrameOutputTime ∧
    (tick sampleDefs sampleLibs oversizedInputs pacedDemuxer).1.mAvgOutputInterval =
      pacedDemuxer.mAvgOutputInterval ∧
    ((tick sampleDefs sampleLibs oversizedInputs pacedDemuxer).1.mLastFrameDuration =
        pacedDemuxer.mLastFrameDuration ∧
      (tick sampleDefs sampleLibs oversizedInputs pacedDemuxer).1.mLastOutputError =
        pacedDemuxer.mLastOutputError) :=
  ⟨by decide, rfl, rfl, by decide, rfl, rfl,
    (tick_retry sampleDefs sampleLibs oversizedInputs pacedDemuxer (by decide) rfl rfl).1,
    (tick_retry sampleDefs sampleLibs oversizedInputs pacedDemuxer (by decide) rfl rfl).2.1,
    (tick_retry sampleDefs sampleLibs oversizedInputs pacedDemuxer (by decide) rfl rfl).2.2.1,
    (tick_retry sampleDefs sampleLibs oversizedInputs pacedDemuxer (by decide) rfl
      rfl).2.2.2.1,
    (tick_retry sampleDefs sampleLibs oversizedInputs pacedDemuxer (by decide) rfl
      rfl).2.2.2.2.2.2 (by decide) rfl⟩


/-! ## The average never overshoots -/

/-- C32: with `a` the old value of `mAvgOutputInterval` (a signed 64-bit
value) and `x` the measured interval `now - mLastFrameOutputTime` as a signed
64-bit value, when `x - a` does not overflow the updated value
`a + ((x - a) >> 1)` is `a + floor((x - a) / 2)`, lies between `a` and `x`
inclusive, and equals `a` exactly when `x - a` is 0 or 1.  It is the value
that every tick reaching the pacing stores, `mLastFrameOutputTime` being not
0. -/
theorem average_bounded (st : RecordDemuxer) (now : Nat)
    (hlfo : st.mLastFrameOutputTime ≠ 0)
    (ha1 : -2 ^ 63 ≤ st.mAvgOutputInterval) (ha2 : st.mAvgOutputInterval < 2 ^ 63)
    (hs1 : -2 ^ 63 ≤ toInt64 ((now : Int) - (st.mLastFrameOutputTime : Int)) -
      st.mAvgOutputInterval)
    (hs2 : toInt64 ((now : Int) - (st.mLastFrameOutputTime : Int)) -
      st.mAvgOutputInterval < 2 ^ 63) :
    avgOutputInterval st now =
      st.mAvgOutputInterval +
        (toInt64 ((now : Int) - (st.mLastFrameOutputTime : Int)) - st.mAvgOutputInterval) / 2 ∧
    min st.mAvgOutputInterval (toInt64 ((now : Int) - (st.mLastFrameOutputTime : Int))) ≤
      avgOutputInterval st now ∧
    avgOutputInterval st now ≤
      max st.mAvgOutputInterval (toInt64 ((now : Int) - (st.mLastFrameOutputTime : Int))) ∧
    (avgOutputInterval st now = st.mAvgOutputInterval ↔
      (toInt64 ((now : Int) - (st.mLastFrameOutputTime : Int)) - st.mAvgOutputInterval = 0 ∨
        toInt64 ((now : Int) - (st.mLastFrameOutputTime : Int)) - st.mAvgOutputInterval = 1)) ∧
    (∀ (k : Defs) (lib : Libs) (inp : TickInputs) (st0 : RecordDemuxer),
      st0.mDecoder ≠ none → st0.mRunning = true → (tickBody k lib inp st0).retry = false →
      (tickBody k lib inp st0).st.mRunning = true →
      (tick k lib inp st0).1.mAvgOutputInterval =
        avgOutputInterval st0 (tickBody k lib inp st0).curTime) := by
  have hx := toInt64_range ((now : Int) - (st.mLastFrameOutputTime : Int))
  have hb : (st.mLastFrameOutputTime != 0) = true := by simpa using hlfo
  have hv : avgOutputInterval st now =
      st.mAvgOutputInterval +
        (toInt64 ((now : Int) - (st.mLastFrameOutputTime : Int)) - st.mAvgOutputInterval) / 2 := by
    unfold avgOutputInterval
    simp only [hb, if_true]
    rw [toInt64_of_range _ hs1 hs2, shiftRight_one_eq_div]
    apply toInt64_of_range
    · omega
    · omega
  refine ⟨hv, ?_, ?_, ?_, ?_⟩
  · rw [hv]
    omega
  · rw [hv]
    omega
  · rw [hv]
    omega
  · intro k lib inp st0 hdec hrun hr hout
    have hp := tick_pacing k lib inp st0 hdec hrun hr hout
    have hk := tickBody_keeps k lib inp st0
    rw [hp.2.1]
    unfold avgOutputInterval
    rw [hk.2.2.2.2.2.2.1, hk.2.2.2.2.2.1]

set_option maxRecDepth 20000 in
/-- C32, instance: on the demuxer `pacedDemuxer`, with the average at 0 and
the previous output at 1000010, at the time 1033353 the measured interval is
33343 and the new average 16671, between 0 and 33343. -/
theorem average_bounded_witness :
    pacedDemuxer.mLastFrameOutputTime ≠ 0 ∧
    pacedDemuxer.mAvgOutputInterval = 0 ∧
    toInt64 (((1033353 : Nat) : Int) - (pacedDemuxer.mLastFrameOutputTime : Int)) = 33343 ∧
    avgOutputInterval pacedDemuxer 1033353 = 16671 ∧
    min pacedDemuxer.mAvgOutputInterval
        (toInt64 (((1033353 : Nat) : Int) - (pacedDemuxer.mLastFrameOutputTime : Int))) ≤
      avgOutputInterval pacedDemuxer 1033353 ∧
    avgOutputInterval pacedDemuxer 1033353 ≤
      max pacedDemuxer.mAvgOutputInterval
        (toInt64 (((1033353 : Nat) : Int) - (pacedDemuxer.mLastFrameOutputTime : Int))) :=
  ⟨by decide, rfl, by decide, by decide,
    (average_bounded pacedDemuxer 1033353 (by decide) (by decide) (by decide) (by decide)
      (by decide)).2.1,
    (average_bounded pacedDemuxer 1033353 (by decide) (by decide) (by decide) (by decide)
      (by decide)).2.2.1⟩


/-! ## Termination of the NAL unit loop -/

/-- The NAL unit loop stops at once when its test fails. -/
theorem nalLoop_of_exit (byteStream : Bool) (sampleSize fuel : Nat) (s : NalScan)
    (h : ¬ s.offset < sampleSize) : nalLoop byteStream sampleSize fuel s = s := by
  cases fuel with
  | zero => rfl
  | succ f =>
    unfold nalLoop
    simp only [h, if_false]

/-- The NAL unit loop runs its body when its test holds. -/
theorem nalLoop_succ (byteStream : Bool) (sampleSize fuel : Nat) (s : NalScan)
    (h : s.offset < sampleSize) :
    nalLoop byteStream sampleSize (fuel + 1) s =
      nalLoop byteStream sampleSize fuel (nalStep byteStream s) := by
  rw [nalLoop]
  simp only [h, if_true]
  rfl

/-- The offset after one iteration of the loop entered with its test true is
the sum `offset + 4 + naluSize`: it does not wrap. -/
theorem nalStep_offset (byteStream : Bool) (sampleSize : Nat) (s : NalScan)
    (hsize : sampleSize + 2 ^ 32 + 3 ≤ 2 ^ 64) (h : s.offset < sampleSize) :
    (nalStep byteStream s).offset = s.offset + (4 + ntohlAt s.mem s.offset) := by
  have hn := ntohlAt_lt s.mem s.offset
  show (s.offset + (4 + ntohlAt s.mem s.offset)) % 2 ^ 64 = _
  exact Nat.mod_eq_of_lt (by omega)

/-- With enough iterations left, 4 bytes for each, the NAL unit loop ends by
its test. -/
theorem nalLoop_ends (byteStream : Bool) (sampleSize : Nat)
    (hsize : sampleSize + 2 ^ 32 + 3 ≤ 2 ^ 64) :
    ∀ (fuel : Nat) (s : NalScan), sampleSize ≤ s.offset + 4 * fuel →
      sampleSize ≤ (nalLoop byteStream sampleSize fuel s).offset := by
  intro fuel
  induction fuel with
  | zero =>
    intro s h
    simpa [nalLoop] using h
  | succ f ih =>
    intro s h
    by_cases hc : s.offset < sampleSize
    · rw [nalLoop_succ byteStream sampleSize f s hc]
      apply ih
      rw [nalStep_offset byteStream sampleSize s hsize hc]
      omega
    · rw [nalLoop_of_exit byteStream sampleSize _ s hc]
      omega

/-- Once the NAL unit loop has ended by its test, more iterations allowed
change nothing. -/
theorem nalLoop_stable (byteStream : Bool) (sampleSize : Nat) :
    ∀ (fuel : Nat) (s : NalScan), sampleSize ≤ (nalLoop byteStream sampleSize fuel s).offset →
      ∀ n : Nat, nalLoop byteStream sampleSize (fuel + n) s =
        nalLoop byteStream sampleSize fuel s := by
  intro fuel
  induction fuel with
  | zero =>
    intro s h n
    have h0 : nalLoop byteStream sampleSize 0 s = s := rfl
    rw [h0] at h ⊢
    exact nalLoop_of_exit byteStream sampleSize _ s (by omega)
  | succ f ih =>
    intro s h n
    by_cases hc : s.offset < sampleSize
    · rw [nalLoop_succ byteStream sampleSize f s hc] at h ⊢
      rw [Nat.add_right_comm, nalLoop_succ byteStream sampleSize (f + n) s hc]
      exact ih _ h n
    · rw [nalLoop_of_exit byteStream sampleSize _ s hc,
        nalLoop_of_exit byteStream sampleSize _ s hc]

/-- C33: the NAL unit loop terminates, for every sample size that leaves room
for one NAL unit length below the range of the 64-bit `size_t` (every 32-bit
size does) and every content of the buffer.  An iteration entered with the
test true sets the offset to `offset + 4 + naluSize`, without wrap-around,
which is at least `offset + 4`; an iteration is not entered once the offset
has reached the sample size.  Hence from the offset 0 the loop has ended by
its test after at most `ceil(sampleSize / 4)` iterations: the result with
that many iterations allowed has the offset at or past the sample size, and
it is the result with any larger number allowed, in particular the one the
tick uses. -/
theorem nalLoop_terminates (byteStream : Bool) (sampleSize : Nat)
    (hsize : sampleSize + 2 ^ 32 + 3 ≤ 2 ^ 64) :
    (∀ (fuel : Nat) (s : NalScan), s.offset < sampleSize →
      nalLoop byteStream sampleSize (fuel + 1) s =
        nalLoop byteStream sampleSize fuel (nalStep byteStream s) ∧
      (nalStep byteStream s).offset = s.offset + 4 + ntohlAt s.mem s.offset ∧
      s.offset + 4 ≤ (nalStep byteStream s).offset ∧
      (nalStep byteStream s).offset < 2 ^ 64) ∧
    (∀ (fuel : Nat) (s : NalScan), ¬ s.offset < sampleSize →
      nalLoop byteStream sampleSize fuel s = s) ∧
    (∀ mem : List Nat,
      sampleSize ≤
        (nalLoop byteStream sampleSize ((sampleSize + 3) / 4) ⟨mem, none, 0, 0⟩).offset ∧
      (∀ fuel : Nat, (sampleSize + 3) / 4 ≤ fuel →
        nalLoop byteStream sampleSize fuel ⟨mem, none, 0, 0⟩ =
          nalLoop byteStream sampleSize ((sampleSize + 3) / 4) ⟨mem, none, 0, 0⟩) ∧
      nalScan byteStream mem sampleSize =
        nalLoop byteStream sampleSize ((sampleSize + 3) / 4) ⟨mem, none, 0, 0⟩) := by
  refine ⟨?_, fun fuel s h => nalLoop_of_exit byteStream sampleSize fuel s h, ?_⟩
  · intro fuel s h
    have ho := nalStep_offset byteStream sampleSize s hsize h
    have hn := ntohlAt_lt s.mem s.offset
    refine ⟨nalLoop_succ byteStream sampleSize fuel s h, ?_, ?_, ?_⟩
    · rw [ho]
      omega
    · rw [ho]
      omega
    · rw [ho]
      omega
  · intro mem
    have hend : sampleSize ≤
        (nalLoop byteStream sampleSize ((sampleSize + 3) / 4) ⟨mem, none, 0, 0⟩).offset := by
      apply nalLoop_ends byteStream sampleSize hsize
      show sampleSize ≤ 0 + 4 * ((sampleSize + 3) / 4)
      omega
    have hst := nalLoop_stable byteStream sampleSize ((sampleSize + 3) / 4) ⟨mem, none, 0, 0⟩ hend
    refine ⟨hend, ?_, ?_⟩
    · intro fuel hf
      have h := hst (fuel - (sampleSize + 3) / 4)
      have e : (sampleSize + 3) / 4 + (fuel - (sampleSize + 3) / 4) = fuel := by omega
      rw [e] at h
      exact h
    · unfold nalScan
      have h := hst (sampleSize / 4 + 1 - (sampleSize + 3) / 4)
      have e : (sampleSize + 3) / 4 + (sampleSize / 4 + 1 - (sampleSize + 3) / 4) =
          sampleSize / 4 + 1 := by omega
      rw [e] at h
      exact h

/-- C33, instance: the malformed sample of 7 bytes, whose second NAL unit
length lies across the end of the sample, ends within 2 iterations. -/
theorem nalLoop_terminates_witness :
    (7 : Nat) + 2 ^ 32 + 3 ≤ 2 ^ 64 ∧
    (7 + 3) / 4 = 2 ∧
    7 ≤ (nalLoop true 7 ((7 + 3) / 4)
      ⟨[0, 0, 0, 1, 0x65, 0, 0] ++ List.replicate 9 0xAA, none, 0, 0⟩).offset ∧
    nalScan true ([0, 0, 0, 1, 0x65, 0, 0] ++ List.replicate 9 0xAA) 7 =
      nalLoop true 7 ((7 + 3) / 4)
        ⟨[0, 0, 0, 1, 0x65, 0, 0] ++ List.replicate 9 0xAA, none, 0, 0⟩ :=
  ⟨by decide, by decide,
    ((nalLoop_terminates true 7 (by decide)).2.2
      ([0, 0, 0, 1, 0x65, 0, 0] ++ List.replicate 9 0xAA)).1,
    ((nalLoop_terminates true 7 (by decide)).2.2
      ([0, 0, 0, 1, 0x65, 0, 0] ++ List.replicate 9 0xAA)).2.2⟩

end RecordDemuxer

end Pdraw
